import Mathlib

/-!
# Lock-free ring queues: `LockFreeSPSCQueue` and `LockFreeMPSCQueue`

A shallow embedding of `src/queues/LockFreeSPSCQueue.h` and
`src/queues/LockFreeMPSCQueue.h`.

* `size_t` is a natural number below `2 ^ 64`; every arithmetic operation of the
  source is followed by `% 2 ^ 64` (`wrap`).
* Raw storage for one payload is an `Option T`: `none` is storage that holds no
  constructed payload, `some v` is storage holding the live payload `v`.
* A call that spins in its wait loop while no other thread runs never returns; the
  embedding gives such a call the outcome `waits`.
-/

/-- Width of `size_t` on the targets of the repository. -/
def SIZE_BITS : Nat := 64

/-- Reduction of a natural number to a `size_t`. -/
def wrap (n : Nat) : Nat := n % 2 ^ SIZE_BITS

/-- Result of a call made while no other thread runs. -/
inductive Outcome (α : Type) where
  /-- The call returns. -/
  | done (a : α)
  /-- The call stays in its `pause` loop for ever. -/
  | waits
  /-- The call moves a payload out of storage that holds none. -/
  | undefined
  deriving DecidableEq, Repr

/-- Operations issued on a queue; `enq p x` is `enqueue(x)` called by producer `p`. -/
inductive Op (T : Type) where
  | enq (p : Nat) (x : T)
  | deq
  deriving DecidableEq, Repr

/-- Values passed to `enqueue`, in call order. -/
def Op.enqueued {T : Type} : List (Op T) → List T
  | [] => []
  | Op.enq _ x :: ops => x :: Op.enqueued ops
  | Op.deq :: ops => Op.enqueued ops

/-- Values passed to `enqueue` by producer `p`, in call order. -/
def Op.enqueuedBy {T : Type} (p : Nat) : List (Op T) → List T
  | [] => []
  | Op.enq p' x :: ops => if p' = p then x :: Op.enqueuedBy p ops else Op.enqueuedBy p ops
  | Op.deq :: ops => Op.enqueuedBy p ops

/-- Number of `dequeue` calls. -/
def Op.dequeues {T : Type} : List (Op T) → Nat
  | [] => 0
  | Op.enq _ _ :: ops => Op.dequeues ops
  | Op.deq :: ops => Op.dequeues ops + 1

/-- What a run of operations has produced so far: the queue, the values returned by
`dequeue` in order, and the numbers of payload constructor and destructor calls. -/
structure Run (Q T : Type) where
  queue : Q
  dequeued : List T
  constructed : Nat
  destroyed : Nat
  deriving DecidableEq, Repr

/-! ## LockFreeSPSCQueue -/

/-- State of a `LockFreeSPSCQueue<T>` (LockFreeSPSCQueue.h:132-142). -/
structure LockFreeSPSCQueue (T : Type) where
  buffer : List (Option T)
  buffer_size : Nat
  modulo_mask : Nat
  write_index : Nat
  read_index : Nat
  deriving DecidableEq, Repr

namespace LockFreeSPSCQueue

variable {T : Type}

/-- Constructor (LockFreeSPSCQueue.h:22-35): `none` when the assertion fails. -/
def construct (buffer_size_ : Nat) : Option (LockFreeSPSCQueue T) :=
  let modulo_mask := wrap (buffer_size_ + 2 ^ SIZE_BITS - 1)
  if buffer_size_ < 2 ^ SIZE_BITS ∧ buffer_size_ > 1 ∧ (buffer_size_ &&& modulo_mask) = 0 then
    some { buffer := List.replicate buffer_size_ none
           buffer_size := buffer_size_
           modulo_mask := modulo_mask
           write_index := 0
           read_index := 0 }
  else none

/-- Function `distance` (LockFreeSPSCQueue.h:111-114): `(to_ - from_ + _buffer_size) & _modulo_mask`. -/
def distance (q : LockFreeSPSCQueue T) (from_ to_ : Nat) : Nat :=
  wrap (wrap (to_ + 2 ^ SIZE_BITS - from_) + q.buffer_size) &&& q.modulo_mask

/-- Function `incremented` (LockFreeSPSCQueue.h:116-119): `(index_ + 1) & _modulo_mask`. -/
def incremented (q : LockFreeSPSCQueue T) (index_ : Nat) : Nat :=
  wrap (index_ + 1) &&& q.modulo_mask

/-- Function `enqueue` (LockFreeSPSCQueue.h:46-71). -/
def enqueue (q : LockFreeSPSCQueue T) (element_ : T) : Outcome (LockFreeSPSCQueue T) :=
  let current_write_index := q.write_index
  let current_read_index := q.read_index
  if q.distance current_read_index current_write_index != q.modulo_mask then
    Outcome.done { q with
      buffer := q.buffer.set current_write_index (some element_)
      write_index := q.incremented current_write_index }
  else Outcome.waits

/-- Function `dequeue` (LockFreeSPSCQueue.h:73-98). -/
def dequeue (q : LockFreeSPSCQueue T) : Outcome (T × LockFreeSPSCQueue T) :=
  let current_read_index := q.read_index
  let current_write_index := q.write_index
  if current_write_index != current_read_index then
    match q.buffer.getD current_read_index none with
    | some result =>
      Outcome.done (result, { q with
        buffer := q.buffer.set current_read_index none
        read_index := q.incremented current_read_index })
    | none => Outcome.undefined
  else Outcome.waits

/-- Function `destroy_elements` (LockFreeSPSCQueue.h:121-130): the slots whose payload the loop
destroys, in order: `i = _read_index; i < _write_index; ++i`. -/
def destroyed_slots (q : LockFreeSPSCQueue T) : List Nat :=
  List.range' q.read_index (q.write_index - q.read_index)

/-- Function `destroy_elements` (LockFreeSPSCQueue.h:121-130): the queue after the loop. -/
def destroy_elements (q : LockFreeSPSCQueue T) : LockFreeSPSCQueue T :=
  { q with buffer := q.destroyed_slots.foldl (fun b i => b.set i none) q.buffer }

/-- Function `clear` (LockFreeSPSCQueue.h:103-108). -/
def clear (q : LockFreeSPSCQueue T) : LockFreeSPSCQueue T :=
  { q.destroy_elements with read_index := 0, write_index := 0 }

/-- Number of storage cells that hold a live payload. -/
def live_payloads (q : LockFreeSPSCQueue T) : Nat :=
  q.buffer.countP Option.isSome

/-- Slots of the ring interval `[read_index, write_index)`, in ring order. -/
def ring_interval (q : LockFreeSPSCQueue T) : List Nat :=
  (List.range (q.distance q.read_index q.write_index)).map
    (fun j => (q.read_index + j) % q.buffer_size)

/-- One operation of a run; `none` when the call does not return. -/
def step (s : Run (LockFreeSPSCQueue T) T) : Op T → Option (Run (LockFreeSPSCQueue T) T)
  | Op.enq _ x =>
    match s.queue.enqueue x with
    | Outcome.done q => some { s with queue := q, constructed := s.constructed + 1 }
    | _ => none
  | Op.deq =>
    match s.queue.dequeue with
    | Outcome.done (v, q) =>
      some { s with queue := q, dequeued := s.dequeued ++ [v], destroyed := s.destroyed + 1 }
    | _ => none

/-- A sequence of operations in which every call returns. -/
def run (s : Run (LockFreeSPSCQueue T) T) : List (Op T) → Option (Run (LockFreeSPSCQueue T) T)
  | [] => some s
  | op :: ops =>
    match step s op with
    | some s' => run s' ops
    | none => none

/-- A run that starts on a freshly constructed queue of `buffer_size_` slots. -/
def run_fresh (buffer_size_ : Nat) (ops : List (Op T)) : Option (Run (LockFreeSPSCQueue T) T) :=
  match construct buffer_size_ with
  | some q => run { queue := q, dequeued := [], constructed := 0, destroyed := 0 } ops
  | none => none

end LockFreeSPSCQueue

/-! ## LockFreeMPSCQueue -/

/-- Enumeration `Slot::State` (LockFreeMPSCQueue.h:23-28). -/
inductive LockFreeMPSCQueue.Slot.State where
  | Empty
  | Writing
  | Occupied
  deriving DecidableEq, Repr

/-- Class `Slot` (LockFreeMPSCQueue.h:20-63): raw storage for one payload and the atomic state. -/
structure LockFreeMPSCQueue.Slot (T : Type) where
  element : Option T
  state : LockFreeMPSCQueue.Slot.State
  deriving DecidableEq, Repr

/-- State of a `LockFreeMPSCQueue<T>` (LockFreeMPSCQueue.h:193-203). -/
structure LockFreeMPSCQueue (T : Type) where
  buffer : List (LockFreeMPSCQueue.Slot T)
  buffer_size : Nat
  modulo_mask : Nat
  write_index : Nat
  read_index : Nat
  deriving DecidableEq, Repr

namespace LockFreeMPSCQueue

open Slot (State)

variable {T : Type}

/-- Default constructor `Slot::Slot()` (LockFreeMPSCQueue.h:31-33). -/
def Slot.fresh : Slot T := { element := none, state := State.Empty }

/-- Constructor (LockFreeMPSCQueue.h:70-88): `none` when the assertion fails. -/
def construct (buffer_size_ : Nat) : Option (LockFreeMPSCQueue T) :=
  let modulo_mask := wrap (buffer_size_ + 2 ^ SIZE_BITS - 1)
  if buffer_size_ < 2 ^ SIZE_BITS ∧ buffer_size_ > 1 ∧ (buffer_size_ &&& modulo_mask) = 0 then
    some { buffer := List.replicate buffer_size_ Slot.fresh
           buffer_size := buffer_size_
           modulo_mask := modulo_mask
           write_index := 0
           read_index := 0 }
  else none

/-- Function `distance` (LockFreeMPSCQueue.h:183-186). -/
def distance (q : LockFreeMPSCQueue T) (from_ to_ : Nat) : Nat :=
  wrap (wrap (to_ + 2 ^ SIZE_BITS - from_) + q.buffer_size) &&& q.modulo_mask

/-- Function `incremented` (LockFreeMPSCQueue.h:188-191). -/
def incremented (q : LockFreeMPSCQueue T) (index_ : Nat) : Nat :=
  wrap (index_ + 1) &&& q.modulo_mask

/-- The slot `_buffer[i]`. -/
def slot (q : LockFreeMPSCQueue T) (i : Nat) : Slot T :=
  q.buffer.getD i Slot.fresh

/-- A store to `_buffer[i]._state`. -/
def store_state (q : LockFreeMPSCQueue T) (i : Nat) (s : State) : LockFreeMPSCQueue T :=
  { q with buffer := q.buffer.set i { q.slot i with state := s } }

/-- A write of the storage of `_buffer[i]`. -/
def store_element (q : LockFreeMPSCQueue T) (i : Nat) (e : Option T) : LockFreeMPSCQueue T :=
  { q with buffer := q.buffer.set i { q.slot i with element := e } }

/-- The full test of `enqueue` (LockFreeMPSCQueue.h:110) on the observed cursors. -/
def ring_full (q : LockFreeMPSCQueue T) (current_write_index current_read_index : Nat) : Bool :=
  q.distance current_write_index current_read_index == 1

/-- The compare-and-swap `Empty -> Writing` on `_buffer[i]._state`
(LockFreeMPSCQueue.h:117-123); `weak_fail` is a spurious failure of the weak form. -/
def slot_cas (q : LockFreeMPSCQueue T) (i : Nat) (weak_fail : Bool) :
    Bool × LockFreeMPSCQueue T :=
  if (q.slot i).state = State.Empty ∧ weak_fail = false then
    (true, q.store_state i State.Writing)
  else (false, q)

/-- The compare-and-swap of `_write_index` from the observed value to its successor
(LockFreeMPSCQueue.h:125-129); `weak_fail` is a spurious failure of the weak form. -/
def index_cas (q : LockFreeMPSCQueue T) (current_write_index : Nat) (weak_fail : Bool) :
    Bool × LockFreeMPSCQueue T :=
  if q.write_index = current_write_index ∧ weak_fail = false then
    (true, { q with write_index := q.incremented current_write_index })
  else (false, q)

/-- One pass through the retry loop of `enqueue` (LockFreeMPSCQueue.h:104-140) with the
observed cursors `current_write_index`, `current_read_index`: whether the loop is left
(`break`), and the queue after the pass. -/
def enqueue_pass (q : LockFreeMPSCQueue T) (current_write_index current_read_index : Nat)
    (slot_weak_fail index_weak_fail : Bool) : Bool × LockFreeMPSCQueue T :=
  if q.ring_full current_write_index current_read_index then (false, q)
  else
    match q.slot_cas current_write_index slot_weak_fail with
    | (true, q1) =>
      match q1.index_cas current_write_index index_weak_fail with
      | (true, q2) => (true, q2)
      | (false, q2) => (false, q2.store_state current_write_index State.Empty)
    | (false, q1) => (false, q1)

/-- The end of `enqueue` (LockFreeMPSCQueue.h:142-147): placement of the payload in the
claimed slot and the store of `Occupied`. -/
def enqueue_publish (q : LockFreeMPSCQueue T) (i : Nat) (element_ : T) : LockFreeMPSCQueue T :=
  (q.store_element i (some element_)).store_state i State.Occupied

/-- Function `enqueue` (LockFreeMPSCQueue.h:100-148) called while no other thread runs. A pass
that does not leave the loop is repeated on the same cursors and slot states. -/
def enqueue (q : LockFreeMPSCQueue T) (element_ : T) : Outcome (LockFreeMPSCQueue T) :=
  let current_write_index := q.write_index
  let current_read_index := q.read_index
  match q.enqueue_pass current_write_index current_read_index false false with
  | (true, q1) => Outcome.done (q1.enqueue_publish current_write_index element_)
  | (false, _) => Outcome.waits

/-- Function `dequeue` (LockFreeMPSCQueue.h:150-169) called while no other thread runs. -/
def dequeue (q : LockFreeMPSCQueue T) : Outcome (T × LockFreeMPSCQueue T) :=
  let current_read_index := q.read_index
  if (q.slot current_read_index).state != State.Occupied then Outcome.waits
  else
    match (q.slot current_read_index).element with
    | some result =>
      let q1 := q.store_element current_read_index none
      let q2 := { q1 with read_index := q1.incremented current_read_index }
      Outcome.done (result, q2.store_state current_read_index State.Empty)
    | none => Outcome.undefined

/-- Number of storage cells that hold a live payload. -/
def live_payloads (q : LockFreeMPSCQueue T) : Nat :=
  q.buffer.countP (fun s => s.element.isSome)

/-- Number of slots whose state is `Writing` or `Occupied`. -/
def claimed_slots (q : LockFreeMPSCQueue T) : Nat :=
  q.buffer.countP (fun s => s.state != State.Empty)

/-- One operation of a run; `none` when the call does not return. -/
def step (s : Run (LockFreeMPSCQueue T) T) : Op T → Option (Run (LockFreeMPSCQueue T) T)
  | Op.enq _ x =>
    match s.queue.enqueue x with
    | Outcome.done q => some { s with queue := q, constructed := s.constructed + 1 }
    | _ => none
  | Op.deq =>
    match s.queue.dequeue with
    | Outcome.done (v, q) =>
      some { s with queue := q, dequeued := s.dequeued ++ [v], destroyed := s.destroyed + 1 }
    | _ => none

/-- A sequence of operations in which every call returns. -/
def run (s : Run (LockFreeMPSCQueue T) T) : List (Op T) → Option (Run (LockFreeMPSCQueue T) T)
  | [] => some s
  | op :: ops =>
    match step s op with
    | some s' => run s' ops
    | none => none

/-- A run that starts on a freshly constructed queue of `buffer_size_` slots. -/
def run_fresh (buffer_size_ : Nat) (ops : List (Op T)) : Option (Run (LockFreeMPSCQueue T) T) :=
  match construct buffer_size_ with
  | some q => run { queue := q, dequeued := [], constructed := 0, destroyed := 0 } ops
  | none => none

/-- The cursors and storage cells of the queue, read as a `LockFreeSPSCQueue`. -/
def cells (q : LockFreeMPSCQueue T) : LockFreeSPSCQueue T :=
  { buffer := q.buffer.map Slot.element
    buffer_size := q.buffer_size
    modulo_mask := q.modulo_mask
    write_index := q.write_index
    read_index := q.read_index }

end LockFreeMPSCQueue

/-! ## LockFreeMPSCQueue: teardown and `clear` -/

namespace LockFreeMPSCQueue

open Slot (State)

variable {T : Type}

/-- Destructor `Slot::~Slot` (LockFreeMPSCQueue.h:35-41): whether the destructor of the
payload is called on the storage of the slot. -/
def Slot.destructor (s : Slot T) : Bool :=
  s.state == State.Occupied

/-- Function `Slot::clear` (LockFreeMPSCQueue.h:48-55): the slot after the call, and
whether the destructor of the payload was called. -/
def Slot.clear (s : Slot T) : Slot T × Bool :=
  if s.state = State.Occupied then ({ element := none, state := State.Empty }, true)
  else (s, false)

/-- Destructor `~LockFreeMPSCQueue` (LockFreeMPSCQueue.h:90-98): the slots whose payload
is destroyed, in the order of the loop `i = 0; i < _buffer_size; ++i`. -/
def destructor (q : LockFreeMPSCQueue T) : List Nat :=
  (List.range q.buffer_size).filter (fun i => (q.slot i).destructor)

/-- The body `_buffer[i].clear()` of the loop of `clear` (LockFreeMPSCQueue.h:178), on
the queue and the list of slots whose payload has been destroyed so far. -/
def clear_slot (acc : LockFreeMPSCQueue T × List Nat) (i : Nat) :
    LockFreeMPSCQueue T × List Nat :=
  match (acc.1.slot i).clear with
  | (s, true) => ({ acc.1 with buffer := acc.1.buffer.set i s }, acc.2 ++ [i])
  | (_, false) => acc

/-- The loop of `clear` (LockFreeMPSCQueue.h:176-179): the queue after it and the slots
whose payload it destroyed, in order. -/
def clear_loop (q : LockFreeMPSCQueue T) : LockFreeMPSCQueue T × List Nat :=
  (List.range q.buffer_size).foldl clear_slot (q, [])

/-- Function `clear` (LockFreeMPSCQueue.h:174-180). -/
def clear (q : LockFreeMPSCQueue T) : LockFreeMPSCQueue T :=
  (clear_loop q).1

end LockFreeMPSCQueue

/-! ## LockFreeMPSCQueue: threads and atomic actions

Each producer thread and the consumer thread is a program counter over the atomic
actions of `enqueue` and `dequeue`; a schedule interleaves the threads one atomic action
at a time. -/

namespace LockFreeMPSCQueue

open Slot (State)

variable {T : Type}

/-- Where a producer thread stands in `enqueue` (LockFreeMPSCQueue.h:100-148); each
constructor names the atomic action the thread executes next. -/
inductive Producer (T : Type) where
  /-- Not inside `enqueue`. -/
  | idle
  /-- The load of `_write_index` (line 106). -/
  | load_write (element_ : T)
  /-- The load of `_read_index` and the full test (lines 107-114). -/
  | load_read (element_ : T) (current_write_index : Nat)
  /-- The compare-and-swap `Empty -> Writing` on the slot state (lines 116-123). -/
  | claim_slot (element_ : T) (current_write_index : Nat)
  /-- The compare-and-swap on `_write_index` (lines 125-129). -/
  | advance (element_ : T) (current_write_index : Nat)
  /-- The store of `Empty` after a failed `_write_index` compare-and-swap (line 135). -/
  | roll_back (element_ : T) (current_write_index : Nat)
  /-- The construction of the payload in the claimed slot (line 142). -/
  | place (element_ : T) (current_write_index : Nat)
  /-- The store of `Occupied` (lines 144-147). -/
  | publish (current_write_index : Nat)
  deriving DecidableEq, Repr

/-- Where the consumer thread stands in `dequeue` (LockFreeMPSCQueue.h:150-169). -/
inductive Consumer (T : Type) where
  /-- Not inside `dequeue`. -/
  | idle
  /-- The load of `_read_index` (line 152). -/
  | load_read
  /-- The load of the slot state in the wait loop (line 155). -/
  | observe (current_read_index : Nat)
  /-- The move of the payload out of the slot and its destruction (lines 160-161). -/
  | move_out (current_read_index : Nat)
  /-- The store of the incremented `_read_index` (line 165). -/
  | advance (current_read_index : Nat) (result : T)
  /-- The store of `Empty` (line 166), followed by the return of `result`. -/
  | release (current_read_index : Nat) (result : T)
  deriving DecidableEq, Repr

/-- A queue shared by producer threads and one consumer thread. -/
structure System (T : Type) where
  queue : LockFreeMPSCQueue T
  producers : List (Producer T)
  consumer : Consumer T
  dequeued : List T
  deriving DecidableEq, Repr

/-- One entry of a schedule. -/
inductive Action (T : Type) where
  /-- Producer `p`, which is idle, calls `enqueue(element_)`. -/
  | enqueue (p : Nat) (element_ : T)
  /-- Producer `p` executes its next atomic action; `weak_fail` makes a weak
  compare-and-swap fail spuriously. -/
  | producer (p : Nat) (weak_fail : Bool)
  /-- The consumer, which is idle, calls `dequeue()`. -/
  | dequeue
  /-- The consumer executes its next atomic action. -/
  | consumer
  deriving DecidableEq, Repr

/-- The next atomic action of a producer thread. -/
def producer_step (q : LockFreeMPSCQueue T) :
    Producer T → Bool → Option (LockFreeMPSCQueue T × Producer T)
  | Producer.idle, _ => none
  | Producer.load_write x, _ => some (q, Producer.load_read x q.write_index)
  | Producer.load_read x cw, _ =>
    if q.ring_full cw q.read_index then some (q, Producer.load_write x)
    else some (q, Producer.claim_slot x cw)
  | Producer.claim_slot x cw, weak_fail =>
    match q.slot_cas cw weak_fail with
    | (true, q1) => some (q1, Producer.advance x cw)
    | (false, q1) => some (q1, Producer.load_write x)
  | Producer.advance x cw, weak_fail =>
    match q.index_cas cw weak_fail with
    | (true, q1) => some (q1, Producer.place x cw)
    | (false, q1) => some (q1, Producer.roll_back x cw)
  | Producer.roll_back x cw, _ => some (q.store_state cw State.Empty, Producer.load_write x)
  | Producer.place x cw, _ => some (q.store_element cw (some x), Producer.publish cw)
  | Producer.publish cw, _ => some (q.store_state cw State.Occupied, Producer.idle)

/-- The next atomic action of the consumer thread, with the value returned when the
action ends `dequeue`. -/
def consumer_step (q : LockFreeMPSCQueue T) :
    Consumer T → Option (LockFreeMPSCQueue T × Consumer T × Option T)
  | Consumer.idle => none
  | Consumer.load_read => some (q, Consumer.observe q.read_index, none)
  | Consumer.observe cr =>
    if (q.slot cr).state != State.Occupied then some (q, Consumer.observe cr, none)
    else some (q, Consumer.move_out cr, none)
  | Consumer.move_out cr =>
    match (q.slot cr).element with
    | some result => some (q.store_element cr none, Consumer.advance cr result, none)
    | none => none
  | Consumer.advance cr result =>
    some ({ q with read_index := q.incremented cr }, Consumer.release cr result, none)
  | Consumer.release cr result =>
    some (q.store_state cr State.Empty, Consumer.idle, some result)

/-- One entry of a schedule executed; `none` when the entry is not enabled. -/
def System.step (s : System T) : Action T → Option (System T)
  | Action.enqueue p x =>
    match s.producers[p]? with
    | some Producer.idle => some { s with producers := s.producers.set p (Producer.load_write x) }
    | _ => none
  | Action.producer p weak_fail =>
    match s.producers[p]? with
    | some pc =>
      match producer_step s.queue pc weak_fail with
      | some (q, pc') => some { s with queue := q, producers := s.producers.set p pc' }
      | none => none
    | none => none
  | Action.dequeue =>
    match s.consumer with
    | Consumer.idle => some { s with consumer := Consumer.load_read }
    | _ => none
  | Action.consumer =>
    match consumer_step s.queue s.consumer with
    | some (q, pc', none) => some { s with queue := q, consumer := pc' }
    | some (q, pc', some v) =>
      some { s with queue := q, consumer := pc', dequeued := s.dequeued ++ [v] }
    | none => none

/-- A schedule executed from `s`. -/
def System.exec (s : System T) : List (Action T) → Option (System T)
  | [] => some s
  | a :: as =>
    match s.step a with
    | some s' => s'.exec as
    | none => none

/-- A freshly constructed queue of `buffer_size_` slots shared by `producers` idle
producer threads and an idle consumer thread. -/
def System.fresh (buffer_size_ producers : Nat) : Option (System T) :=
  match construct buffer_size_ with
  | some q => some { queue := q, producers := List.replicate producers Producer.idle
                     consumer := Consumer.idle, dequeued := [] }
  | none => none

/-- A schedule executed from a fresh system. -/
def System.exec_fresh (buffer_size_ producers : Nat) (schedule : List (Action T)) :
    Option (System T) :=
  match System.fresh buffer_size_ producers with
  | some s => s.exec schedule
  | none => none

/-- The atomic actions of one complete `enqueue(element_)` by producer `p` that meets
no contention: the two loads, the two compare-and-swaps, the construction, the store. -/
def Action.complete_enqueue (p : Nat) (element_ : T) : List (Action T) :=
  [Action.enqueue p element_, Action.producer p false, Action.producer p false,
    Action.producer p false, Action.producer p false, Action.producer p false,
    Action.producer p false]

/-- The atomic actions of one complete `dequeue()` whose slot is `Occupied` at the first
look. -/
def Action.complete_dequeue : List (Action T) :=
  [Action.dequeue, Action.consumer, Action.consumer, Action.consumer, Action.consumer,
    Action.consumer]

end LockFreeMPSCQueue

/-! ## LockFreeMPSCQueue: slot lifecycle -/

namespace LockFreeMPSCQueue

open Slot (State)

variable {T : Type}

/-- The three transitions of the slot state machine: `Empty -> Writing`,
`Writing -> Occupied`, `Occupied -> Empty`. -/
def Slot.State.lifecycle : State → State → Bool
  | State.Empty, State.Writing => true
  | State.Writing, State.Occupied => true
  | State.Occupied, State.Empty => true
  | _, _ => false

/-- The three transitions of the slot state machine and the roll-back
`Writing -> Empty` of a producer whose `_write_index` compare-and-swap failed. -/
def Slot.State.lifecycle_or_roll_back : State → State → Bool
  | State.Writing, State.Empty => true
  | old, new => Slot.State.lifecycle old new

/-- The observed `current_write_index` a producer thread carries, if any. -/
def Producer.index : Producer T → Option Nat
  | Producer.idle => none
  | Producer.load_write _ => none
  | Producer.load_read _ cw => some cw
  | Producer.claim_slot _ cw => some cw
  | Producer.advance _ cw => some cw
  | Producer.roll_back _ cw => some cw
  | Producer.place _ cw => some cw
  | Producer.publish cw => some cw

/-- The slot a producer thread has claimed (its slot compare-and-swap succeeded and it
has neither rolled back nor published yet), if any. -/
def Producer.held : Producer T → Option Nat
  | Producer.advance _ cw => some cw
  | Producer.roll_back _ cw => some cw
  | Producer.place _ cw => some cw
  | Producer.publish cw => some cw
  | _ => none

/-- The `current_read_index` the consumer thread carries, if any. -/
def Consumer.index : Consumer T → Option Nat
  | Consumer.idle => none
  | Consumer.load_read => none
  | Consumer.observe cr => some cr
  | Consumer.move_out cr => some cr
  | Consumer.advance cr _ => some cr
  | Consumer.release cr _ => some cr

/-- The slot the consumer thread has seen `Occupied` and not yet released, if any. -/
def Consumer.held : Consumer T → Option Nat
  | Consumer.move_out cr => some cr
  | Consumer.advance cr _ => some cr
  | Consumer.release cr _ => some cr
  | _ => none

/-- Invariant of the shared queue under any interleaving: cursors and observed indices
are below `2 ^ k`; a slot claimed by a producer is `Writing` and claimed by that
producer alone; the slot the consumer works on is `Occupied`. -/
structure System.Inv (s : System T) (k : Nat) : Prop where
  k_le : k ≤ 63
  mask : s.queue.modulo_mask = 2 ^ k - 1
  len : s.queue.buffer.length = 2 ^ k
  write_lt : s.queue.write_index < 2 ^ k
  read_lt : s.queue.read_index < 2 ^ k
  producer_lt : ∀ (p : Nat) (pc : Producer T) (cw : Nat),
    s.producers[p]? = some pc → pc.index = some cw → cw < 2 ^ k
  producer_held : ∀ (p : Nat) (pc : Producer T) (cw : Nat),
    s.producers[p]? = some pc → pc.held = some cw → (s.queue.slot cw).state = State.Writing
  producer_apart : ∀ (p p' : Nat) (pc pc' : Producer T) (cw : Nat),
    s.producers[p]? = some pc → s.producers[p']? = some pc' →
    pc.held = some cw → pc'.held = some cw → p = p'
  consumer_lt : ∀ cr, s.consumer.index = some cr → cr < 2 ^ k
  consumer_held : ∀ cr, s.consumer.held = some cr →
    (s.queue.slot cr).state = State.Occupied

end LockFreeMPSCQueue

/-! ## ex_MPSCQueues.cpp

The producers and the consumer of the example; the count of elements per producer is a
parameter, `PRODUCED_ELEMENTS_PER_PRODUCER` being the value the example uses. -/

namespace ex_MPSCQueues

/-- Constant `PRODUCERS_COUNT` (ex_MPSCQueues.cpp:11). -/
def PRODUCERS_COUNT : Nat := 3

/-- Constant `PRODUCED_ELEMENTS_PER_PRODUCER` (ex_MPSCQueues.cpp:12). -/
def PRODUCED_ELEMENTS_PER_PRODUCER : Nat := 1 <<< 24

/-- Constant `QUEUE_BUFFER_SIZE` (ex_MPSCQueues.cpp:15). -/
def QUEUE_BUFFER_SIZE : Nat := 1 <<< 10

/-- Constant `PRODUCED_ELEMENTS` (ex_MPSCQueues.cpp:16). -/
def PRODUCED_ELEMENTS (per_producer : Nat) : Nat := wrap (PRODUCERS_COUNT * per_producer)

/-- Constant `EXPECTED_SUM` (ex_MPSCQueues.cpp:17):
`(PRODUCED_ELEMENTS - 1) * PRODUCED_ELEMENTS / 2` in `size_t` arithmetic. -/
def EXPECTED_SUM (per_producer : Nat) : Nat :=
  wrap (wrap (PRODUCED_ELEMENTS per_producer + 2 ^ SIZE_BITS - 1) *
    PRODUCED_ELEMENTS per_producer) / 2

/-- Function `produce` (ex_MPSCQueues.cpp:26-37): the member `x` of the elements the producer
started with `initial_value_` passes to `enqueue`, in order. -/
def produce (per_producer initial_value_ : Nat) : List Nat :=
  (List.range per_producer).map (fun i => wrap (initial_value_ + wrap (i * PRODUCERS_COUNT)))

/-- Function `consume` (ex_MPSCQueues.cpp:39-54): the total accumulated over the member `x` of the
dequeued elements. -/
def consume (dequeued_x : List Nat) : Nat :=
  dequeued_x.foldl (fun total x => wrap (total + x)) 0

end ex_MPSCQueues

/-! ## Representation invariants -/

/-- Representation invariant of the ring: the cells from `read_index` on, in ring order,
hold exactly the payloads `content`, and `write_index` lies `content.length` cells
after `read_index`. -/
structure LockFreeSPSCQueue.Holds {T : Type} (q : LockFreeSPSCQueue T) (k : Nat)
    (content : List T) : Prop where
  k_pos : 1 ≤ k
  k_le : k ≤ 63
  size : q.buffer_size = 2 ^ k
  mask : q.modulo_mask = 2 ^ k - 1
  len : q.buffer.length = 2 ^ k
  read_lt : q.read_index < 2 ^ k
  content_lt : content.length < 2 ^ k
  write_eq : q.write_index = (q.read_index + content.length) % 2 ^ k
  cell : ∀ j, j < 2 ^ k → q.buffer[(q.read_index + j) % 2 ^ k]? = some content[j]?

/-- Representation invariant of the multi-producer ring between complete operations: the
storage cells and cursors satisfy the ring invariant, and a slot is `Occupied` when its
storage holds a payload and `Empty` otherwise. -/
structure LockFreeMPSCQueue.Holds {T : Type} (q : LockFreeMPSCQueue T) (k : Nat)
    (content : List T) : Prop where
  ring : q.cells.Holds k content
  states : ∀ s ∈ q.buffer, s.state =
    if s.element.isSome then LockFreeMPSCQueue.Slot.State.Occupied
    else LockFreeMPSCQueue.Slot.State.Empty

/-- Two rings of `2 ^ k` slots with the same cursors whose storage agrees on the ring
interval `[read_index, write_index)`. -/
structure LockFreeSPSCQueue.Alike {T : Type} (q1 q2 : LockFreeSPSCQueue T) (k : Nat) :
    Prop where
  k_le : k ≤ 63
  size1 : q1.buffer_size = 2 ^ k
  size2 : q2.buffer_size = 2 ^ k
  mask1 : q1.modulo_mask = 2 ^ k - 1
  mask2 : q2.modulo_mask = 2 ^ k - 1
  len1 : q1.buffer.length = 2 ^ k
  len2 : q2.buffer.length = 2 ^ k
  read : q2.read_index = q1.read_index
  write : q2.write_index = q1.write_index
  read_lt : q1.read_index < 2 ^ k
  write_lt : q1.write_index < 2 ^ k
  agree : ∀ j, j < (q1.write_index + 2 ^ k - q1.read_index) % 2 ^ k →
    q1.buffer[(q1.read_index + j) % 2 ^ k]? = q2.buffer[(q1.read_index + j) % 2 ^ k]?

/-- What the callers of a run observe: the values returned by `dequeue`, in order, and
the two cursors. -/
def LockFreeSPSCQueue.observed {T : Type} (s : Run (LockFreeSPSCQueue T) T) :
    List T × Nat × Nat :=
  (s.dequeued, s.queue.write_index, s.queue.read_index)

/-! ## Index arithmetic on a ring of `2 ^ k` slots -/

theorem pow_le_half {k : Nat} (hk : k ≤ 63) : 2 ^ k ≤ 9223372036854775808 := by
  have h : 2 ^ k ≤ 2 ^ 63 := Nat.pow_le_pow_right (by norm_num) hk
  norm_num at h
  exact h

theorem two_le_pow {k : Nat} (hk : 1 ≤ k) : 2 ≤ 2 ^ k := by
  have h : 2 ^ 1 ≤ 2 ^ k := Nat.pow_le_pow_right (by norm_num) hk
  simpa using h

theorem wrap_mask {k : Nat} (hk1 : 1 ≤ k) (hk : k ≤ 63) :
    wrap (2 ^ k + 2 ^ SIZE_BITS - 1) = 2 ^ k - 1 := by
  have h1 := pow_le_half hk
  have h2 := two_le_pow hk1
  simp only [wrap, SIZE_BITS]
  norm_num
  omega

theorem wrap_distance {n f t : Nat} (hn : n ≤ 9223372036854775808) (hf : f < n) (ht : t < n) :
    wrap (wrap (t + 2 ^ SIZE_BITS - f) + n) = t + n - f := by
  simp only [wrap, SIZE_BITS]
  norm_num
  omega

theorem wrap_succ {n i : Nat} (hn : n ≤ 9223372036854775808) (hi : i < n) :
    wrap (i + 1) = i + 1 := by
  simp only [wrap, SIZE_BITS]
  norm_num
  omega

theorem mod_of_lt_two_mul {n x : Nat} (h : x < n + n) :
    x % n = if x < n then x else x - n := by
  split
  · exact Nat.mod_eq_of_lt (by assumption)
  · rw [Nat.mod_eq_sub_mod (by omega)]
    exact Nat.mod_eq_of_lt (by omega)

namespace LockFreeSPSCQueue

variable {T : Type}

theorem construct_pow (k : Nat) (hk1 : 1 ≤ k) (hk : k ≤ 63) :
    (construct (2 ^ k) : Option (LockFreeSPSCQueue T)) =
      some { buffer := List.replicate (2 ^ k) none
             buffer_size := 2 ^ k
             modulo_mask := 2 ^ k - 1
             write_index := 0
             read_index := 0 } := by
  have h1 := pow_le_half hk
  have h2 : 2 ^ k &&& (2 ^ k - 1) = 0 := by
    rw [Nat.and_pow_two_sub_one_eq_mod]; simp
  have h3 := two_le_pow hk1
  have h4 : 2 ^ k < 2 ^ SIZE_BITS := by simp only [SIZE_BITS]; norm_num; omega
  simp only [construct, wrap_mask hk1 hk]
  rw [if_pos ⟨h4, by omega, h2⟩]

theorem Holds.fresh (k : Nat) (hk1 : 1 ≤ k) (hk : k ≤ 63) :
    Holds ({ buffer := List.replicate (2 ^ k) none
             buffer_size := 2 ^ k
             modulo_mask := 2 ^ k - 1
             write_index := 0
             read_index := 0 } : LockFreeSPSCQueue T) k [] where
  k_pos := hk1
  k_le := hk
  size := rfl
  mask := rfl
  len := by simp
  read_lt := by positivity
  content_lt := by simp
  write_eq := by simp
  cell := by
    intro j hj
    simp [List.getElem?_replicate, Nat.mod_eq_of_lt hj, hj]

theorem Holds.write_lt {q : LockFreeSPSCQueue T} {k : Nat} {c : List T} (h : q.Holds k c) :
    q.write_index < 2 ^ k := by
  rw [h.write_eq]
  exact Nat.mod_lt _ (by positivity)

theorem Holds.distance_eq {q : LockFreeSPSCQueue T} {k : Nat} {c : List T} (h : q.Holds k c) :
    q.distance q.read_index q.write_index = c.length := by
  have hw := h.write_lt
  have hr := h.read_lt
  have hc := h.content_lt
  have hn := pow_le_half h.k_le
  have e := h.write_eq
  rw [mod_of_lt_two_mul (by omega)] at e
  rw [distance, h.size, h.mask, wrap_distance hn hr hw, Nat.and_pow_two_sub_one_eq_mod,
    mod_of_lt_two_mul (by omega)]
  split at e <;> split <;> omega

theorem Holds.incremented_eq {q : LockFreeSPSCQueue T} {k : Nat} {c : List T} (h : q.Holds k c)
    {i : Nat} (hi : i < 2 ^ k) : q.incremented i = (i + 1) % 2 ^ k := by
  rw [incremented, h.mask, wrap_succ (pow_le_half h.k_le) hi, Nat.and_pow_two_sub_one_eq_mod]

theorem Holds.enqueue_done {q : LockFreeSPSCQueue T} {k : Nat} {c : List T} (h : q.Holds k c)
    (x : T) (hroom : c.length + 1 < 2 ^ k) :
    q.enqueue x = Outcome.done { q with
      buffer := q.buffer.set q.write_index (some x)
      write_index := (q.write_index + 1) % 2 ^ k } := by
  have hne : q.distance q.read_index q.write_index ≠ q.modulo_mask := by
    rw [h.distance_eq, h.mask]; omega
  simp only [enqueue, bne_iff_ne, ne_eq, hne, not_false_eq_true, if_true,
    h.incremented_eq h.write_lt]

theorem Holds.enqueue_waits {q : LockFreeSPSCQueue T} {k : Nat} {c : List T} (h : q.Holds k c)
    (x : T) (hfull : c.length + 1 = 2 ^ k) : q.enqueue x = Outcome.waits := by
  have he : q.distance q.read_index q.write_index = q.modulo_mask := by
    rw [h.distance_eq, h.mask]; omega
  simp [enqueue, he]

theorem Holds.after_enqueue {q : LockFreeSPSCQueue T} {k : Nat} {c : List T} (h : q.Holds k c)
    (x : T) (hroom : c.length + 1 < 2 ^ k) :
    Holds { q with
      buffer := q.buffer.set q.write_index (some x)
      write_index := (q.write_index + 1) % 2 ^ k } k (c ++ [x]) where
  k_pos := h.k_pos
  k_le := h.k_le
  size := h.size
  mask := h.mask
  len := by simp [h.len]
  read_lt := h.read_lt
  content_lt := by simpa using hroom
  write_eq := by
    have hr := h.read_lt
    have e := h.write_eq
    rw [mod_of_lt_two_mul (by omega)] at e
    have hw := h.write_lt
    show (q.write_index + 1) % 2 ^ k = (q.read_index + (c ++ [x]).length) % 2 ^ k
    rw [h.write_eq, Nat.mod_add_mod, List.length_append, List.length_singleton]
    congr 1
  cell := by
    intro j hj
    have hr := h.read_lt
    have hw := h.write_lt
    have e := h.write_eq
    rw [mod_of_lt_two_mul (by omega)] at e
    have hcell := h.cell j hj
    show (q.buffer.set q.write_index (some x))[(q.read_index + j) % 2 ^ k]? = some (c ++ [x])[j]?
    have ej : (q.read_index + j) % 2 ^ k =
        if q.read_index + j < 2 ^ k then q.read_index + j else q.read_index + j - 2 ^ k :=
      mod_of_lt_two_mul (by omega)
    generalize (q.read_index + j) % 2 ^ k = i at ej hcell ⊢
    rw [List.getElem?_set]
    by_cases hjc : j = c.length
    · subst hjc
      rw [if_pos (by split at e <;> split at ej <;> omega), if_pos (by rw [h.len]; exact hw)]
      simp
    · rw [if_neg (by split at e <;> split at ej <;> omega), hcell]
      congr 1
      by_cases hlt : j < c.length
      · rw [List.getElem?_append_left hlt]
      · rw [List.getElem?_eq_none (by omega), List.getElem?_eq_none (by simp; omega)]

theorem Holds.dequeue_waits {q : LockFreeSPSCQueue T} {k : Nat} (h : q.Holds k []) :
    q.dequeue = Outcome.waits := by
  have e := h.write_eq
  simp only [List.length_nil, Nat.add_zero, Nat.mod_eq_of_lt h.read_lt] at e
  simp [dequeue, e]

theorem Holds.dequeue_done {q : LockFreeSPSCQueue T} {k : Nat} {v : T} {c : List T}
    (h : q.Holds k (v :: c)) :
    q.dequeue = Outcome.done (v, { q with
      buffer := q.buffer.set q.read_index none
      read_index := (q.read_index + 1) % 2 ^ k }) := by
  have hr := h.read_lt
  have hc := h.content_lt
  simp only [List.length_cons] at hc
  have e := h.write_eq
  simp only [List.length_cons] at e
  rw [mod_of_lt_two_mul (by omega)] at e
  have hne : q.write_index ≠ q.read_index := by split at e <;> omega
  have h0 := h.cell 0 (by omega)
  simp only [Nat.add_zero, Nat.mod_eq_of_lt hr, List.getElem?_cons_zero] at h0
  simp only [dequeue, bne_iff_ne, ne_eq, hne, not_false_eq_true, if_true,
    List.getD_eq_getElem?_getD, h0, Option.getD_some, h.incremented_eq hr]

theorem Holds.after_dequeue {q : LockFreeSPSCQueue T} {k : Nat} {v : T} {c : List T}
    (h : q.Holds k (v :: c)) :
    Holds { q with
      buffer := q.buffer.set q.read_index none
      read_index := (q.read_index + 1) % 2 ^ k } k c where
  k_pos := h.k_pos
  k_le := h.k_le
  size := h.size
  mask := h.mask
  len := by simp [h.len]
  read_lt := Nat.mod_lt _ (by positivity)
  content_lt := by have := h.content_lt; simp only [List.length_cons] at this; omega
  write_eq := by
    have hr := h.read_lt
    have hc := h.content_lt
    simp only [List.length_cons] at hc
    have e := h.write_eq
    simp only [List.length_cons] at e
    rw [mod_of_lt_two_mul (by omega)] at e
    show q.write_index = ((q.read_index + 1) % 2 ^ k + c.length) % 2 ^ k
    rw [Nat.mod_add_mod, h.write_eq, List.length_cons]
    congr 1
    omega
  cell := by
    intro j hj
    have hr := h.read_lt
    have hc := h.content_lt
    simp only [List.length_cons] at hc
    show (q.buffer.set q.read_index none)[((q.read_index + 1) % 2 ^ k + j) % 2 ^ k]? = _
    have hidx : ((q.read_index + 1) % 2 ^ k + j) % 2 ^ k = (q.read_index + (j + 1)) % 2 ^ k := by
      rw [Nat.mod_add_mod]; congr 1; omega
    rw [hidx, List.getElem?_set]
    by_cases hj1 : j + 1 < 2 ^ k
    · have hcell := h.cell (j + 1) hj1
      have ej : (q.read_index + (j + 1)) % 2 ^ k =
          if q.read_index + (j + 1) < 2 ^ k then q.read_index + (j + 1)
          else q.read_index + (j + 1) - 2 ^ k :=
        mod_of_lt_two_mul (by omega)
      generalize (q.read_index + (j + 1)) % 2 ^ k = i at ej hcell ⊢
      rw [if_neg (by split at ej <;> omega), hcell]
      simp
    · have hj2 : j + 1 = 2 ^ k := by omega
      rw [hj2, Nat.add_mod_right, Nat.mod_eq_of_lt hr, if_pos rfl, if_pos (by rw [h.len]; exact hr),
        List.getElem?_eq_none (by omega)]

theorem Holds.rotate_eq {q : LockFreeSPSCQueue T} {k : Nat} {c : List T} (h : q.Holds k c) :
    q.buffer.rotate q.read_index = c.map some ++ List.replicate (2 ^ k - c.length) none := by
  have hc := h.content_lt
  apply List.ext_getElem?
  intro m
  by_cases hm : m < 2 ^ k
  · rw [List.getElem?_rotate (by rw [h.len]; exact hm), h.len, Nat.add_comm, h.cell m hm]
    by_cases hlt : m < c.length
    · rw [List.getElem?_append_left (by simpa using hlt), List.getElem?_map]
      simp [List.getElem?_eq_getElem hlt]
    · rw [List.getElem?_append_right (by simp; omega), List.getElem?_replicate,
        if_pos (by simp; omega), List.getElem?_eq_none (by omega)]
  · rw [List.getElem?_eq_none (by simp [h.len]; omega),
      List.getElem?_eq_none (by simp; omega)]

theorem Holds.live_eq {q : LockFreeSPSCQueue T} {k : Nat} {c : List T} (h : q.Holds k c) :
    q.live_payloads = c.length := by
  have hp := (List.rotate_perm q.buffer q.read_index).countP_eq Option.isSome
  rw [live_payloads, ← hp, h.rotate_eq, List.countP_append, List.countP_map,
    List.countP_replicate]
  simp [Function.comp_def]

/-- A run's bookkeeping: with `c` the payloads in the ring before the run, the values
enqueued so far are the values dequeued so far followed by the payloads in the ring. -/
theorem Holds.run {k : Nat} (ops : List (Op T)) :
    ∀ (s s' : Run (LockFreeSPSCQueue T) T) (c : List T), s.queue.Holds k c →
      run s ops = some s' →
      ∃ c', s'.queue.Holds k c' ∧ s.dequeued ++ c ++ Op.enqueued ops = s'.dequeued ++ c' ∧
        s'.constructed = s.constructed + (Op.enqueued ops).length ∧
        s'.destroyed = s.destroyed + Op.dequeues ops ∧
        s'.dequeued.length = s.dequeued.length + Op.dequeues ops := by
  induction ops with
  | nil =>
    intro s s' c h hrun
    simp only [LockFreeSPSCQueue.run, Option.some.injEq] at hrun
    subst hrun
    exact ⟨c, h, by simp [Op.enqueued], by simp [Op.enqueued], by simp [Op.dequeues],
      by simp [Op.dequeues]⟩
  | cons op ops ih =>
    intro s s' c h hrun
    cases op with
    | enq p x =>
      by_cases hroom : c.length + 1 < 2 ^ k
      · simp only [LockFreeSPSCQueue.run, step, h.enqueue_done x hroom] at hrun
        obtain ⟨c', h', e1, e2, e3, e4⟩ := ih _ s' _ (h.after_enqueue x hroom) hrun
        refine ⟨c', h', ?_, ?_, ?_, ?_⟩
        · simpa [Op.enqueued] using e1
        · simp only [Op.enqueued, List.length_cons] at e2 ⊢; omega
        · simpa [Op.dequeues] using e3
        · simpa [Op.dequeues] using e4
      · have hfull : c.length + 1 = 2 ^ k := by have := h.content_lt; omega
        simp [LockFreeSPSCQueue.run, step, h.enqueue_waits x hfull] at hrun
    | deq =>
      cases c with
      | nil => simp [LockFreeSPSCQueue.run, step, h.dequeue_waits] at hrun
      | cons v c =>
        simp only [LockFreeSPSCQueue.run, step, h.dequeue_done] at hrun
        obtain ⟨c', h', e1, e2, e3, e4⟩ := ih _ s' _ h.after_dequeue hrun
        refine ⟨c', h', ?_, ?_, ?_, ?_⟩
        · simpa [Op.enqueued] using e1
        · simpa [Op.enqueued] using e2
        · simp only [Op.dequeues] at e3 ⊢; omega
        · simp only [Op.dequeues, List.length_append, List.length_singleton] at e4 ⊢; omega

/-- Every state reached from a fresh queue of `2 ^ k` slots satisfies the invariant. -/
theorem Holds.run_fresh {k : Nat} (hk1 : 1 ≤ k) (hk : k ≤ 63) (ops : List (Op T))
    (s : Run (LockFreeSPSCQueue T) T) (hrun : run_fresh (2 ^ k) ops = some s) :
    ∃ c, s.queue.Holds k c ∧ Op.enqueued ops = s.dequeued ++ c ∧
      s.constructed = (Op.enqueued ops).length ∧ s.destroyed = Op.dequeues ops ∧
      s.dequeued.length = Op.dequeues ops := by
  simp only [LockFreeSPSCQueue.run_fresh, construct_pow k hk1 hk] at hrun
  obtain ⟨c, h, e1, e2, e3, e4⟩ := Holds.run ops _ s [] (Holds.fresh k hk1 hk) hrun
  exact ⟨c, h, by simpa using e1, by simpa using e2, by simpa using e3, by simpa using e4⟩

end LockFreeSPSCQueue

theorem LockFreeSPSCQueue.Holds.distance_of_lt {T : Type} {q : LockFreeSPSCQueue T} {k : Nat}
    {c : List T} (h : q.Holds k c) {f t : Nat} (hf : f < 2 ^ k) (ht : t < 2 ^ k) :
    q.distance f t = (t + 2 ^ k - f) % 2 ^ k := by
  rw [LockFreeSPSCQueue.distance, h.size, h.mask, wrap_distance (pow_le_half h.k_le) hf ht,
    Nat.and_pow_two_sub_one_eq_mod]

namespace LockFreeMPSCQueue

open Slot (State)

variable {T : Type}

theorem mpsc_construct_pow (k : Nat) (hk1 : 1 ≤ k) (hk : k ≤ 63) :
    (construct (2 ^ k) : Option (LockFreeMPSCQueue T)) =
      some { buffer := List.replicate (2 ^ k) Slot.fresh
             buffer_size := 2 ^ k
             modulo_mask := 2 ^ k - 1
             write_index := 0
             read_index := 0 } := by
  have h1 := pow_le_half hk
  have h2 : 2 ^ k &&& (2 ^ k - 1) = 0 := by
    rw [Nat.and_pow_two_sub_one_eq_mod]; simp
  have h3 := two_le_pow hk1
  have h4 : 2 ^ k < 2 ^ SIZE_BITS := by simp only [SIZE_BITS]; norm_num; omega
  simp only [construct, wrap_mask hk1 hk]
  rw [if_pos ⟨h4, by omega, h2⟩]

theorem Holds.mpsc_fresh (k : Nat) (hk1 : 1 ≤ k) (hk : k ≤ 63) :
    Holds ({ buffer := List.replicate (2 ^ k) Slot.fresh
             buffer_size := 2 ^ k
             modulo_mask := 2 ^ k - 1
             write_index := 0
             read_index := 0 } : LockFreeMPSCQueue T) k [] where
  ring := by
    have h := LockFreeSPSCQueue.Holds.fresh (T := T) k hk1 hk
    simpa [cells, Slot.fresh] using h
  states := by
    intro s hs
    rw [List.eq_of_mem_replicate hs]
    rfl

theorem Holds.slot_element {q : LockFreeMPSCQueue T} {k : Nat} {cs : List T} (h : q.Holds k cs)
    {j : Nat} (hj : j < 2 ^ k) :
    (q.slot ((q.read_index + j) % 2 ^ k)).element = cs[j]? := by
  have hcell := h.ring.cell j hj
  simp only [cells, List.getElem?_map] at hcell
  rw [slot, List.getD_eq_getElem?_getD]
  cases hb : q.buffer[(q.read_index + j) % 2 ^ k]? with
  | none => rw [hb] at hcell; simp at hcell
  | some s =>
    rw [hb] at hcell
    simpa using hcell

theorem Holds.slot_state {q : LockFreeMPSCQueue T} {k : Nat} {cs : List T} (h : q.Holds k cs)
    {j : Nat} (hj : j < 2 ^ k) :
    (q.slot ((q.read_index + j) % 2 ^ k)).state =
      if cs[j]?.isSome then State.Occupied else State.Empty := by
  rw [← h.slot_element hj]
  have hlen : q.buffer.length = 2 ^ k := by simpa [cells] using h.ring.len
  have hi : (q.read_index + j) % 2 ^ k < q.buffer.length := by
    rw [hlen]; exact Nat.mod_lt _ (by positivity)
  apply h.states
  rw [slot, List.getD_eq_getElem?_getD, List.getElem?_eq_getElem hi]
  exact List.getElem_mem hi

theorem Holds.len {q : LockFreeMPSCQueue T} {k : Nat} {c : List T} (h : q.Holds k c) :
    q.buffer.length = 2 ^ k := by
  simpa [cells] using h.ring.len

theorem Holds.mpsc_write_lt {q : LockFreeMPSCQueue T} {k : Nat} {c : List T} (h : q.Holds k c) :
    q.write_index < 2 ^ k := h.ring.write_lt

theorem Holds.read_lt {q : LockFreeMPSCQueue T} {k : Nat} {c : List T} (h : q.Holds k c) :
    q.read_index < 2 ^ k := h.ring.read_lt

theorem Holds.distance_write_read {q : LockFreeMPSCQueue T} {k : Nat} {c : List T}
    (h : q.Holds k c) :
    q.distance q.write_index q.read_index = (2 ^ k - c.length) % 2 ^ k := by
  have hw := h.mpsc_write_lt
  have hr := h.read_lt
  have hc := h.ring.content_lt
  have e : q.write_index = (q.read_index + c.length) % 2 ^ k := h.ring.write_eq
  rw [mod_of_lt_two_mul (by omega)] at e
  show q.cells.distance q.write_index q.read_index = _
  rw [h.ring.distance_of_lt hw hr, mod_of_lt_two_mul (by omega), mod_of_lt_two_mul (by omega)]
  split at e <;> split <;> split <;> omega

theorem Holds.mpsc_incremented_eq {q : LockFreeMPSCQueue T} {k : Nat} {c : List T} (h : q.Holds k c)
    {i : Nat} (hi : i < 2 ^ k) : q.incremented i = (i + 1) % 2 ^ k :=
  h.ring.incremented_eq hi

theorem Holds.mpsc_enqueue_done {q : LockFreeMPSCQueue T} {k : Nat} {c : List T} (h : q.Holds k c)
    (x : T) (hroom : c.length + 1 < 2 ^ k) :
    q.enqueue x = Outcome.done { q with
      buffer := q.buffer.set q.write_index ⟨some x, State.Occupied⟩
      write_index := (q.write_index + 1) % 2 ^ k } := by
  have hw := h.mpsc_write_lt
  have hfull : q.ring_full q.write_index q.read_index = false := by
    rw [ring_full, h.distance_write_read, mod_of_lt_two_mul (by omega)]
    simp only [beq_eq_false_iff_ne, ne_eq]
    split <;> omega
  have hst : (q.slot q.write_index).state = State.Empty := by
    have e : q.write_index = (q.read_index + c.length) % 2 ^ k := h.ring.write_eq
    rw [e, h.slot_state h.ring.content_lt]
    simp
  have hinc : ∀ b, ({ q with buffer := b } :
      LockFreeMPSCQueue T).incremented q.write_index = (q.write_index + 1) % 2 ^ k :=
    fun _ => h.mpsc_incremented_eq hw
  simp only [enqueue, enqueue_pass, hfull, slot_cas, hst, index_cas, store_state, and_self,
    if_true, enqueue_publish, store_element, hinc]
  simp [slot, List.set_set, h.len, hw]

theorem Holds.mpsc_enqueue_waits {q : LockFreeMPSCQueue T} {k : Nat} {c : List T} (h : q.Holds k c)
    (x : T) (hfull : c.length + 1 = 2 ^ k) : q.enqueue x = Outcome.waits := by
  have h2 := two_le_pow h.ring.k_pos
  have hf : q.ring_full q.write_index q.read_index = true := by
    rw [ring_full, h.distance_write_read, mod_of_lt_two_mul (by omega)]
    simp only [beq_iff_eq]
    split <;> omega
  simp [enqueue, enqueue_pass, hf]

theorem Holds.mpsc_after_enqueue {q : LockFreeMPSCQueue T} {k : Nat} {c : List T} (h : q.Holds k c)
    (x : T) (hroom : c.length + 1 < 2 ^ k) :
    Holds { q with
      buffer := q.buffer.set q.write_index ⟨some x, State.Occupied⟩
      write_index := (q.write_index + 1) % 2 ^ k } k (c ++ [x]) where
  ring := by
    have h' := h.ring.after_enqueue x hroom
    simpa [cells] using h'
  states := by
    intro s hs
    rcases List.mem_or_eq_of_mem_set hs with hmem | heq
    · exact h.states s hmem
    · subst heq; rfl

theorem Holds.mpsc_dequeue_waits {q : LockFreeMPSCQueue T} {k : Nat} (h : q.Holds k []) :
    q.dequeue = Outcome.waits := by
  have hst := h.slot_state (j := 0) (by positivity)
  simp only [Nat.add_zero, Nat.mod_eq_of_lt h.read_lt] at hst
  simp [dequeue, hst]

theorem Holds.mpsc_dequeue_done {q : LockFreeMPSCQueue T} {k : Nat} {v : T} {c : List T}
    (h : q.Holds k (v :: c)) :
    q.dequeue = Outcome.done (v, { q with
      buffer := q.buffer.set q.read_index ⟨none, State.Empty⟩
      read_index := (q.read_index + 1) % 2 ^ k }) := by
  have hr := h.read_lt
  have hst := h.slot_state (j := 0) (by positivity)
  have hel := h.slot_element (j := 0) (by positivity)
  simp only [Nat.add_zero, Nat.mod_eq_of_lt hr, List.getElem?_cons_zero, Option.isSome_some,
    if_true] at hst hel
  have hinc : ∀ b, ({ q with buffer := b } :
      LockFreeMPSCQueue T).incremented q.read_index = (q.read_index + 1) % 2 ^ k :=
    fun _ => h.mpsc_incremented_eq hr
  simp only [dequeue, hst, hel, store_element, store_state, hinc]
  simp [slot, List.set_set, h.len, hr]

theorem Holds.mpsc_after_dequeue {q : LockFreeMPSCQueue T} {k : Nat} {v : T} {c : List T}
    (h : q.Holds k (v :: c)) :
    Holds { q with
      buffer := q.buffer.set q.read_index ⟨none, State.Empty⟩
      read_index := (q.read_index + 1) % 2 ^ k } k c where
  ring := by
    have h' := h.ring.after_dequeue
    simpa [cells] using h'
  states := by
    intro s hs
    rcases List.mem_or_eq_of_mem_set hs with hmem | heq
    · exact h.states s hmem
    · subst heq; rfl

theorem Holds.mpsc_live_eq {q : LockFreeMPSCQueue T} {k : Nat} {c : List T} (h : q.Holds k c) :
    q.live_payloads = c.length := by
  rw [← h.ring.live_eq, live_payloads, LockFreeSPSCQueue.live_payloads, cells,
    List.countP_map]
  rfl

theorem Holds.claimed_eq {q : LockFreeMPSCQueue T} {k : Nat} {c : List T} (h : q.Holds k c) :
    q.claimed_slots = c.length := by
  rw [← h.mpsc_live_eq, claimed_slots, live_payloads]
  apply List.countP_congr
  intro s hs
  rw [h.states s hs]
  cases s.element <;> simp

/-- A run's bookkeeping on the multi-producer ring. -/
theorem Holds.mpsc_run {k : Nat} (ops : List (Op T)) :
    ∀ (s s' : Run (LockFreeMPSCQueue T) T) (c : List T), s.queue.Holds k c →
      run s ops = some s' →
      ∃ c', s'.queue.Holds k c' ∧ s.dequeued ++ c ++ Op.enqueued ops = s'.dequeued ++ c' ∧
        s'.constructed = s.constructed + (Op.enqueued ops).length ∧
        s'.destroyed = s.destroyed + Op.dequeues ops ∧
        s'.dequeued.length = s.dequeued.length + Op.dequeues ops := by
  induction ops with
  | nil =>
    intro s s' c h hrun
    simp only [LockFreeMPSCQueue.run, Option.some.injEq] at hrun
    subst hrun
    exact ⟨c, h, by simp [Op.enqueued], by simp [Op.enqueued], by simp [Op.dequeues],
      by simp [Op.dequeues]⟩
  | cons op ops ih =>
    intro s s' c h hrun
    cases op with
    | enq p x =>
      by_cases hroom : c.length + 1 < 2 ^ k
      · simp only [LockFreeMPSCQueue.run, step, h.mpsc_enqueue_done x hroom] at hrun
        obtain ⟨c', h', e1, e2, e3, e4⟩ := ih _ s' _ (h.mpsc_after_enqueue x hroom) hrun
        refine ⟨c', h', ?_, ?_, ?_, ?_⟩
        · simpa [Op.enqueued] using e1
        · simp only [Op.enqueued, List.length_cons] at e2 ⊢; omega
        · simpa [Op.dequeues] using e3
        · simpa [Op.dequeues] using e4
      · have hfull : c.length + 1 = 2 ^ k := by have := h.ring.content_lt; omega
        simp [LockFreeMPSCQueue.run, step, h.mpsc_enqueue_waits x hfull] at hrun
    | deq =>
      cases c with
      | nil => simp [LockFreeMPSCQueue.run, step, h.mpsc_dequeue_waits] at hrun
      | cons v c =>
        simp only [LockFreeMPSCQueue.run, step, h.mpsc_dequeue_done] at hrun
        obtain ⟨c', h', e1, e2, e3, e4⟩ := ih _ s' _ h.mpsc_after_dequeue hrun
        refine ⟨c', h', ?_, ?_, ?_, ?_⟩
        · simpa [Op.enqueued] using e1
        · simpa [Op.enqueued] using e2
        · simp only [Op.dequeues] at e3 ⊢; omega
        · simp only [Op.dequeues, List.length_append, List.length_singleton] at e4 ⊢; omega

/-- Every state reached from a fresh queue of `2 ^ k` slots by complete operations
satisfies the invariant. -/
theorem Holds.mpsc_run_fresh {k : Nat} (hk1 : 1 ≤ k) (hk : k ≤ 63) (ops : List (Op T))
    (s : Run (LockFreeMPSCQueue T) T) (hrun : run_fresh (2 ^ k) ops = some s) :
    ∃ c, s.queue.Holds k c ∧ Op.enqueued ops = s.dequeued ++ c ∧
      s.constructed = (Op.enqueued ops).length ∧ s.destroyed = Op.dequeues ops ∧
      s.dequeued.length = Op.dequeues ops := by
  simp only [LockFreeMPSCQueue.run_fresh, mpsc_construct_pow k hk1 hk] at hrun
  obtain ⟨c, h, e1, e2, e3, e4⟩ := Holds.mpsc_run ops _ s [] (Holds.mpsc_fresh k hk1 hk) hrun
  exact ⟨c, h, by simpa using e1, by simpa using e2, by simpa using e3, by simpa using e4⟩

end LockFreeMPSCQueue

/-! ## FIFO order -/

/-- C1 (SPSC FIFO). For every capacity `2 ^ k` with `k ≥ 1` that fits a `size_t`
and every sequence of `enqueue` and `dequeue` calls on a freshly constructed
`LockFreeSPSCQueue` in which every call returns without waiting, the values returned by
`dequeue` are the first `Op.dequeues ops` values passed to `enqueue`: a prefix of the
enqueued sequence, and the whole of it when the counts are equal. The number of values
is not bounded by the capacity, so runs in which the indices wrap are included. -/
theorem spsc_fifo {T : Type} (k : Nat) (hk1 : 1 ≤ k) (hk : k ≤ 63) (ops : List (Op T))
    (s : Run (LockFreeSPSCQueue T) T)
    (hrun : LockFreeSPSCQueue.run_fresh (2 ^ k) ops = some s) :
    s.dequeued = (Op.enqueued ops).take (Op.dequeues ops) ∧
      s.dequeued <+: Op.enqueued ops ∧
      (Op.dequeues ops = (Op.enqueued ops).length → s.dequeued = Op.enqueued ops) := by
  obtain ⟨c, _, e1, _, _, e4⟩ := LockFreeSPSCQueue.Holds.run_fresh hk1 hk ops s hrun
  have htake : s.dequeued = (Op.enqueued ops).take (Op.dequeues ops) := by
    rw [e1, ← e4, List.take_left]
  refine ⟨htake, ⟨c, e1.symm⟩, ?_⟩
  intro hcount
  rw [htake, hcount, List.take_length]

/-- Witness of `spsc_fifo`: a ring of 4 slots carries the 5 values 1, 2, 3, 4, 5 with both
indices wrapping past the end of the buffer. -/
theorem spsc_fifo_witness :
    LockFreeSPSCQueue.run_fresh (2 ^ 2)
        [Op.enq 0 1, Op.enq 0 2, Op.enq 0 3, Op.deq, Op.deq, Op.enq 0 4, Op.enq 0 5,
          Op.deq, Op.deq, Op.deq] =
      some { queue := { buffer := [none, none, none, none], buffer_size := 4, modulo_mask := 3,
                        write_index := 1, read_index := 1 },
             dequeued := [1, 2, 3, 4, 5], constructed := 5, destroyed := 5 } ∧
    ([1, 2, 3, 4, 5] = (Op.enqueued [Op.enq 0 1, Op.enq 0 2, Op.enq 0 3, Op.deq, Op.deq,
          Op.enq 0 4, Op.enq 0 5, Op.deq, Op.deq, Op.deq]).take
        (Op.dequeues [Op.enq 0 1, Op.enq 0 2, Op.enq 0 3, Op.deq, Op.deq,
          Op.enq 0 4, Op.enq 0 5, Op.deq, Op.deq, Op.deq]) ∧
      [1, 2, 3, 4, 5] <+: Op.enqueued [Op.enq 0 1, Op.enq 0 2, Op.enq 0 3, Op.deq, Op.deq,
          Op.enq 0 4, Op.enq 0 5, Op.deq, Op.deq, Op.deq] ∧
      (Op.dequeues [Op.enq 0 1, Op.enq 0 2, Op.enq 0 3, Op.deq, Op.deq,
          Op.enq 0 4, Op.enq 0 5, Op.deq, Op.deq, Op.deq] =
        (Op.enqueued [Op.enq 0 1, Op.enq 0 2, Op.enq 0 3, Op.deq, Op.deq,
          Op.enq 0 4, Op.enq 0 5, Op.deq, Op.deq, Op.deq]).length →
        [1, 2, 3, 4, 5] = Op.enqueued [Op.enq 0 1, Op.enq 0 2, Op.enq 0 3, Op.deq, Op.deq,
          Op.enq 0 4, Op.enq 0 5, Op.deq, Op.deq, Op.deq])) :=
  ⟨by decide,
    spsc_fifo 2 (by decide) (by decide)
      [Op.enq 0 1, Op.enq 0 2, Op.enq 0 3, Op.deq, Op.deq, Op.enq 0 4, Op.enq 0 5,
        Op.deq, Op.deq, Op.deq]
      { queue := { buffer := [none, none, none, none], buffer_size := 4, modulo_mask := 3,
                   write_index := 1, read_index := 1 },
        dequeued := [1, 2, 3, 4, 5], constructed := 5, destroyed := 5 }
      (by decide)⟩

/-- C2 (MPSC FIFO under complete operations). For every capacity `2 ^ k` with `k ≥ 1`
that fits a `size_t` and every sequence of complete `enqueue` and `dequeue` calls on a
freshly constructed `LockFreeMPSCQueue` in which every call returns without waiting,
the `i`-th value returned by `dequeue` is the `i`-th value passed to `enqueue`, for any
number of values (more than the capacity included). -/
theorem mpsc_fifo {T : Type} (k : Nat) (hk1 : 1 ≤ k) (hk : k ≤ 63) (ops : List (Op T))
    (s : Run (LockFreeMPSCQueue T) T)
    (hrun : LockFreeMPSCQueue.run_fresh (2 ^ k) ops = some s) :
    s.dequeued = (Op.enqueued ops).take (Op.dequeues ops) ∧
      s.dequeued.length = Op.dequeues ops ∧
      ∀ i, i < s.dequeued.length → s.dequeued[i]? = (Op.enqueued ops)[i]? := by
  obtain ⟨c, _, e1, _, _, e4⟩ := LockFreeMPSCQueue.Holds.mpsc_run_fresh hk1 hk ops s hrun
  refine ⟨by rw [e1, ← e4, List.take_left], e4, ?_⟩
  intro i hi
  rw [e1, List.getElem?_append_left hi]

/-- Witness of `mpsc_fifo`: one producer sends 0, 1, 2 through a ring of 2 slots and the
consumer receives 0, 1, 2. -/
theorem mpsc_fifo_witness :
    LockFreeMPSCQueue.run_fresh (2 ^ 1)
        [Op.enq 0 0, Op.deq, Op.enq 0 1, Op.deq, Op.enq 0 2, Op.deq] =
      some { queue := { buffer := [⟨none, LockFreeMPSCQueue.Slot.State.Empty⟩,
                                   ⟨none, LockFreeMPSCQueue.Slot.State.Empty⟩],
                        buffer_size := 2, modulo_mask := 1, write_index := 1, read_index := 1 },
             dequeued := [0, 1, 2], constructed := 3, destroyed := 3 } ∧
    ([0, 1, 2] = (Op.enqueued [Op.enq 0 0, Op.deq, Op.enq 0 1, Op.deq, Op.enq 0 2,
          Op.deq]).take (Op.dequeues [Op.enq 0 0, Op.deq, Op.enq 0 1, Op.deq, Op.enq 0 2,
          Op.deq]) ∧
      [0, 1, 2].length = Op.dequeues [Op.enq 0 0, Op.deq, Op.enq 0 1, Op.deq, Op.enq 0 2,
          Op.deq] ∧
      ∀ i, i < [0, 1, 2].length → [0, 1, 2][i]? =
        (Op.enqueued [Op.enq 0 0, Op.deq, Op.enq 0 1, Op.deq, Op.enq 0 2, Op.deq])[i]?) :=
  ⟨by decide,
    mpsc_fifo 1 (by decide) (by decide)
      [Op.enq 0 0, Op.deq, Op.enq 0 1, Op.deq, Op.enq 0 2, Op.deq]
      { queue := { buffer := [⟨none, LockFreeMPSCQueue.Slot.State.Empty⟩,
                              ⟨none, LockFreeMPSCQueue.Slot.State.Empty⟩],
                   buffer_size := 2, modulo_mask := 1, write_index := 1, read_index := 1 },
        dequeued := [0, 1, 2], constructed := 3, destroyed := 3 }
      (by decide)⟩

/-! ## Capacity and the full and empty tests -/

theorem int_sub_emod {n a b : Nat} (hb : b < n) :
    ((a : Int) - (b : Int)) % (n : Int) = (((a + n - b) % n : Nat) : Int) := by
  rw [Int.natCast_mod, Nat.cast_sub (by omega), Nat.cast_add]
  rw [show (a : Int) + n - b = (a - b) + n by ring, Int.add_emod_self]

theorem LockFreeSPSCQueue.distance_pow {T : Type} (q : LockFreeSPSCQueue T) {k : Nat}
    (hk : k ≤ 63) (hsize : q.buffer_size = 2 ^ k) (hmask : q.modulo_mask = 2 ^ k - 1)
    {f t : Nat} (hf : f < 2 ^ k) (ht : t < 2 ^ k) :
    q.distance f t = (t + 2 ^ k - f) % 2 ^ k := by
  rw [LockFreeSPSCQueue.distance, hsize, hmask, wrap_distance (pow_le_half hk) hf ht,
    Nat.and_pow_two_sub_one_eq_mod]

theorem LockFreeSPSCQueue.Holds.run_enqueues {T : Type} {k : Nat} (p : Nat) (xs : List T) :
    ∀ (s : Run (LockFreeSPSCQueue T) T) (c : List T), s.queue.Holds k c →
      c.length + xs.length < 2 ^ k →
      ∃ s', LockFreeSPSCQueue.run s (xs.map (Op.enq p)) = some s' ∧
        s'.queue.Holds k (c ++ xs) := by
  induction xs with
  | nil =>
    intro s c h _
    exact ⟨s, rfl, by simpa using h⟩
  | cons x xs ih =>
    intro s c h hlen
    simp only [List.length_cons] at hlen
    have hroom : c.length + 1 < 2 ^ k := by omega
    obtain ⟨s', hs', h'⟩ := ih { s with
        queue := { s.queue with
          buffer := s.queue.buffer.set s.queue.write_index (some x)
          write_index := (s.queue.write_index + 1) % 2 ^ k }
        constructed := s.constructed + 1 } (c ++ [x]) (h.after_enqueue x hroom)
      (by simp only [List.length_append, List.length_singleton]; omega)
    refine ⟨s', ?_, by simpa using h'⟩
    simp only [List.map_cons, LockFreeSPSCQueue.run, LockFreeSPSCQueue.step,
      h.enqueue_done x hroom]
    exact hs'

/-- C5 (SPSC capacity bound). In every state reached from a freshly constructed
`LockFreeSPSCQueue` of `2 ^ k` slots (`k ≥ 1`) by calls that return without waiting, both
cursors lie in `[0, 2 ^ k)`, the number of live payloads equals
`(write_index - read_index) mod 2 ^ k` and is at most `2 ^ k - 1`. A fresh queue accepts
any `2 ^ k - 1` consecutive enqueues; the next enqueue waits; after one dequeue it
returns. -/
theorem spsc_capacity_bound {T : Type} (k : Nat) (hk1 : 1 ≤ k) (hk : k ≤ 63)
    (ops : List (Op T)) (s : Run (LockFreeSPSCQueue T) T)
    (hrun : LockFreeSPSCQueue.run_fresh (2 ^ k) ops = some s)
    (xs : List T) (hxs : xs.length = 2 ^ k - 1) (x : T) :
    s.queue.read_index < 2 ^ k ∧ s.queue.write_index < 2 ^ k ∧
      (s.queue.live_payloads : Int) =
        ((s.queue.write_index : Int) - (s.queue.read_index : Int)) % ((2 ^ k : Nat) : Int) ∧
      s.queue.live_payloads ≤ 2 ^ k - 1 ∧
      ∃ s1, LockFreeSPSCQueue.run_fresh (2 ^ k) (xs.map (Op.enq 0)) = some s1 ∧
        s1.queue.live_payloads = 2 ^ k - 1 ∧
        s1.queue.enqueue x = Outcome.waits ∧
        ∃ v q1, s1.queue.dequeue = Outcome.done (v, q1) ∧
          ∃ q2, q1.enqueue x = Outcome.done q2 := by
  obtain ⟨c, h, _⟩ := LockFreeSPSCQueue.Holds.run_fresh hk1 hk ops s hrun
  have h2 := two_le_pow hk1
  have hc := h.content_lt
  refine ⟨h.read_lt, h.write_lt, ?_, by rw [h.live_eq]; omega, ?_⟩
  · rw [int_sub_emod h.read_lt, h.live_eq, ← h.distance_eq,
      h.distance_of_lt h.read_lt h.write_lt]
  · obtain ⟨s1, hs1, h1⟩ := LockFreeSPSCQueue.Holds.run_enqueues 0 xs
      { queue := { buffer := List.replicate (2 ^ k) none
                   buffer_size := 2 ^ k
                   modulo_mask := 2 ^ k - 1
                   write_index := 0
                   read_index := 0 }
        dequeued := [], constructed := 0, destroyed := 0 } []
      (LockFreeSPSCQueue.Holds.fresh k hk1 hk) (by simp only [List.length_nil]; omega)
    simp only [List.nil_append] at h1
    refine ⟨s1, ?_, by rw [h1.live_eq]; exact hxs, h1.enqueue_waits x (by omega), ?_⟩
    · simp only [LockFreeSPSCQueue.run_fresh, LockFreeSPSCQueue.construct_pow k hk1 hk]
      exact hs1
    · cases xs with
      | nil => simp only [List.length_nil] at hxs; omega
      | cons v rest =>
        simp only [List.length_cons] at hxs
        exact ⟨v, _, h1.dequeue_done, _, h1.after_dequeue.enqueue_done x (by omega)⟩

/-- Witness of `spsc_capacity_bound`: a ring of 8 slots; after two enqueues and one
dequeue one payload is live; a fresh ring accepts 0, 1, 2, 3, 4, 5, 6, the enqueue of 7
waits, and returns after one dequeue. -/
theorem spsc_capacity_bound_witness :
    (LockFreeSPSCQueue.run_fresh (2 ^ 3) [Op.enq 0 10, Op.enq 0 11, Op.deq] =
        some { queue := { buffer := [none, some 11, none, none, none, none, none, none],
                          buffer_size := 8, modulo_mask := 7, write_index := 2,
                          read_index := 1 },
               dequeued := [10], constructed := 2, destroyed := 1 } ∧
      [0, 1, 2, 3, 4, 5, 6].length = 2 ^ 3 - 1) ∧
    ((1 : Nat) < 2 ^ 3 ∧ (2 : Nat) < 2 ^ 3 ∧
      ((LockFreeSPSCQueue.live_payloads
          ({ buffer := [none, some 11, none, none, none, none, none, none],
             buffer_size := 8, modulo_mask := 7, write_index := 2,
             read_index := 1 } : LockFreeSPSCQueue Nat) : Nat) : Int) =
        (((2 : Nat) : Int) - ((1 : Nat) : Int)) % ((2 ^ 3 : Nat) : Int) ∧
      LockFreeSPSCQueue.live_payloads
          ({ buffer := [none, some 11, none, none, none, none, none, none],
             buffer_size := 8, modulo_mask := 7, write_index := 2,
             read_index := 1 } : LockFreeSPSCQueue Nat) ≤ 2 ^ 3 - 1 ∧
      ∃ s1, LockFreeSPSCQueue.run_fresh (2 ^ 3)
            ([0, 1, 2, 3, 4, 5, 6].map (Op.enq 0)) = some s1 ∧
        s1.queue.live_payloads = 2 ^ 3 - 1 ∧
        s1.queue.enqueue 7 = Outcome.waits ∧
        ∃ v q1, s1.queue.dequeue = Outcome.done (v, q1) ∧
          ∃ q2, q1.enqueue 7 = Outcome.done q2) :=
  ⟨⟨by decide, by decide⟩,
    spsc_capacity_bound 3 (by decide) (by decide) [Op.enq 0 10, Op.enq 0 11, Op.deq]
      { queue := { buffer := [none, some 11, none, none, none, none, none, none],
                   buffer_size := 8, modulo_mask := 7, write_index := 2, read_index := 1 },
        dequeued := [10], constructed := 2, destroyed := 1 }
      (by decide) [0, 1, 2, 3, 4, 5, 6] (by decide) 7⟩

/-- C7 (full and empty tests). For every `2 ^ k` with `1 ≤ k ≤ 63` and cursors
`r = read_index`, `w = write_index` in `[0, 2 ^ k)`, with `distance` evaluated in
wrapping 64-bit arithmetic: the SPSC `enqueue` waits iff `distance(r, w) = 2 ^ k - 1` iff
`(r - w) mod 2 ^ k = 1`; the MPSC `enqueue` takes the ring as full iff
`distance(w, r) = 1` iff `(r - w) mod 2 ^ k = 1`; the SPSC `dequeue` waits iff `w = r`. -/
theorem full_empty_tests {T : Type} (k : Nat) (hk1 : 1 ≤ k) (hk : k ≤ 63) (r w : Nat)
    (hr : r < 2 ^ k) (hw : w < 2 ^ k) (cells : List (Option T))
    (slots : List (LockFreeMPSCQueue.Slot T)) (x : T) :
    (LockFreeSPSCQueue.enqueue ⟨cells, 2 ^ k, wrap (2 ^ k + 2 ^ SIZE_BITS - 1), w, r⟩ x =
          Outcome.waits ↔
        LockFreeSPSCQueue.distance ⟨cells, 2 ^ k, wrap (2 ^ k + 2 ^ SIZE_BITS - 1), w, r⟩ r w =
          2 ^ k - 1) ∧
      (LockFreeSPSCQueue.distance ⟨cells, 2 ^ k, wrap (2 ^ k + 2 ^ SIZE_BITS - 1), w, r⟩ r w =
          2 ^ k - 1 ↔
        ((r : Int) - (w : Int)) % ((2 ^ k : Nat) : Int) = 1) ∧
      (LockFreeMPSCQueue.ring_full ⟨slots, 2 ^ k, wrap (2 ^ k + 2 ^ SIZE_BITS - 1), w, r⟩ w r =
          true ↔
        LockFreeMPSCQueue.distance ⟨slots, 2 ^ k, wrap (2 ^ k + 2 ^ SIZE_BITS - 1), w, r⟩ w r =
          1) ∧
      (LockFreeMPSCQueue.distance ⟨slots, 2 ^ k, wrap (2 ^ k + 2 ^ SIZE_BITS - 1), w, r⟩ w r =
          1 ↔
        ((r : Int) - (w : Int)) % ((2 ^ k : Nat) : Int) = 1) ∧
      (LockFreeSPSCQueue.dequeue ⟨cells, 2 ^ k, wrap (2 ^ k + 2 ^ SIZE_BITS - 1), w, r⟩ =
          Outcome.waits ↔ w = r) := by
  have h2 := two_le_pow hk1
  rw [wrap_mask hk1 hk]
  have hds : LockFreeSPSCQueue.distance ⟨cells, 2 ^ k, 2 ^ k - 1, w, r⟩ r w =
      (w + 2 ^ k - r) % 2 ^ k :=
    LockFreeSPSCQueue.distance_pow _ hk rfl rfl hr hw
  have hdm : LockFreeMPSCQueue.distance ⟨slots, 2 ^ k, 2 ^ k - 1, w, r⟩ w r =
      (r + 2 ^ k - w) % 2 ^ k :=
    LockFreeSPSCQueue.distance_pow ⟨cells, 2 ^ k, 2 ^ k - 1, w, r⟩ hk rfl rfl hw hr
  have hint : ((r : Int) - (w : Int)) % ((2 ^ k : Nat) : Int) = 1 ↔
      (r + 2 ^ k - w) % 2 ^ k = 1 := by
    rw [int_sub_emod hw]
    exact_mod_cast Iff.rfl
  refine ⟨?_, ?_, ?_, ?_, ?_⟩
  · simp only [LockFreeSPSCQueue.enqueue]
    split <;> simp_all
  · rw [hint, hds, mod_of_lt_two_mul (by omega), mod_of_lt_two_mul (by omega)]
    constructor <;> intro h <;> split at h <;> split <;> omega
  · simp [LockFreeMPSCQueue.ring_full]
  · rw [hint, hdm]
  · simp only [LockFreeSPSCQueue.dequeue]
    split
    · rename_i hne
      have hne' : w ≠ r := by simpa using hne
      split <;> simp [hne']
    · rename_i he
      simpa using he

/-- Witness of `full_empty_tests`: a ring of 8 slots with `read_index = 3` and
`write_index = 2`, which is full. -/
theorem full_empty_tests_witness :
    ((1 ≤ 3 ∧ 3 ≤ 63) ∧ (3 < 2 ^ 3 ∧ 2 < 2 ^ 3)) ∧
    ((LockFreeSPSCQueue.enqueue
          ⟨List.replicate 8 (some 0), 2 ^ 3, wrap (2 ^ 3 + 2 ^ SIZE_BITS - 1), 2, 3⟩ 9 =
          Outcome.waits ↔
        LockFreeSPSCQueue.distance
          ⟨List.replicate 8 (some 0), 2 ^ 3, wrap (2 ^ 3 + 2 ^ SIZE_BITS - 1), 2, 3⟩ 3 2 =
          2 ^ 3 - 1) ∧
      (LockFreeSPSCQueue.distance
          ⟨List.replicate 8 (some 0), 2 ^ 3, wrap (2 ^ 3 + 2 ^ SIZE_BITS - 1), 2, 3⟩ 3 2 =
          2 ^ 3 - 1 ↔
        (((3 : Nat) : Int) - ((2 : Nat) : Int)) % ((2 ^ 3 : Nat) : Int) = 1) ∧
      (LockFreeMPSCQueue.ring_full
          ⟨List.replicate 8 ⟨some 0, LockFreeMPSCQueue.Slot.State.Occupied⟩, 2 ^ 3,
            wrap (2 ^ 3 + 2 ^ SIZE_BITS - 1), 2, 3⟩ 2 3 = true ↔
        LockFreeMPSCQueue.distance
          ⟨List.replicate 8 ⟨some 0, LockFreeMPSCQueue.Slot.State.Occupied⟩, 2 ^ 3,
            wrap (2 ^ 3 + 2 ^ SIZE_BITS - 1), 2, 3⟩ 2 3 = 1) ∧
      (LockFreeMPSCQueue.distance
          ⟨List.replicate 8 ⟨some 0, LockFreeMPSCQueue.Slot.State.Occupied⟩, 2 ^ 3,
            wrap (2 ^ 3 + 2 ^ SIZE_BITS - 1), 2, 3⟩ 2 3 = 1 ↔
        (((3 : Nat) : Int) - ((2 : Nat) : Int)) % ((2 ^ 3 : Nat) : Int) = 1) ∧
      (LockFreeSPSCQueue.dequeue
          ⟨List.replicate 8 (some 0), 2 ^ 3, wrap (2 ^ 3 + 2 ^ SIZE_BITS - 1), 2, 3⟩ =
          Outcome.waits ↔ 2 = 3)) :=
  ⟨⟨⟨by decide, by decide⟩, by decide, by decide⟩,
    full_empty_tests 3 (by decide) (by decide) 3 2 (by decide) (by decide)
      (List.replicate 8 (some 0))
      (List.replicate 8 ⟨some 0, LockFreeMPSCQueue.Slot.State.Occupied⟩) 9⟩

/-! ## Round trip -/

/-- C8 (round trip). For both queues, in every state reached from a fresh queue of
`2 ^ k` slots by `enqueue` and `dequeue` calls in which no payload is live, and for every
value `x`, `enqueue(x)` followed by `dequeue()` returns without waiting, the value
returned is `x`, and the queue again holds no payload. -/
theorem round_trip {T : Type} (k : Nat) (hk1 : 1 ≤ k) (hk : k ≤ 63)
    (ops_s : List (Op T)) (s : Run (LockFreeSPSCQueue T) T)
    (hrun_s : LockFreeSPSCQueue.run_fresh (2 ^ k) ops_s = some s)
    (hidle_s : s.queue.live_payloads = 0)
    (ops_m : List (Op T)) (m : Run (LockFreeMPSCQueue T) T)
    (hrun_m : LockFreeMPSCQueue.run_fresh (2 ^ k) ops_m = some m)
    (hidle_m : m.queue.live_payloads = 0) (x : T) :
    (∃ q1 q2, s.queue.enqueue x = Outcome.done q1 ∧ q1.dequeue = Outcome.done (x, q2) ∧
        q2.live_payloads = 0) ∧
      (∃ q1 q2, m.queue.enqueue x = Outcome.done q1 ∧ q1.dequeue = Outcome.done (x, q2) ∧
        q2.live_payloads = 0 ∧ q2.claimed_slots = 0) := by
  have h2 := two_le_pow hk1
  constructor
  · obtain ⟨c, h, _⟩ := LockFreeSPSCQueue.Holds.run_fresh hk1 hk ops_s s hrun_s
    rw [h.live_eq] at hidle_s
    obtain rfl := List.eq_nil_of_length_eq_zero hidle_s
    have hroom : ([] : List T).length + 1 < 2 ^ k := by simp only [List.length_nil]; omega
    have h1 := h.after_enqueue x hroom
    simp only [List.nil_append] at h1
    exact ⟨_, _, h.enqueue_done x hroom, h1.dequeue_done, by
      rw [h1.after_dequeue.live_eq]; rfl⟩
  · obtain ⟨c, h, _⟩ := LockFreeMPSCQueue.Holds.mpsc_run_fresh hk1 hk ops_m m hrun_m
    rw [h.mpsc_live_eq] at hidle_m
    obtain rfl := List.eq_nil_of_length_eq_zero hidle_m
    have hroom : ([] : List T).length + 1 < 2 ^ k := by simp only [List.length_nil]; omega
    have h1 := h.mpsc_after_enqueue x hroom
    simp only [List.nil_append] at h1
    exact ⟨_, _, h.mpsc_enqueue_done x hroom, h1.mpsc_dequeue_done, by
      rw [h1.mpsc_after_dequeue.mpsc_live_eq]; rfl, by rw [h1.mpsc_after_dequeue.claimed_eq]; rfl⟩

/-- Witness of `round_trip`: rings of 4 slots through which three and two values have
passed; each then returns 9 after `enqueue(9)`. -/
theorem round_trip_witness :
    ((LockFreeSPSCQueue.run_fresh (2 ^ 2)
          [Op.enq 0 1, Op.enq 0 2, Op.deq, Op.enq 0 3, Op.deq, Op.deq] =
        some { queue := { buffer := [none, none, none, none], buffer_size := 4,
                          modulo_mask := 3, write_index := 3, read_index := 3 },
               dequeued := [1, 2, 3], constructed := 3, destroyed := 3 } ∧
      LockFreeSPSCQueue.live_payloads
          ({ buffer := [none, none, none, none], buffer_size := 4, modulo_mask := 3,
             write_index := 3, read_index := 3 } : LockFreeSPSCQueue Nat) = 0) ∧
      (LockFreeMPSCQueue.run_fresh (2 ^ 2) [Op.enq 0 1, Op.enq 1 2, Op.deq, Op.deq] =
        some { queue := { buffer := List.replicate 4 ⟨none, LockFreeMPSCQueue.Slot.State.Empty⟩,
                          buffer_size := 4, modulo_mask := 3, write_index := 2,
                          read_index := 2 },
               dequeued := [1, 2], constructed := 2, destroyed := 2 } ∧
      LockFreeMPSCQueue.live_payloads
          ({ buffer := List.replicate 4 ⟨none, LockFreeMPSCQueue.Slot.State.Empty⟩,
             buffer_size := 4, modulo_mask := 3, write_index := 2,
             read_index := 2 } : LockFreeMPSCQueue Nat) = 0)) ∧
    ((∃ q1 q2, LockFreeSPSCQueue.enqueue
            ({ buffer := [none, none, none, none], buffer_size := 4, modulo_mask := 3,
               write_index := 3, read_index := 3 } : LockFreeSPSCQueue Nat) 9 =
          Outcome.done q1 ∧ q1.dequeue = Outcome.done (9, q2) ∧ q2.live_payloads = 0) ∧
      (∃ q1 q2, LockFreeMPSCQueue.enqueue
            ({ buffer := List.replicate 4 ⟨none, LockFreeMPSCQueue.Slot.State.Empty⟩,
               buffer_size := 4, modulo_mask := 3, write_index := 2,
               read_index := 2 } : LockFreeMPSCQueue Nat) 9 =
          Outcome.done q1 ∧ q1.dequeue = Outcome.done (9, q2) ∧ q2.live_payloads = 0 ∧
            q2.claimed_slots = 0)) :=
  ⟨⟨⟨by decide, by decide⟩, by decide, by decide⟩,
    round_trip 2 (by decide) (by decide)
      [Op.enq 0 1, Op.enq 0 2, Op.deq, Op.enq 0 3, Op.deq, Op.deq]
      { queue := { buffer := [none, none, none, none], buffer_size := 4,
                   modulo_mask := 3, write_index := 3, read_index := 3 },
        dequeued := [1, 2, 3], constructed := 3, destroyed := 3 }
      (by decide) (by decide)
      [Op.enq 0 1, Op.enq 1 2, Op.deq, Op.deq]
      { queue := { buffer := List.replicate 4 ⟨none, LockFreeMPSCQueue.Slot.State.Empty⟩,
                   buffer_size := 4, modulo_mask := 3, write_index := 2, read_index := 2 },
        dequeued := [1, 2], constructed := 2, destroyed := 2 }
      (by decide) (by decide) 9⟩

/-! ## Conservation -/

namespace ex_MPSCQueues

theorem consume_foldl (xs : List Nat) :
    ∀ a, a < 2 ^ SIZE_BITS →
      xs.foldl (fun total x => wrap (total + x)) a = (a + xs.sum) % 2 ^ SIZE_BITS := by
  induction xs with
  | nil => intro a ha; simp [Nat.mod_eq_of_lt ha]
  | cons x xs ih =>
    intro a _
    rw [List.foldl_cons, ih (wrap (a + x)) (Nat.mod_lt _ (by positivity)), wrap,
      Nat.mod_add_mod, List.sum_cons, Nat.add_assoc]

theorem consume_eq (xs : List Nat) : consume xs = xs.sum % 2 ^ SIZE_BITS := by
  rw [consume, consume_foldl xs 0 (by positivity), Nat.zero_add]

theorem produce_eq (n p : Nat) (hn : n ≤ 16777216) (hp : p < 3) :
    produce n p = (List.range n).map (fun i => p + 3 * i) := by
  apply List.map_congr_left
  intro i hi
  have hi' := List.mem_range.mp hi
  simp only [wrap, SIZE_BITS, PRODUCERS_COUNT]
  norm_num
  omega

theorem sum_range_affine (p n : Nat) :
    2 * ((List.range n).map (fun i => p + 3 * i)).sum + 3 * n = 2 * n * p + 3 * (n * n) := by
  induction n with
  | zero => simp
  | succ n ih =>
    rw [List.range_succ, List.map_append, List.sum_append]
    simp only [List.map_cons, List.map_nil, List.sum_cons, List.sum_nil]
    nlinarith [ih]

theorem sum_by_producer {T : Type} (x : T → Nat) (ops : List (Op T))
    (h : ∀ p, 3 ≤ p → Op.enqueuedBy p ops = []) :
    ((Op.enqueued ops).map x).sum =
      ((Op.enqueuedBy 0 ops).map x).sum + ((Op.enqueuedBy 1 ops).map x).sum +
        ((Op.enqueuedBy 2 ops).map x).sum := by
  induction ops with
  | nil => simp [Op.enqueued, Op.enqueuedBy]
  | cons op ops ih =>
    cases op with
    | deq => simpa [Op.enqueued, Op.enqueuedBy] using ih (by simpa [Op.enqueuedBy] using h)
    | enq p v =>
      have hp : p < 3 := by
        by_contra hge
        have := h p (by omega)
        simp [Op.enqueuedBy] at this
      have htail : ∀ p', 3 ≤ p' → Op.enqueuedBy p' ops = [] := by
        intro p' hp'
        have := h p' hp'
        have hne : p ≠ p' := by omega
        simpa [Op.enqueuedBy, hne] using this
      have ih' := ih htail
      interval_cases p <;> simp [Op.enqueued, Op.enqueuedBy, ih'] <;> omega

theorem expected_sum_eq (n : Nat) (hn : n ≤ 16777216) :
    2 * EXPECTED_SUM n + 3 * n = 9 * (n * n) ∧ EXPECTED_SUM n < 2 ^ SIZE_BITS := by
  have hnn : n * n ≤ 16777216 * 16777216 := Nat.mul_le_mul hn hn
  have hpar : (n * n + n) % 2 = 0 := by
    have hev := Nat.even_mul_succ_self n
    rw [Nat.mul_succ] at hev
    exact Nat.even_iff.mp hev
  have hle : n ≤ n * n := Nat.le_mul_self n
  have e1 : PRODUCED_ELEMENTS n = 3 * n := by
    simp only [PRODUCED_ELEMENTS, PRODUCERS_COUNT, wrap, SIZE_BITS]
    omega
  have e3 : (3 * n - 1) * (3 * n) = 9 * (n * n) - 3 * n := by
    rw [Nat.sub_mul]
    congr 1
    · ring
    · ring
  rcases Nat.eq_zero_or_pos n with h0 | hpos
  · subst h0
    simp [EXPECTED_SUM, e1, wrap]
  · have e2 : wrap (3 * n + 2 ^ SIZE_BITS - 1) = 3 * n - 1 := by
      simp only [wrap, SIZE_BITS]
      omega
    rw [EXPECTED_SUM, e1, e2, e3]
    generalize n * n = nn at hnn hpar hle ⊢
    simp only [wrap, SIZE_BITS]
    omega

end ex_MPSCQueues

/-- C9 (MPSC conservation). In every run of complete `enqueue` and `dequeue` calls on a
freshly constructed `LockFreeMPSCQueue`, issued on behalf of any producers, that
dequeues as many values as it enqueues, the multiset of dequeued values is the multiset
of enqueued values; every call of `enqueue` constructs one payload, every call of
`dequeue` destroys one, the counts are equal and no slot is left holding a payload.
When the producers are those of `ex_MPSCQueues.cpp` (producer `p < 3` sends
`p + 3 * i` for `i < per_producer`, `per_producer` at most `2 ^ 24`), the total the
consumer accumulates in 64-bit arithmetic is `EXPECTED_SUM`, which for `2 ^ 24` elements
per producer is `(3 * 2 ^ 24 - 1) * (3 * 2 ^ 24) / 2`. -/
theorem mpsc_conservation {T : Type} (k : Nat) (hk1 : 1 ≤ k) (hk : k ≤ 63)
    (ops : List (Op T)) (s : Run (LockFreeMPSCQueue T) T)
    (hrun : LockFreeMPSCQueue.run_fresh (2 ^ k) ops = some s)
    (hbal : Op.dequeues ops = (Op.enqueued ops).length) :
    (s.dequeued : Multiset T) = (Op.enqueued ops : Multiset T) ∧
      s.constructed = (Op.enqueued ops).length ∧ s.destroyed = s.constructed ∧
      s.queue.live_payloads = 0 ∧
      (∀ (x : T → Nat) (per_producer : Nat),
        per_producer ≤ ex_MPSCQueues.PRODUCED_ELEMENTS_PER_PRODUCER →
        (∀ p, (Op.enqueuedBy p ops).map x =
          if p < ex_MPSCQueues.PRODUCERS_COUNT then ex_MPSCQueues.produce per_producer p
          else []) →
        ex_MPSCQueues.consume (s.dequeued.map x) = ex_MPSCQueues.EXPECTED_SUM per_producer) ∧
      ex_MPSCQueues.EXPECTED_SUM ex_MPSCQueues.PRODUCED_ELEMENTS_PER_PRODUCER =
        (3 * 2 ^ 24 - 1) * (3 * 2 ^ 24) / 2 := by
  obtain ⟨c, h, e1, e2, e3, e4⟩ := LockFreeMPSCQueue.Holds.mpsc_run_fresh hk1 hk ops s hrun
  have hlen : c.length = 0 := by
    have := congrArg List.length e1
    rw [List.length_append] at this
    omega
  obtain rfl := List.eq_nil_of_length_eq_zero hlen
  rw [List.append_nil] at e1
  refine ⟨by rw [e1], e2, by omega, by rw [h.mpsc_live_eq]; rfl, ?_, ?_⟩
  · intro x n hn hprod
    have hn' : n ≤ 16777216 := hn
    have hother : ∀ p, 3 ≤ p → Op.enqueuedBy p ops = [] := by
      intro p hp
      have := hprod p
      rw [if_neg (by simp only [ex_MPSCQueues.PRODUCERS_COUNT]; omega)] at this
      simpa using this
    have h0 := hprod 0
    have h1 := hprod 1
    have h2 := hprod 2
    rw [if_pos (by decide), ex_MPSCQueues.produce_eq n _ hn' (by decide)] at h0 h1 h2
    have hsum := ex_MPSCQueues.sum_by_producer x ops hother
    rw [h0, h1, h2] at hsum
    have s0 := ex_MPSCQueues.sum_range_affine 0 n
    have s1 := ex_MPSCQueues.sum_range_affine 1 n
    have s2 := ex_MPSCQueues.sum_range_affine 2 n
    obtain ⟨hexp, hlt⟩ := ex_MPSCQueues.expected_sum_eq n hn'
    rw [ex_MPSCQueues.consume_eq, ← e1, hsum]
    have htot : ((List.range n).map (fun i => 0 + 3 * i)).sum +
        ((List.range n).map (fun i => 1 + 3 * i)).sum +
        ((List.range n).map (fun i => 2 + 3 * i)).sum = ex_MPSCQueues.EXPECTED_SUM n := by
      omega
    rw [htot]
    exact Nat.mod_eq_of_lt hlt
  · decide

/-- Witness of `mpsc_conservation`: three producers send 0, 3 and 1, 4 and 2, 5 through a
ring of 4 slots; the consumer receives 0, 1, 2, 4, 3, 5 and accumulates
`EXPECTED_SUM 2`. -/
theorem mpsc_conservation_witness :
    (LockFreeMPSCQueue.run_fresh (2 ^ 2)
          [Op.enq 0 0, Op.enq 1 1, Op.enq 2 2, Op.deq, Op.deq, Op.enq 1 4, Op.enq 0 3,
            Op.deq, Op.enq 2 5, Op.deq, Op.deq, Op.deq] =
        some { queue := { buffer := List.replicate 4 ⟨none, LockFreeMPSCQueue.Slot.State.Empty⟩,
                          buffer_size := 4, modulo_mask := 3, write_index := 2,
                          read_index := 2 },
               dequeued := [0, 1, 2, 4, 3, 5], constructed := 6, destroyed := 6 } ∧
      Op.dequeues [Op.enq 0 0, Op.enq 1 1, Op.enq 2 2, Op.deq, Op.deq, Op.enq 1 4,
            Op.enq 0 3, Op.deq, Op.enq 2 5, Op.deq, Op.deq, Op.deq] =
        (Op.enqueued [Op.enq 0 0, Op.enq 1 1, Op.enq 2 2, Op.deq, Op.deq, Op.enq 1 4,
            Op.enq 0 3, Op.deq, Op.enq 2 5, Op.deq, Op.deq, Op.deq]).length) ∧
    ((([0, 1, 2, 4, 3, 5] : List Nat) : Multiset Nat) =
        ((Op.enqueued [Op.enq 0 0, Op.enq 1 1, Op.enq 2 2, Op.deq, Op.deq, Op.enq 1 4,
            Op.enq 0 3, Op.deq, Op.enq 2 5, Op.deq, Op.deq, Op.deq] : List Nat) :
          Multiset Nat) ∧
      6 = (Op.enqueued [Op.enq 0 0, Op.enq 1 1, Op.enq 2 2, Op.deq, Op.deq, Op.enq 1 4,
            Op.enq 0 3, Op.deq, Op.enq 2 5, Op.deq, Op.deq, Op.deq]).length ∧
      6 = 6 ∧
      LockFreeMPSCQueue.live_payloads
          ({ buffer := List.replicate 4 ⟨none, LockFreeMPSCQueue.Slot.State.Empty⟩,
             buffer_size := 4, modulo_mask := 3, write_index := 2,
             read_index := 2 } : LockFreeMPSCQueue Nat) = 0 ∧
      (∀ (x : Nat → Nat) (per_producer : Nat),
        per_producer ≤ ex_MPSCQueues.PRODUCED_ELEMENTS_PER_PRODUCER →
        (∀ p, (Op.enqueuedBy p [Op.enq 0 0, Op.enq 1 1, Op.enq 2 2, Op.deq, Op.deq,
            Op.enq 1 4, Op.enq 0 3, Op.deq, Op.enq 2 5, Op.deq, Op.deq, Op.deq]).map x =
          if p < ex_MPSCQueues.PRODUCERS_COUNT then ex_MPSCQueues.produce per_producer p
          else []) →
        ex_MPSCQueues.consume ([0, 1, 2, 4, 3, 5].map x) =
          ex_MPSCQueues.EXPECTED_SUM per_producer) ∧
      ex_MPSCQueues.EXPECTED_SUM ex_MPSCQueues.PRODUCED_ELEMENTS_PER_PRODUCER =
        (3 * 2 ^ 24 - 1) * (3 * 2 ^ 24) / 2) ∧
    ex_MPSCQueues.consume ([0, 1, 2, 4, 3, 5].map id) = ex_MPSCQueues.EXPECTED_SUM 2 :=
  ⟨⟨by decide, by decide⟩,
    mpsc_conservation 2 (by decide) (by decide)
      [Op.enq 0 0, Op.enq 1 1, Op.enq 2 2, Op.deq, Op.deq, Op.enq 1 4, Op.enq 0 3,
        Op.deq, Op.enq 2 5, Op.deq, Op.deq, Op.deq]
      { queue := { buffer := List.replicate 4 ⟨none, LockFreeMPSCQueue.Slot.State.Empty⟩,
                   buffer_size := 4, modulo_mask := 3, write_index := 2, read_index := 2 },
        dequeued := [0, 1, 2, 4, 3, 5], constructed := 6, destroyed := 6 }
      (by decide) (by decide),
    (mpsc_conservation 2 (by decide) (by decide)
      [Op.enq 0 0, Op.enq 1 1, Op.enq 2 2, Op.deq, Op.deq, Op.enq 1 4, Op.enq 0 3,
        Op.deq, Op.enq 2 5, Op.deq, Op.deq, Op.deq]
      { queue := { buffer := List.replicate 4 ⟨none, LockFreeMPSCQueue.Slot.State.Empty⟩,
                   buffer_size := 4, modulo_mask := 3, write_index := 2, read_index := 2 },
        dequeued := [0, 1, 2, 4, 3, 5], constructed := 6, destroyed := 6 }
      (by decide) (by decide)).2.2.2.2.1 id 2 (by decide) (by
        intro p
        rcases p with _ | _ | _ | p
        · decide
        · decide
        · decide
        · simp [Op.enqueuedBy, ex_MPSCQueues.PRODUCERS_COUNT])⟩

/-! ## Teardown -/

/-- C10 (SPSC teardown in a wrapped state). On a ring of 8 slots, after 7 enqueues,
7 dequeues and 3 more enqueues the ring interval `[read_index, write_index)` is the
slots 7, 0, 1 (`read_index = 7`, `write_index = 2`) and 3 payloads are live; the loop of
`destroy_elements` runs `i = 7; i < 2` and destroys no payload, so the 3 payloads are
still live after it, and `clear` resets the cursors over them. In the state after 3
enqueues on a fresh ring (`read_index = 0`, `write_index = 3`) the loop destroys the
slots 0, 1, 2. -/
theorem spsc_destroy_elements_skips_wrapped_interval :
    (∃ s : Run (LockFreeSPSCQueue Nat) Nat,
      LockFreeSPSCQueue.run_fresh 8
          [Op.enq 0 0, Op.enq 0 1, Op.enq 0 2, Op.enq 0 3, Op.enq 0 4, Op.enq 0 5, Op.enq 0 6,
            Op.deq, Op.deq, Op.deq, Op.deq, Op.deq, Op.deq, Op.deq,
            Op.enq 0 7, Op.enq 0 8, Op.enq 0 9] = some s ∧
        s.queue.read_index = 7 ∧ s.queue.write_index = 2 ∧
        s.queue.ring_interval = [7, 0, 1] ∧ s.queue.live_payloads = 3 ∧
        s.queue.destroyed_slots = [] ∧ s.queue.destroy_elements = s.queue ∧
        s.queue.destroy_elements.live_payloads = 3 ∧
        s.queue.clear.live_payloads = 3 ∧ s.queue.clear.read_index = 0 ∧
        s.queue.clear.write_index = 0) ∧
      (∃ s : Run (LockFreeSPSCQueue Nat) Nat,
        LockFreeSPSCQueue.run_fresh 8 [Op.enq 0 0, Op.enq 0 1, Op.enq 0 2] = some s ∧
          s.queue.read_index = 0 ∧ s.queue.write_index = 3 ∧
          s.queue.ring_interval = [0, 1, 2] ∧ s.queue.live_payloads = 3 ∧
          s.queue.destroyed_slots = [0, 1, 2] ∧
          s.queue.destroy_elements.live_payloads = 0) := by
  refine ⟨⟨{ queue := { buffer := [some 8, some 9, none, none, none, none, none, some 7],
                        buffer_size := 8, modulo_mask := 7, write_index := 2,
                        read_index := 7 },
             dequeued := [0, 1, 2, 3, 4, 5, 6], constructed := 10, destroyed := 7 },
      by decide, by decide, by decide, by decide, by decide, by decide, by decide, by decide,
      by decide, by decide, by decide⟩,
    ⟨{ queue := { buffer := [some 0, some 1, some 2, none, none, none, none, none],
                  buffer_size := 8, modulo_mask := 7, write_index := 3, read_index := 0 },
       dequeued := [], constructed := 3, destroyed := 0 },
      by decide, by decide, by decide, by decide, by decide, by decide, by decide⟩⟩

/-! ## Capacity under concurrent producers -/

/-- C6 (MPSC capacity with a stale producer). On a ring of 2 slots shared by producers
0 and 1: producer 1 loads `write_index = 0` and `read_index = 0` and passes the full
test; producer 0 completes `enqueue(1)`, the consumer completes `dequeue()`, producer 0
completes `enqueue(2)`, after which `write_index = 0`, `read_index = 1` and the full
test holds; producer 1 then succeeds in both compare-and-swaps with its stale
`write_index = 0`. Both slots are then `Writing` or `Occupied`, and after producer 1
has published both hold a live payload: 2 slots in use, not at most `2 - 1`. -/
theorem mpsc_stale_producer_fills_every_slot :
    (∃ s : LockFreeMPSCQueue.System Nat,
      LockFreeMPSCQueue.System.exec_fresh 2 2
          ([LockFreeMPSCQueue.Action.enqueue 1 3, LockFreeMPSCQueue.Action.producer 1 false,
              LockFreeMPSCQueue.Action.producer 1 false] ++
            LockFreeMPSCQueue.Action.complete_enqueue 0 1 ++
            LockFreeMPSCQueue.Action.complete_dequeue ++
            LockFreeMPSCQueue.Action.complete_enqueue 0 2) = some s ∧
        s.queue.write_index = 0 ∧ s.queue.read_index = 1 ∧
        s.queue.ring_full s.queue.write_index s.queue.read_index = true ∧
        s.producers = [LockFreeMPSCQueue.Producer.idle,
          LockFreeMPSCQueue.Producer.claim_slot 3 0] ∧
        s.dequeued = [1] ∧ s.queue.claimed_slots = 1) ∧
      (∃ s : LockFreeMPSCQueue.System Nat,
        LockFreeMPSCQueue.System.exec_fresh 2 2
            ([LockFreeMPSCQueue.Action.enqueue 1 3, LockFreeMPSCQueue.Action.producer 1 false,
                LockFreeMPSCQueue.Action.producer 1 false] ++
              LockFreeMPSCQueue.Action.complete_enqueue 0 1 ++
              LockFreeMPSCQueue.Action.complete_dequeue ++
              LockFreeMPSCQueue.Action.complete_enqueue 0 2 ++
              [LockFreeMPSCQueue.Action.producer 1 false,
                LockFreeMPSCQueue.Action.producer 1 false]) = some s ∧
          s.queue.write_index = 1 ∧ s.queue.read_index = 1 ∧
          s.queue.buffer.map LockFreeMPSCQueue.Slot.state =
            [LockFreeMPSCQueue.Slot.State.Writing, LockFreeMPSCQueue.Slot.State.Occupied] ∧
          s.queue.claimed_slots = 2) ∧
      (∃ s : LockFreeMPSCQueue.System Nat,
        LockFreeMPSCQueue.System.exec_fresh 2 2
            ([LockFreeMPSCQueue.Action.enqueue 1 3, LockFreeMPSCQueue.Action.producer 1 false,
                LockFreeMPSCQueue.Action.producer 1 false] ++
              LockFreeMPSCQueue.Action.complete_enqueue 0 1 ++
              LockFreeMPSCQueue.Action.complete_dequeue ++
              LockFreeMPSCQueue.Action.complete_enqueue 0 2 ++
              [LockFreeMPSCQueue.Action.producer 1 false,
                LockFreeMPSCQueue.Action.producer 1 false,
                LockFreeMPSCQueue.Action.producer 1 false,
                LockFreeMPSCQueue.Action.producer 1 false]) = some s ∧
          s.queue.buffer = [⟨some 3, LockFreeMPSCQueue.Slot.State.Occupied⟩,
            ⟨some 2, LockFreeMPSCQueue.Slot.State.Occupied⟩] ∧
          s.queue.claimed_slots = 2 ∧ s.queue.live_payloads = 2 ∧
          ¬ s.queue.claimed_slots ≤ 2 - 1) := by
  refine ⟨⟨{ queue := { buffer := [⟨none, LockFreeMPSCQueue.Slot.State.Empty⟩,
                                   ⟨some 2, LockFreeMPSCQueue.Slot.State.Occupied⟩],
                        buffer_size := 2, modulo_mask := 1, write_index := 0,
                        read_index := 1 },
             producers := [LockFreeMPSCQueue.Producer.idle,
               LockFreeMPSCQueue.Producer.claim_slot 3 0],
             consumer := LockFreeMPSCQueue.Consumer.idle, dequeued := [1] },
      by decide, by decide, by decide, by decide, by decide, by decide, by decide⟩,
    ⟨{ queue := { buffer := [⟨none, LockFreeMPSCQueue.Slot.State.Writing⟩,
                             ⟨some 2, LockFreeMPSCQueue.Slot.State.Occupied⟩],
                  buffer_size := 2, modulo_mask := 1, write_index := 1, read_index := 1 },
       producers := [LockFreeMPSCQueue.Producer.idle, LockFreeMPSCQueue.Producer.place 3 0],
       consumer := LockFreeMPSCQueue.Consumer.idle, dequeued := [1] },
      by decide, by decide, by decide, by decide, by decide⟩,
    ⟨{ queue := { buffer := [⟨some 3, LockFreeMPSCQueue.Slot.State.Occupied⟩,
                             ⟨some 2, LockFreeMPSCQueue.Slot.State.Occupied⟩],
                  buffer_size := 2, modulo_mask := 1, write_index := 1, read_index := 1 },
       producers := [LockFreeMPSCQueue.Producer.idle, LockFreeMPSCQueue.Producer.idle],
       consumer := LockFreeMPSCQueue.Consumer.idle, dequeued := [1] },
      by decide, by decide, by decide, by decide, by decide⟩⟩

/-! ## Frame of `enqueue` and `dequeue` -/

/-- C19 (single-writer cursors). In both queues, on a ring of `2 ^ k` slots with both
cursors below `2 ^ k`: a call of `enqueue` that returns leaves `read_index` and every
slot other than `slot[write_index]` as they were and moves `write_index` to
`(write_index + 1) mod 2 ^ k`; a call of `dequeue` that returns leaves `write_index` and
every slot other than `slot[read_index]` as they were and moves `read_index` to
`(read_index + 1) mod 2 ^ k`. -/
theorem single_writer_cursors {T : Type} (k : Nat) (hk : k ≤ 63)
    (qs : LockFreeSPSCQueue T) (hs_mask : qs.modulo_mask = 2 ^ k - 1)
    (hs_w : qs.write_index < 2 ^ k) (hs_r : qs.read_index < 2 ^ k)
    (qm : LockFreeMPSCQueue T) (hm_mask : qm.modulo_mask = 2 ^ k - 1)
    (hm_w : qm.write_index < 2 ^ k) (hm_r : qm.read_index < 2 ^ k) :
    (∀ x q', qs.enqueue x = Outcome.done q' →
        q'.read_index = qs.read_index ∧ q'.write_index = (qs.write_index + 1) % 2 ^ k ∧
        ∀ i, i ≠ qs.write_index → q'.buffer[i]? = qs.buffer[i]?) ∧
      (∀ v q', qs.dequeue = Outcome.done (v, q') →
        q'.write_index = qs.write_index ∧ q'.read_index = (qs.read_index + 1) % 2 ^ k ∧
        ∀ i, i ≠ qs.read_index → q'.buffer[i]? = qs.buffer[i]?) ∧
      (∀ x q', qm.enqueue x = Outcome.done q' →
        q'.read_index = qm.read_index ∧ q'.write_index = (qm.write_index + 1) % 2 ^ k ∧
        ∀ i, i ≠ qm.write_index → q'.buffer[i]? = qm.buffer[i]?) ∧
      (∀ v q', qm.dequeue = Outcome.done (v, q') →
        q'.write_index = qm.write_index ∧ q'.read_index = (qm.read_index + 1) % 2 ^ k ∧
        ∀ i, i ≠ qm.read_index → q'.buffer[i]? = qm.buffer[i]?) := by
  have hn := pow_le_half hk
  have hinc_s : ∀ i, i < 2 ^ k → qs.incremented i = (i + 1) % 2 ^ k := by
    intro i hi
    rw [LockFreeSPSCQueue.incremented, hs_mask, wrap_succ hn hi,
      Nat.and_pow_two_sub_one_eq_mod]
  have hinc_m : ∀ b i, i < 2 ^ k →
      ({ qm with buffer := b } : LockFreeMPSCQueue T).incremented i = (i + 1) % 2 ^ k := by
    intro b i hi
    rw [LockFreeMPSCQueue.incremented, hm_mask, wrap_succ hn hi,
      Nat.and_pow_two_sub_one_eq_mod]
  refine ⟨?_, ?_, ?_, ?_⟩
  · intro x q' h
    simp only [LockFreeSPSCQueue.enqueue] at h
    split at h
    · simp only [Outcome.done.injEq] at h
      subst h
      exact ⟨rfl, hinc_s _ hs_w, fun i hi => List.getElem?_set_ne (Ne.symm hi)⟩
    · simp at h
  · intro v q' h
    simp only [LockFreeSPSCQueue.dequeue] at h
    split at h
    · split at h
      · simp only [Outcome.done.injEq, Prod.mk.injEq] at h
        obtain ⟨_, h⟩ := h
        subst h
        exact ⟨rfl, hinc_s _ hs_r, fun i hi => List.getElem?_set_ne (Ne.symm hi)⟩
      · simp at h
    · simp at h
  · intro x q' h
    simp only [LockFreeMPSCQueue.enqueue, LockFreeMPSCQueue.enqueue_pass,
      LockFreeMPSCQueue.slot_cas, LockFreeMPSCQueue.index_cas,
      LockFreeMPSCQueue.store_state, LockFreeMPSCQueue.store_element,
      LockFreeMPSCQueue.enqueue_publish] at h
    split at h
    · rename_i hpass
      split at hpass
      · simp at hpass
      · split at hpass
        · rename_i hcas
          split at hcas
          · simp only [Prod.mk.injEq, true_and] at hcas
            subst hcas
            simp only [and_self, if_true, Prod.mk.injEq, true_and] at hpass
            subst hpass
            simp only [Outcome.done.injEq] at h
            subst h
            refine ⟨rfl, hinc_m _ _ hm_w, ?_⟩
            intro i hi
            simp [List.getElem?_set_ne (Ne.symm hi)]
          · simp at hcas
        · simp at hpass
    · simp at h
  · intro v q' h
    simp only [LockFreeMPSCQueue.dequeue, LockFreeMPSCQueue.store_state,
      LockFreeMPSCQueue.store_element] at h
    split at h
    · simp at h
    · split at h
      · simp only [Outcome.done.injEq, Prod.mk.injEq] at h
        obtain ⟨_, h⟩ := h
        subst h
        refine ⟨rfl, hinc_m _ _ hm_r, ?_⟩
        intro i hi
        simp [List.getElem?_set_ne (Ne.symm hi)]
      · simp at h

/-! ## One pass of the retry loop of `LockFreeMPSCQueue::enqueue` -/

namespace LockFreeMPSCQueue

variable {T : Type}

theorem enqueue_pass_eq (q : LockFreeMPSCQueue T) (w r : Nat) (sf xf : Bool) :
    q.enqueue_pass w r sf xf =
      if q.ring_full w r = true then (false, q)
      else if (q.slot w).state = Slot.State.Empty ∧ sf = false then
        if q.write_index = w ∧ xf = false then
          (true, { q.store_state w Slot.State.Writing with write_index := q.incremented w })
        else (false, (q.store_state w Slot.State.Writing).store_state w Slot.State.Empty)
      else (false, q) := by
  by_cases hfull : q.ring_full w r = true
  · simp [enqueue_pass, hfull]
  · by_cases hst : (q.slot w).state = Slot.State.Empty ∧ sf = false
    · by_cases hidx : q.write_index = w ∧ xf = false
      · have hidx' : (q.store_state w Slot.State.Writing).write_index = w ∧ xf = false := hidx
        simp only [enqueue_pass, slot_cas, index_cas, hfull, hst, hidx, hidx', and_self,
          if_true, if_false]
        rfl
      · have hidx' : ¬ ((q.store_state w Slot.State.Writing).write_index = w ∧ xf = false) :=
          hidx
        simp only [enqueue_pass, slot_cas, index_cas, hfull, hst, hidx, hidx', and_self,
          if_true, if_false]
    · simp only [enqueue_pass, slot_cas, hfull, hst, if_false]

theorem slot_store_state (q : LockFreeMPSCQueue T) {w : Nat} (hwl : w < q.buffer.length)
    (st : Slot.State) :
    (q.store_state w st).slot w = { element := (q.slot w).element, state := st } := by
  simp [store_state, slot, hwl]

theorem slot_store_element (q : LockFreeMPSCQueue T) {w : Nat} (hwl : w < q.buffer.length)
    (e : Option T) :
    (q.store_element w e).slot w = { element := e, state := (q.slot w).state } := by
  simp [store_element, slot, hwl]

theorem buffer_set_slot (q : LockFreeMPSCQueue T) {w : Nat} (hwl : w < q.buffer.length) :
    q.buffer.set w (q.slot w) = q.buffer := by
  apply List.ext_getElem?
  intro i
  by_cases hi : w = i
  · subst hi
    rw [List.getElem?_set_self hwl, slot, List.getD_eq_getElem?_getD,
      List.getElem?_eq_getElem hwl]
    rfl
  · rw [List.getElem?_set_ne hi]

theorem store_state_twice (q : LockFreeMPSCQueue T) {w : Nat} (hwl : w < q.buffer.length)
    (s1 s2 : Slot.State) :
    (q.store_state w s1).store_state w s2 = q.store_state w s2 := by
  have h1 := slot_store_state q hwl s1
  simp only [store_state] at h1 ⊢
  rw [List.set_set, h1]

theorem store_state_roll_back (q : LockFreeMPSCQueue T) {w : Nat} (hwl : w < q.buffer.length)
    (hst : (q.slot w).state = Slot.State.Empty) :
    (q.store_state w Slot.State.Writing).store_state w Slot.State.Empty = q := by
  rw [store_state_twice q hwl]
  have e2 : ({ element := (q.slot w).element, state := Slot.State.Empty } : Slot T) =
      q.slot w := by
    rw [← hst]
  simp only [store_state]
  rw [e2, buffer_set_slot q hwl]

end LockFreeMPSCQueue

/-- C18 (a failed enqueue attempt is atomic). One pass of the retry loop of
`LockFreeMPSCQueue::enqueue` on a ring of `2 ^ k` slots, run against any queue state
with any observed cursors `w`, `r` below `2 ^ k`. A pass that does not leave the loop
ends with the queue (cursors, slot states, payloads) as it was before the pass, also
when a weak compare-and-swap fails spuriously. Without spurious failure the pass does
not leave the loop iff `distance(w, r) = 1`, or `slot[w]` is not `Empty`, or
`write_index` differs from `w`. A pass that leaves the loop has `slot[w]` in state
`Writing`, and `enqueue` then finishes with `slot[w]` `Occupied` holding the value,
`write_index = (w + 1) & (2 ^ k - 1)`, and all other slots and `read_index` unchanged. -/
theorem failed_attempt_atomic {T : Type} (k : Nat) (hk : k ≤ 63) (q : LockFreeMPSCQueue T)
    (hmask : q.modulo_mask = 2 ^ k - 1) (hlen : q.buffer.length = 2 ^ k)
    (w r : Nat) (hw : w < 2 ^ k) (x : T) :
    (∀ slot_weak_fail index_weak_fail,
        (q.enqueue_pass w r slot_weak_fail index_weak_fail).1 = false →
        (q.enqueue_pass w r slot_weak_fail index_weak_fail).2 = q) ∧
      ((q.enqueue_pass w r false false).1 = false ↔
        (q.distance w r = 1 ∨ (q.slot w).state ≠ LockFreeMPSCQueue.Slot.State.Empty ∨
          q.write_index ≠ w)) ∧
      (∀ slot_weak_fail index_weak_fail,
        (q.enqueue_pass w r slot_weak_fail index_weak_fail).1 = true →
        ((q.enqueue_pass w r slot_weak_fail index_weak_fail).2.slot w).state =
            LockFreeMPSCQueue.Slot.State.Writing ∧
          (((q.enqueue_pass w r slot_weak_fail index_weak_fail).2.enqueue_publish w x).slot w =
            ⟨some x, LockFreeMPSCQueue.Slot.State.Occupied⟩) ∧
          ((q.enqueue_pass w r slot_weak_fail index_weak_fail).2.enqueue_publish w x).write_index
            = (w + 1) &&& (2 ^ k - 1) ∧
          ((q.enqueue_pass w r slot_weak_fail index_weak_fail).2.enqueue_publish w x).read_index
            = q.read_index ∧
          ∀ i, i ≠ w →
            ((q.enqueue_pass w r slot_weak_fail index_weak_fail).2.enqueue_publish w x).buffer[i]?
              = q.buffer[i]?) := by
  have hn := pow_le_half hk
  have hwl : w < q.buffer.length := by rw [hlen]; exact hw
  have hinc : q.incremented w = (w + 1) &&& (2 ^ k - 1) := by
    rw [LockFreeMPSCQueue.incremented, hmask, wrap_succ hn hw]
  refine ⟨?_, ?_, ?_⟩
  · intro sf xf hfail
    rw [LockFreeMPSCQueue.enqueue_pass_eq] at hfail ⊢
    split_ifs at hfail ⊢ with h1 h2 h3
    · rfl
    · exact LockFreeMPSCQueue.store_state_roll_back q hwl h2.1
    · rfl
  · rw [LockFreeMPSCQueue.enqueue_pass_eq]
    simp only [LockFreeMPSCQueue.ring_full, beq_iff_eq, and_true]
    split_ifs with h1 h2 h3
    · simp [h1]
    · simp [h1, h2, h3]
    · simp [h1, h2, h3]
    · simp [h1, h2]
  · intro sf xf hexit
    rw [LockFreeMPSCQueue.enqueue_pass_eq] at hexit ⊢
    split_ifs at hexit ⊢ with h1 h2 h3
    have hwl1 : w < (q.store_state w LockFreeMPSCQueue.Slot.State.Writing).buffer.length := by
      simpa [LockFreeMPSCQueue.store_state] using hwl
    refine ⟨congrArg LockFreeMPSCQueue.Slot.state
      (LockFreeMPSCQueue.slot_store_state q hwl LockFreeMPSCQueue.Slot.State.Writing),
      ?_, hinc, rfl, ?_⟩
    · simp [LockFreeMPSCQueue.enqueue_publish, LockFreeMPSCQueue.store_element,
        LockFreeMPSCQueue.store_state, LockFreeMPSCQueue.slot, hwl]
    · intro i hi
      simp [LockFreeMPSCQueue.enqueue_publish, LockFreeMPSCQueue.store_element,
        LockFreeMPSCQueue.store_state, List.getElem?_set_ne (Ne.symm hi)]

/-! ## Cursors and slot states between complete operations -/

theorem LockFreeSPSCQueue.Holds.run_cursor {T : Type} {k : Nat} (ops : List (Op T)) :
    ∀ (s s' : Run (LockFreeSPSCQueue T) T) (c : List T), s.queue.Holds k c →
      LockFreeSPSCQueue.run s ops = some s' →
      s'.queue.read_index = (s.queue.read_index + Op.dequeues ops) % 2 ^ k := by
  induction ops with
  | nil =>
    intro s s' c h hrun
    simp only [LockFreeSPSCQueue.run, Option.some.injEq] at hrun
    subst hrun
    simp [Op.dequeues, Nat.mod_eq_of_lt h.read_lt]
  | cons op ops ih =>
    intro s s' c h hrun
    cases op with
    | enq p x =>
      by_cases hroom : c.length + 1 < 2 ^ k
      · simp only [LockFreeSPSCQueue.run, LockFreeSPSCQueue.step, h.enqueue_done x hroom] at hrun
        simpa [Op.dequeues] using ih _ s' _ (h.after_enqueue x hroom) hrun
      · have hfull : c.length + 1 = 2 ^ k := by have := h.content_lt; omega
        simp [LockFreeSPSCQueue.run, LockFreeSPSCQueue.step, h.enqueue_waits x hfull] at hrun
    | deq =>
      cases c with
      | nil => simp [LockFreeSPSCQueue.run, LockFreeSPSCQueue.step, h.dequeue_waits] at hrun
      | cons v c =>
        simp only [LockFreeSPSCQueue.run, LockFreeSPSCQueue.step, h.dequeue_done] at hrun
        have e := ih _ s' _ h.after_dequeue hrun
        rw [e]
        show ((s.queue.read_index + 1) % 2 ^ k + Op.dequeues ops) % 2 ^ k = _
        rw [Nat.mod_add_mod, Op.dequeues]
        congr 1
        omega

theorem LockFreeMPSCQueue.Holds.mpsc_run_cursor {T : Type} {k : Nat} (ops : List (Op T)) :
    ∀ (s s' : Run (LockFreeMPSCQueue T) T) (c : List T), s.queue.Holds k c →
      LockFreeMPSCQueue.run s ops = some s' →
      s'.queue.read_index = (s.queue.read_index + Op.dequeues ops) % 2 ^ k := by
  induction ops with
  | nil =>
    intro s s' c h hrun
    simp only [LockFreeMPSCQueue.run, Option.some.injEq] at hrun
    subst hrun
    simp [Op.dequeues, Nat.mod_eq_of_lt h.read_lt]
  | cons op ops ih =>
    intro s s' c h hrun
    cases op with
    | enq p x =>
      by_cases hroom : c.length + 1 < 2 ^ k
      · simp only [LockFreeMPSCQueue.run, LockFreeMPSCQueue.step,
          h.mpsc_enqueue_done x hroom] at hrun
        simpa [Op.dequeues] using ih _ s' _ (h.mpsc_after_enqueue x hroom) hrun
      · have hfull : c.length + 1 = 2 ^ k := by have := h.ring.content_lt; omega
        simp [LockFreeMPSCQueue.run, LockFreeMPSCQueue.step,
          h.mpsc_enqueue_waits x hfull] at hrun
    | deq =>
      cases c with
      | nil =>
        simp [LockFreeMPSCQueue.run, LockFreeMPSCQueue.step, h.mpsc_dequeue_waits] at hrun
      | cons v c =>
        simp only [LockFreeMPSCQueue.run, LockFreeMPSCQueue.step, h.mpsc_dequeue_done] at hrun
        have e := ih _ s' _ h.mpsc_after_dequeue hrun
        rw [e]
        show ((s.queue.read_index + 1) % 2 ^ k + Op.dequeues ops) % 2 ^ k = _
        rw [Nat.mod_add_mod, Op.dequeues]
        congr 1
        omega

/-- C16 (balanced use returns to empty). For both queues, every capacity `2 ^ k`
(`k ≥ 1`) and every sequence of calls on a freshly constructed queue in which every call
returns and which makes as many `dequeue` calls as `enqueue` calls, `M` of each: the
final state has `write_index = read_index = M mod 2 ^ k`, holds no live payload (every
MPSC slot is `Empty`), and `dequeue` would wait. -/
theorem balanced_use_returns_to_empty {T : Type} (k : Nat) (hk1 : 1 ≤ k) (hk : k ≤ 63)
    (ops_s : List (Op T)) (s : Run (LockFreeSPSCQueue T) T)
    (hrun_s : LockFreeSPSCQueue.run_fresh (2 ^ k) ops_s = some s)
    (hbal_s : Op.dequeues ops_s = (Op.enqueued ops_s).length)
    (ops_m : List (Op T)) (m : Run (LockFreeMPSCQueue T) T)
    (hrun_m : LockFreeMPSCQueue.run_fresh (2 ^ k) ops_m = some m)
    (hbal_m : Op.dequeues ops_m = (Op.enqueued ops_m).length) :
    (s.queue.write_index = (Op.enqueued ops_s).length % 2 ^ k ∧
        s.queue.read_index = (Op.enqueued ops_s).length % 2 ^ k ∧
        s.queue.live_payloads = 0 ∧ s.queue.dequeue = Outcome.waits) ∧
      (m.queue.write_index = (Op.enqueued ops_m).length % 2 ^ k ∧
        m.queue.read_index = (Op.enqueued ops_m).length % 2 ^ k ∧
        m.queue.live_payloads = 0 ∧
        (∀ sl ∈ m.queue.buffer, sl.state = LockFreeMPSCQueue.Slot.State.Empty) ∧
        m.queue.dequeue = Outcome.waits) := by
  constructor
  · obtain ⟨c, h, e1, _, _, e4⟩ := LockFreeSPSCQueue.Holds.run_fresh hk1 hk ops_s s hrun_s
    have hlen : c.length = 0 := by
      have := congrArg List.length e1
      rw [List.length_append] at this
      omega
    obtain rfl := List.eq_nil_of_length_eq_zero hlen
    have hr : s.queue.read_index = (Op.enqueued ops_s).length % 2 ^ k := by
      simp only [LockFreeSPSCQueue.run_fresh, LockFreeSPSCQueue.construct_pow k hk1 hk] at hrun_s
      have := LockFreeSPSCQueue.Holds.run_cursor ops_s _ s []
        (LockFreeSPSCQueue.Holds.fresh k hk1 hk) hrun_s
      simpa [hbal_s] using this
    have hw := h.write_eq
    simp only [List.length_nil, Nat.add_zero, Nat.mod_eq_of_lt h.read_lt] at hw
    exact ⟨by rw [hw, hr], hr, by rw [h.live_eq]; rfl, h.dequeue_waits⟩
  · obtain ⟨c, h, e1, _, _, e4⟩ := LockFreeMPSCQueue.Holds.mpsc_run_fresh hk1 hk ops_m m hrun_m
    have hlen : c.length = 0 := by
      have := congrArg List.length e1
      rw [List.length_append] at this
      omega
    obtain rfl := List.eq_nil_of_length_eq_zero hlen
    have hr : m.queue.read_index = (Op.enqueued ops_m).length % 2 ^ k := by
      simp only [LockFreeMPSCQueue.run_fresh,
        LockFreeMPSCQueue.mpsc_construct_pow k hk1 hk] at hrun_m
      have := LockFreeMPSCQueue.Holds.mpsc_run_cursor ops_m _ m []
        (LockFreeMPSCQueue.Holds.mpsc_fresh k hk1 hk) hrun_m
      simpa [hbal_m] using this
    have hw : m.queue.write_index = (m.queue.read_index + ([] : List T).length) % 2 ^ k :=
      h.ring.write_eq
    simp only [List.length_nil, Nat.add_zero, Nat.mod_eq_of_lt h.read_lt] at hw
    refine ⟨by rw [hw, hr], hr, by rw [h.mpsc_live_eq]; rfl, ?_, h.mpsc_dequeue_waits⟩
    have hcl := h.claimed_eq
    simp only [List.length_nil, LockFreeMPSCQueue.claimed_slots, List.countP_eq_zero] at hcl
    intro sl hsl
    simpa using hcl sl hsl

/-- C20 (MPSC cursor and slot-state agreement). In every state reached from a freshly
constructed `LockFreeMPSCQueue` of `2 ^ k` slots by complete `enqueue` and `dequeue`
calls executed one at a time: no slot is `Writing`; slot `i` is `Occupied` iff
`(i - read_index) mod 2 ^ k < (write_index - read_index) mod 2 ^ k`; every other slot is
`Empty`; and `dequeue` waits iff `write_index = read_index`. -/
theorem mpsc_cursor_state_agreement {T : Type} (k : Nat) (hk1 : 1 ≤ k) (hk : k ≤ 63)
    (ops : List (Op T)) (s : Run (LockFreeMPSCQueue T) T)
    (hrun : LockFreeMPSCQueue.run_fresh (2 ^ k) ops = some s) :
    (∀ i, i < 2 ^ k →
        (s.queue.slot i).state ≠ LockFreeMPSCQueue.Slot.State.Writing ∧
        ((s.queue.slot i).state = LockFreeMPSCQueue.Slot.State.Occupied ↔
          ((i : Int) - (s.queue.read_index : Int)) % ((2 ^ k : Nat) : Int) <
            ((s.queue.write_index : Int) - (s.queue.read_index : Int)) %
              ((2 ^ k : Nat) : Int)) ∧
        ((s.queue.slot i).state ≠ LockFreeMPSCQueue.Slot.State.Occupied →
          (s.queue.slot i).state = LockFreeMPSCQueue.Slot.State.Empty)) ∧
      (s.queue.dequeue = Outcome.waits ↔ s.queue.write_index = s.queue.read_index) := by
  obtain ⟨cs, h, _⟩ := LockFreeMPSCQueue.Holds.mpsc_run_fresh hk1 hk ops s hrun
  have hr := h.read_lt
  have hw := h.mpsc_write_lt
  have hc := h.ring.content_lt
  have hlen : cs.length = (s.queue.write_index + 2 ^ k - s.queue.read_index) % 2 ^ k := by
    rw [← h.ring.distance_eq]
    exact h.ring.distance_of_lt hr hw
  constructor
  · intro i hi
    have hj : (i + 2 ^ k - s.queue.read_index) % 2 ^ k < 2 ^ k := Nat.mod_lt _ (by positivity)
    have hst := h.slot_state hj
    have hidx : (s.queue.read_index + (i + 2 ^ k - s.queue.read_index) % 2 ^ k) % 2 ^ k = i := by
      rw [Nat.add_mod_mod]
      have : s.queue.read_index + (i + 2 ^ k - s.queue.read_index) = i + 2 ^ k := by omega
      rw [this, Nat.add_mod_right, Nat.mod_eq_of_lt hi]
    rw [hidx] at hst
    rw [int_sub_emod hr, int_sub_emod hr, ← hlen, Nat.cast_lt]
    have hsome : (cs[(i + 2 ^ k - s.queue.read_index) % 2 ^ k]?).isSome = true ↔
        (i + 2 ^ k - s.queue.read_index) % 2 ^ k < cs.length := by
      rw [Option.isSome_iff_exists]
      constructor
      · rintro ⟨a, ha⟩
        exact (List.getElem?_eq_some_iff.mp ha).1
      · intro hlt
        exact ⟨_, List.getElem?_eq_getElem hlt⟩
    by_cases hlt : (i + 2 ^ k - s.queue.read_index) % 2 ^ k < cs.length
    · rw [if_pos (hsome.mpr hlt)] at hst
      rw [hst]
      exact ⟨by decide, ⟨fun _ => hlt, fun _ => rfl⟩, by simp⟩
    · rw [if_neg (fun hs => hlt (hsome.mp hs))] at hst
      rw [hst]
      refine ⟨by decide, ?_, by simp⟩
      constructor
      · intro hne
        exact absurd hne (by decide)
      · intro hlt'
        exact absurd hlt' hlt
  · cases cs with
    | nil =>
      have e : s.queue.write_index = (s.queue.read_index + ([] : List T).length) % 2 ^ k :=
        h.ring.write_eq
      simp only [List.length_nil, Nat.add_zero, Nat.mod_eq_of_lt hr] at e
      simp [h.mpsc_dequeue_waits, e]
    | cons v cs =>
      simp only [List.length_cons] at hlen hc
      rw [mod_of_lt_two_mul (by omega)] at hlen
      rw [h.mpsc_dequeue_done]
      constructor
      · intro hcontra
        simp at hcontra
      · intro heq
        rw [heq] at hlen
        split at hlen <;> omega

/-! ## Construction -/

theorem and_pred_eq_zero_iff (n : Nat) (hn : 0 < n) :
    n &&& (n - 1) = 0 ↔ ∃ k, n = 2 ^ k := by
  constructor
  · intro hand
    obtain ⟨a, m, hodd, hnm⟩ := Nat.exists_eq_two_pow_mul_odd (Nat.pos_iff_ne_zero.mp hn)
    obtain ⟨j, hj⟩ := hodd
    rcases Nat.eq_zero_or_pos j with hj0 | hjpos
    · refine ⟨a, ?_⟩
      rw [hnm, hj, hj0]
      simp
    · exfalso
      obtain ⟨b, hb⟩ := Nat.ne_zero_implies_bit_true (Nat.pos_iff_ne_zero.mp hjpos)
      have hP : 0 < 2 ^ a := by positivity
      have hpow : 2 ^ (a + 1) = 2 * 2 ^ a := by rw [pow_succ]; ring
      have hn' : n = 2 * (2 ^ a * j) + 2 ^ a := by rw [hnm, hj]; ring
      have hjmul : j * (2 * 2 ^ a) = 2 * (2 ^ a * j) := by ring
      have hj1mul : (j + 1) * (2 * 2 ^ a) = 2 * (2 ^ a * j) + 2 * 2 ^ a := by ring
      have hd1 : n >>> (a + 1) = j := by
        rw [Nat.shiftRight_eq_div_pow, hpow]
        exact Nat.div_eq_of_lt_le (by rw [hjmul]; omega) (by rw [hj1mul]; omega)
      have hd2 : (n - 1) >>> (a + 1) = j := by
        rw [Nat.shiftRight_eq_div_pow, hpow]
        exact Nat.div_eq_of_lt_le (by rw [hjmul]; omega) (by rw [hj1mul]; omega)
      have h1 : n.testBit (a + 1 + b) = true := by
        rw [← Nat.testBit_shiftRight, hd1]; exact hb
      have h2 : (n - 1).testBit (a + 1 + b) = true := by
        rw [← Nat.testBit_shiftRight, hd2]; exact hb
      have h3 : (n &&& (n - 1)).testBit (a + 1 + b) = true := by
        rw [Nat.testBit_and, h1, h2]; rfl
      rw [hand] at h3
      simp at h3
  · rintro ⟨k, rfl⟩
    rw [Nat.and_pow_two_sub_one_eq_mod]
    simp

/-- C12 (construction precondition). For both queues and every 64-bit `buffer_size`, the
check of the constructor, `buffer_size > 1 && (buffer_size & (buffer_size - 1)) == 0`
with `buffer_size - 1` wrapping for 0, holds iff `buffer_size = 2 ^ k` for some `k ≥ 1`;
construction succeeds exactly then, and on success both cursors are 0, the buffer has
`buffer_size` slots and every MPSC slot is `Empty`. -/
theorem construction_precondition {T : Type} (buffer_size : Nat)
    (hsize : buffer_size < 2 ^ SIZE_BITS) :
    ((buffer_size > 1 ∧ buffer_size &&& wrap (buffer_size + 2 ^ SIZE_BITS - 1) = 0) ↔
        ∃ k, 1 ≤ k ∧ buffer_size = 2 ^ k) ∧
      (((LockFreeSPSCQueue.construct buffer_size : Option (LockFreeSPSCQueue T)).isSome =
          true) ↔ ∃ k, 1 ≤ k ∧ buffer_size = 2 ^ k) ∧
      (((LockFreeMPSCQueue.construct buffer_size : Option (LockFreeMPSCQueue T)).isSome =
          true) ↔ ∃ k, 1 ≤ k ∧ buffer_size = 2 ^ k) ∧
      (∀ q : LockFreeSPSCQueue T, LockFreeSPSCQueue.construct buffer_size = some q →
        q.write_index = 0 ∧ q.read_index = 0 ∧ q.buffer.length = buffer_size ∧
          q.live_payloads = 0) ∧
      (∀ q : LockFreeMPSCQueue T, LockFreeMPSCQueue.construct buffer_size = some q →
        q.write_index = 0 ∧ q.read_index = 0 ∧ q.buffer.length = buffer_size ∧
          ∀ sl ∈ q.buffer, sl.state = LockFreeMPSCQueue.Slot.State.Empty) := by
  have hcheck : (buffer_size > 1 ∧ buffer_size &&& wrap (buffer_size + 2 ^ SIZE_BITS - 1) = 0) ↔
      ∃ k, 1 ≤ k ∧ buffer_size = 2 ^ k := by
    constructor
    · rintro ⟨hgt, hand⟩
      have hmask : wrap (buffer_size + 2 ^ SIZE_BITS - 1) = buffer_size - 1 := by
        simp only [wrap, SIZE_BITS] at hsize ⊢
        omega
      rw [hmask] at hand
      obtain ⟨k, hk⟩ := (and_pred_eq_zero_iff buffer_size (by omega)).mp hand
      refine ⟨k, ?_, hk⟩
      rcases Nat.eq_zero_or_pos k with h0 | hpos
      · rw [h0] at hk
        simp at hk
        omega
      · exact hpos
    · rintro ⟨k, hk1, rfl⟩
      have h2 := two_le_pow hk1
      have hmask : wrap (2 ^ k + 2 ^ SIZE_BITS - 1) = 2 ^ k - 1 := by
        simp only [wrap, SIZE_BITS] at hsize ⊢
        omega
      rw [hmask]
      exact ⟨by omega, (and_pred_eq_zero_iff _ (by omega)).mpr ⟨k, rfl⟩⟩
  refine ⟨hcheck, ?_, ?_, ?_, ?_⟩
  · rw [← hcheck]
    simp only [LockFreeSPSCQueue.construct]
    split
    · rename_i h
      simp [h.2.1, h.2.2]
    · rename_i h
      simp only [Option.isSome_none, Bool.false_eq_true, false_iff]
      intro hc
      exact h ⟨hsize, hc.1, hc.2⟩
  · rw [← hcheck]
    simp only [LockFreeMPSCQueue.construct]
    split
    · rename_i h
      simp [h.2.1, h.2.2]
    · rename_i h
      simp only [Option.isSome_none, Bool.false_eq_true, false_iff]
      intro hc
      exact h ⟨hsize, hc.1, hc.2⟩
  · intro q hq
    simp only [LockFreeSPSCQueue.construct] at hq
    split at hq
    · simp only [Option.some.injEq] at hq
      subst hq
      simp [LockFreeSPSCQueue.live_payloads, List.countP_replicate]
    · simp at hq
  · intro q hq
    simp only [LockFreeMPSCQueue.construct] at hq
    split at hq
    · simp only [Option.some.injEq] at hq
      subst hq
      refine ⟨rfl, rfl, by simp, ?_⟩
      intro sl hsl
      rw [List.eq_of_mem_replicate hsl]
      rfl
    · simp at hq

/-! ## Teardown and `clear` of the multi-producer ring -/

theorem map_getD_range {α : Type} (l : List α) (d : α) :
    (List.range l.length).map (fun i => l.getD i d) = l := by
  apply List.ext_getElem?
  intro i
  by_cases hi : i < l.length
  · rw [List.getElem?_map, List.getElem?_range hi]
    simp [List.getElem?_eq_getElem hi]
  · rw [List.getElem?_eq_none (by simpa using hi), List.getElem?_eq_none (by omega)]

theorem length_filter_range_getD {α : Type} (l : List α) (d : α) (p : α → Bool) :
    ((List.range l.length).filter (fun i => p (l.getD i d))).length = l.countP p := by
  conv_rhs => rw [← map_getD_range l d]
  rw [List.countP_map, List.countP_eq_length_filter]
  rfl

/-- C11 (MPSC teardown loses no payload). In every state reached from a freshly
constructed `LockFreeMPSCQueue` of `2 ^ k` slots by complete `enqueue` and `dequeue`
calls, the destructor destroys the payload of every slot whose state is `Occupied`
once and of no other slot; the slots it destroys are exactly those whose storage holds
a live payload; and the number of payloads destroyed is the number of values enqueued
and not yet dequeued. -/
theorem mpsc_teardown {T : Type} (k : Nat) (hk1 : 1 ≤ k) (hk : k ≤ 63)
    (ops : List (Op T)) (s : Run (LockFreeMPSCQueue T) T)
    (hrun : LockFreeMPSCQueue.run_fresh (2 ^ k) ops = some s) :
    s.queue.destructor.Nodup ∧
      (∀ i, i ∈ s.queue.destructor ↔
        i < 2 ^ k ∧ (s.queue.slot i).state = LockFreeMPSCQueue.Slot.State.Occupied) ∧
      (∀ i, i ∈ s.queue.destructor ↔ i < 2 ^ k ∧ (s.queue.slot i).element.isSome = true) ∧
      s.queue.destructor.length = s.queue.live_payloads ∧
      s.queue.destructor.length = (Op.enqueued ops).length - Op.dequeues ops := by
  obtain ⟨cs, h, e1, _, _, e4⟩ := LockFreeMPSCQueue.Holds.mpsc_run_fresh hk1 hk ops s hrun
  have hsize : s.queue.buffer_size = 2 ^ k := h.ring.size
  have hlen := h.len
  have hmem : ∀ i, i ∈ s.queue.destructor ↔
      i < 2 ^ k ∧ (s.queue.slot i).state = LockFreeMPSCQueue.Slot.State.Occupied := by
    intro i
    simp [LockFreeMPSCQueue.destructor, LockFreeMPSCQueue.Slot.destructor, hsize]
  have hstate : ∀ i, i < 2 ^ k →
      ((s.queue.slot i).state = LockFreeMPSCQueue.Slot.State.Occupied ↔
        (s.queue.slot i).element.isSome = true) := by
    intro i hi
    have hil : i < s.queue.buffer.length := by rw [hlen]; exact hi
    have hin : s.queue.slot i ∈ s.queue.buffer := by
      rw [LockFreeMPSCQueue.slot, List.getD_eq_getElem?_getD, List.getElem?_eq_getElem hil]
      exact List.getElem_mem hil
    rw [h.states _ hin]
    cases (s.queue.slot i).element <;> simp
  have hcount : s.queue.destructor.length = s.queue.live_payloads := by
    have := length_filter_range_getD s.queue.buffer LockFreeMPSCQueue.Slot.fresh
      (fun sl => sl.state == LockFreeMPSCQueue.Slot.State.Occupied)
    rw [hlen, ← hsize] at this
    rw [LockFreeMPSCQueue.destructor]
    simp only [LockFreeMPSCQueue.Slot.destructor, LockFreeMPSCQueue.slot]
    rw [this, LockFreeMPSCQueue.live_payloads]
    apply List.countP_congr
    intro sl hsl
    rw [h.states sl hsl]
    cases sl.element <;> simp
  refine ⟨List.Nodup.filter _ (List.nodup_range _), hmem, ?_, hcount, ?_⟩
  · intro i
    rw [hmem i]
    constructor
    · rintro ⟨hi, hst⟩
      exact ⟨hi, (hstate i hi).mp hst⟩
    · rintro ⟨hi, hel⟩
      exact ⟨hi, (hstate i hi).mpr hel⟩
  · rw [hcount, h.mpsc_live_eq]
    have := congrArg List.length e1
    rw [List.length_append] at this
    omega

namespace LockFreeMPSCQueue

variable {T : Type}

theorem getElem?_eq_slot (q : LockFreeMPSCQueue T) {i : Nat} (hi : i < q.buffer.length) :
    q.buffer[i]? = some (q.slot i) := by
  rw [slot, List.getD_eq_getElem?_getD, List.getElem?_eq_getElem hi]
  rfl

theorem clear_loop_prefix (q : LockFreeMPSCQueue T) (n : Nat) (hn : n ≤ q.buffer.length) :
    ((List.range n).foldl clear_slot (q, [])).1.write_index = q.write_index ∧
      ((List.range n).foldl clear_slot (q, [])).1.read_index = q.read_index ∧
      ((List.range n).foldl clear_slot (q, [])).1.buffer_size = q.buffer_size ∧
      ((List.range n).foldl clear_slot (q, [])).1.modulo_mask = q.modulo_mask ∧
      ((List.range n).foldl clear_slot (q, [])).1.buffer.length = q.buffer.length ∧
      (∀ i, ((List.range n).foldl clear_slot (q, [])).1.buffer[i]? =
        if i < n then (q.buffer[i]?).map (fun s => s.clear.1) else q.buffer[i]?) ∧
      ((List.range n).foldl clear_slot (q, [])).2 =
        (List.range n).filter (fun i => (q.slot i).destructor) := by
  induction n with
  | zero => simp
  | succ n ih =>
    obtain ⟨hw, hr, hs, hm, hl, hb, hlog⟩ := ih (by omega)
    have hnl : n < q.buffer.length := by omega
    rw [List.range_succ, List.foldl_append, List.filter_append]
    simp only [List.foldl_cons, List.foldl_nil]
    generalize (List.range n).foldl clear_slot (q, []) = acc at hw hr hs hm hl hb hlog ⊢
    have hslot : acc.1.slot n = q.slot n := by
      have h1 := hb n
      rw [if_neg (by omega)] at h1
      rw [slot, slot, List.getD_eq_getElem?_getD, List.getD_eq_getElem?_getD, h1]
    by_cases hst : (q.slot n).state = Slot.State.Occupied
    · have hclear : (acc.1.slot n).clear = (⟨none, Slot.State.Empty⟩, true) := by
        rw [hslot, Slot.clear, if_pos hst]
      have hstep : clear_slot acc n =
          ({ acc.1 with buffer := acc.1.buffer.set n ⟨none, Slot.State.Empty⟩ },
            acc.2 ++ [n]) := by
        simp only [clear_slot, hclear]
      rw [hstep]
      refine ⟨hw, hr, hs, hm, by simpa using hl, ?_, ?_⟩
      · intro i
        show (acc.1.buffer.set n ⟨none, Slot.State.Empty⟩)[i]? = _
        rw [List.getElem?_set]
        by_cases hi : n = i
        · subst hi
          rw [if_pos rfl, if_pos (by omega), if_pos (by omega), q.getElem?_eq_slot hnl]
          simp [Slot.clear, hst]
        · rw [if_neg hi, hb i]
          by_cases hlt : i < n
          · rw [if_pos hlt, if_pos (by omega)]
          · rw [if_neg hlt, if_neg (by omega)]
      · rw [hlog]
        simp [Slot.destructor, hst]
    · have hclear : (acc.1.slot n).clear = (q.slot n, false) := by
        rw [hslot, Slot.clear, if_neg hst]
      have hstep : clear_slot acc n = acc := by
        simp only [clear_slot, hclear]
      rw [hstep]
      refine ⟨hw, hr, hs, hm, hl, ?_, ?_⟩
      · intro i
        rw [hb i]
        by_cases hi : n = i
        · subst hi
          rw [if_neg (by omega), if_pos (by omega), q.getElem?_eq_slot hnl]
          simp [Slot.clear, hst]
        · by_cases hlt : i < n
          · rw [if_pos hlt, if_pos (by omega)]
          · rw [if_neg hlt, if_neg (by omega)]
      · rw [hlog]
        simp [Slot.destructor, hst]

end LockFreeMPSCQueue

/-- C15 (MPSC `clear` frame). For every queue state whose buffer has `buffer_size`
slots, `clear()` destroys the payload of each slot whose state was `Occupied` once and
leaves that slot `Empty` with no payload, leaves every slot whose state was `Empty` or
`Writing` as it was (state and storage) without destroying anything in it, and leaves
`write_index` and `read_index` unchanged. -/
theorem mpsc_clear_frame {T : Type} (q : LockFreeMPSCQueue T)
    (hlen : q.buffer.length = q.buffer_size) :
    q.clear.write_index = q.write_index ∧ q.clear.read_index = q.read_index ∧
      q.clear.buffer.length = q.buffer.length ∧
      (LockFreeMPSCQueue.clear_loop q).2.Nodup ∧
      ∀ i, i < q.buffer_size →
        ((q.slot i).state = LockFreeMPSCQueue.Slot.State.Occupied →
          q.clear.slot i = ⟨none, LockFreeMPSCQueue.Slot.State.Empty⟩ ∧
            (LockFreeMPSCQueue.clear_loop q).2.count i = 1) ∧
        ((q.slot i).state ≠ LockFreeMPSCQueue.Slot.State.Occupied →
          q.clear.slot i = q.slot i ∧ i ∉ (LockFreeMPSCQueue.clear_loop q).2) := by
  obtain ⟨hw, hr, _, _, hl, hb, hlog⟩ :=
    LockFreeMPSCQueue.clear_loop_prefix q q.buffer_size (by omega)
  have hnd : (LockFreeMPSCQueue.clear_loop q).2.Nodup := by
    rw [LockFreeMPSCQueue.clear_loop, hlog]
    exact List.Nodup.filter _ (List.nodup_range _)
  refine ⟨hw, hr, hl, hnd, ?_⟩
  intro i hi
  have hil : i < q.buffer.length := by omega
  have hslot : q.clear.slot i = (q.slot i).clear.1 := by
    have h1 := hb i
    rw [if_pos hi, q.getElem?_eq_slot hil] at h1
    rw [LockFreeMPSCQueue.slot, List.getD_eq_getElem?_getD]
    show ((LockFreeMPSCQueue.clear_loop q).1.buffer[i]?).getD _ = _
    rw [LockFreeMPSCQueue.clear_loop, h1]
    rfl
  have hmem : i ∈ (LockFreeMPSCQueue.clear_loop q).2 ↔
      (q.slot i).state = LockFreeMPSCQueue.Slot.State.Occupied := by
    rw [LockFreeMPSCQueue.clear_loop, hlog]
    simp [LockFreeMPSCQueue.Slot.destructor, hi]
  constructor
  · intro hst
    refine ⟨by rw [hslot, LockFreeMPSCQueue.Slot.clear, if_pos hst], ?_⟩
    exact List.count_eq_one_of_mem hnd (hmem.mpr hst)
  · intro hst
    exact ⟨by rw [hslot, LockFreeMPSCQueue.Slot.clear, if_neg hst], fun hin => hst (hmem.mp hin)⟩

/-- C13 (MPSC `clear` after use). On a ring of 8 slots, after `enqueue` of 1, 2, 3 the
call `clear()` leaves every slot `Empty` and no payload live, but `write_index = 3` and
`read_index = 0` stay: `dequeue()` waits, `enqueue(9)` returns and the following
`dequeue()` still waits (it looks at slot 0, the payload is in slot 3), and the cleared
queue takes 4 further enqueues and makes the 5th wait, where a fresh queue takes 7 and
returns 9 from `enqueue(9)` followed by `dequeue()`. -/
theorem mpsc_clear_leaves_cursors_apart :
    ∃ s : Run (LockFreeMPSCQueue Nat) Nat,
      LockFreeMPSCQueue.run_fresh 8 [Op.enq 0 1, Op.enq 0 2, Op.enq 0 3] = some s ∧
        s.queue.clear.buffer =
          List.replicate 8 ⟨none, LockFreeMPSCQueue.Slot.State.Empty⟩ ∧
        s.queue.clear.live_payloads = 0 ∧
        s.queue.clear.write_index = 3 ∧ s.queue.clear.read_index = 0 ∧
        s.queue.clear.dequeue = Outcome.waits ∧
        (∃ q1, s.queue.clear.enqueue 9 = Outcome.done q1 ∧ q1.dequeue = Outcome.waits) ∧
        (LockFreeMPSCQueue.run
            { queue := s.queue.clear, dequeued := [], constructed := 0, destroyed := 0 }
            [Op.enq 0 4, Op.enq 0 5, Op.enq 0 6, Op.enq 0 7]).isSome = true ∧
        (LockFreeMPSCQueue.run
            { queue := s.queue.clear, dequeued := [], constructed := 0, destroyed := 0 }
            [Op.enq 0 4, Op.enq 0 5, Op.enq 0 6, Op.enq 0 7, Op.enq 0 8]).isSome = false ∧
        (LockFreeMPSCQueue.run_fresh 8
            [Op.enq 0 4, Op.enq 0 5, Op.enq 0 6, Op.enq 0 7, Op.enq 0 8, Op.enq 0 9,
              Op.enq 0 10] : Option (Run (LockFreeMPSCQueue Nat) Nat)).isSome = true ∧
        ((LockFreeMPSCQueue.run_fresh 8 [Op.enq 0 9, Op.deq] :
            Option (Run (LockFreeMPSCQueue Nat) Nat)).map (fun r => r.dequeued)) =
          some [9] := by
  refine ⟨{ queue := { buffer := [⟨some 1, LockFreeMPSCQueue.Slot.State.Occupied⟩,
                                  ⟨some 2, LockFreeMPSCQueue.Slot.State.Occupied⟩,
                                  ⟨some 3, LockFreeMPSCQueue.Slot.State.Occupied⟩,
                                  ⟨none, LockFreeMPSCQueue.Slot.State.Empty⟩,
                                  ⟨none, LockFreeMPSCQueue.Slot.State.Empty⟩,
                                  ⟨none, LockFreeMPSCQueue.Slot.State.Empty⟩,
                                  ⟨none, LockFreeMPSCQueue.Slot.State.Empty⟩,
                                  ⟨none, LockFreeMPSCQueue.Slot.State.Empty⟩],
                       buffer_size := 8, modulo_mask := 7, write_index := 3,
                       read_index := 0 },
            dequeued := [], constructed := 3, destroyed := 0 },
    by decide, by decide, by decide, by decide, by decide, by decide, ?_, by decide,
    by decide, by decide, by decide⟩
  exact ⟨{ buffer := [⟨none, LockFreeMPSCQueue.Slot.State.Empty⟩,
                      ⟨none, LockFreeMPSCQueue.Slot.State.Empty⟩,
                      ⟨none, LockFreeMPSCQueue.Slot.State.Empty⟩,
                      ⟨some 9, LockFreeMPSCQueue.Slot.State.Occupied⟩,
                      ⟨none, LockFreeMPSCQueue.Slot.State.Empty⟩,
                      ⟨none, LockFreeMPSCQueue.Slot.State.Empty⟩,
                      ⟨none, LockFreeMPSCQueue.Slot.State.Empty⟩,
                      ⟨none, LockFreeMPSCQueue.Slot.State.Empty⟩],
           buffer_size := 8, modulo_mask := 7, write_index := 4, read_index := 0 },
    by decide, by decide⟩

/-! ## `clear` of the single-producer ring -/

namespace LockFreeSPSCQueue

variable {T : Type}

theorem Alike.alike_distance_eq {q1 q2 : LockFreeSPSCQueue T} {k : Nat} (h : q1.Alike q2 k) :
    q1.distance q1.read_index q1.write_index =
        (q1.write_index + 2 ^ k - q1.read_index) % 2 ^ k ∧
      q2.distance q2.read_index q2.write_index =
        (q1.write_index + 2 ^ k - q1.read_index) % 2 ^ k := by
  constructor
  · exact q1.distance_pow h.k_le h.size1 h.mask1 h.read_lt h.write_lt
  · rw [h.read, h.write]
    exact q2.distance_pow h.k_le h.size2 h.mask2 h.read_lt h.write_lt

theorem Alike.alike_incremented_eq {q1 q2 : LockFreeSPSCQueue T} {k : Nat} (h : q1.Alike q2 k)
    {i : Nat} (hi : i < 2 ^ k) :
    q1.incremented i = (i + 1) % 2 ^ k ∧ q2.incremented i = (i + 1) % 2 ^ k := by
  constructor
  · rw [incremented, h.mask1, wrap_succ (pow_le_half h.k_le) hi,
      Nat.and_pow_two_sub_one_eq_mod]
  · rw [incremented, h.mask2, wrap_succ (pow_le_half h.k_le) hi,
      Nat.and_pow_two_sub_one_eq_mod]

theorem Alike.enqueue {q1 q2 : LockFreeSPSCQueue T} {k : Nat} (h : q1.Alike q2 k) (x : T) :
    (q1.enqueue x = Outcome.waits ∧ q2.enqueue x = Outcome.waits) ∨
      ∃ q1' q2', q1.enqueue x = Outcome.done q1' ∧ q2.enqueue x = Outcome.done q2' ∧
        q1'.Alike q2' k := by
  obtain ⟨hd1, hd2⟩ := h.alike_distance_eq
  obtain ⟨hi1, hi2⟩ := h.alike_incremented_eq h.write_lt
  have hr := h.read_lt
  have hw := h.write_lt
  by_cases hfull : (q1.write_index + 2 ^ k - q1.read_index) % 2 ^ k = 2 ^ k - 1
  · left
    simp [LockFreeSPSCQueue.enqueue, hd1, hd2, hfull, h.mask1, h.mask2]
  · right
    refine ⟨{ q1 with buffer := q1.buffer.set q1.write_index (some x)
                      write_index := (q1.write_index + 1) % 2 ^ k },
      { q2 with buffer := q2.buffer.set q2.write_index (some x)
                write_index := (q2.write_index + 1) % 2 ^ k }, ?_, ?_, ?_⟩
    · simp [LockFreeSPSCQueue.enqueue, hd1, hfull, h.mask1, hi1]
    · rw [← h.write] at hi2
      simp [LockFreeSPSCQueue.enqueue, hd2, hfull, h.mask2, hi2]
    · refine ⟨h.k_le, h.size1, h.size2, h.mask1, h.mask2, by simp [h.len1],
        by simp [h.len2], h.read, ?_, h.read_lt, Nat.mod_lt _ (by positivity), ?_⟩
      · show (q2.write_index + 1) % 2 ^ k = (q1.write_index + 1) % 2 ^ k
        rw [h.write]
      · intro j hj
        show (q1.buffer.set q1.write_index (some x))[(q1.read_index + j) % 2 ^ k]? =
          (q2.buffer.set q2.write_index (some x))[(q1.read_index + j) % 2 ^ k]?
        have hj' : j < ((q1.write_index + 1) % 2 ^ k + 2 ^ k - q1.read_index) % 2 ^ k := hj
        have hd : (q1.write_index + 2 ^ k - q1.read_index) % 2 ^ k =
            if q1.write_index + 2 ^ k - q1.read_index < 2 ^ k
            then q1.write_index + 2 ^ k - q1.read_index
            else q1.write_index + 2 ^ k - q1.read_index - 2 ^ k :=
          mod_of_lt_two_mul (by omega)
        have hw1 : (q1.write_index + 1) % 2 ^ k =
            if q1.write_index + 1 < 2 ^ k then q1.write_index + 1
            else q1.write_index + 1 - 2 ^ k :=
          mod_of_lt_two_mul (by omega)
        have hagree := h.agree j
        rw [hd] at hfull hagree
        generalize (q1.write_index + 1) % 2 ^ k = w1 at hw1 hj'
        have hw1lt : w1 < 2 ^ k := by split at hw1 <;> omega
        rw [mod_of_lt_two_mul (by omega)] at hj'
        have hjlt : j < 2 ^ k := by split at hj' <;> omega
        have ej : (q1.read_index + j) % 2 ^ k =
            if q1.read_index + j < 2 ^ k then q1.read_index + j
            else q1.read_index + j - 2 ^ k :=
          mod_of_lt_two_mul (by omega)
        generalize (q1.read_index + j) % 2 ^ k = i at ej hagree ⊢
        rw [h.write, List.getElem?_set, List.getElem?_set, h.len1, h.len2]
        by_cases hi : q1.write_index = i
        · rw [if_pos hi, if_pos hi]
        · rw [if_neg hi, if_neg hi]
          apply hagree
          split at hfull <;> split at hw1 <;> split at hj' <;> split at ej <;> split <;> omega

theorem Alike.dequeue {q1 q2 : LockFreeSPSCQueue T} {k : Nat} (h : q1.Alike q2 k) :
    (q1.dequeue = Outcome.waits ∧ q2.dequeue = Outcome.waits) ∨
      (q1.dequeue = Outcome.undefined ∧ q2.dequeue = Outcome.undefined) ∨
      ∃ v q1' q2', q1.dequeue = Outcome.done (v, q1') ∧ q2.dequeue = Outcome.done (v, q2') ∧
        q1'.Alike q2' k := by
  obtain ⟨hi1, hi2⟩ := h.alike_incremented_eq h.read_lt
  have hr := h.read_lt
  have hw := h.write_lt
  have hd : (q1.write_index + 2 ^ k - q1.read_index) % 2 ^ k =
      if q1.write_index + 2 ^ k - q1.read_index < 2 ^ k
      then q1.write_index + 2 ^ k - q1.read_index
      else q1.write_index + 2 ^ k - q1.read_index - 2 ^ k :=
    mod_of_lt_two_mul (by omega)
  by_cases hwr : q1.write_index = q1.read_index
  · left
    simp [LockFreeSPSCQueue.dequeue, hwr, h.read, h.write]
  · have h0 := h.agree 0 (by rw [hd]; split <;> omega)
    simp only [Nat.add_zero, Nat.mod_eq_of_lt hr] at h0
    have hne2 : q2.write_index ≠ q2.read_index := by rw [h.read, h.write]; exact hwr
    cases hc : q1.buffer.getD q1.read_index none with
    | none =>
      right; left
      have hc2 : q2.buffer.getD q2.read_index none = none := by
        rw [h.read, List.getD_eq_getElem?_getD, ← h0, ← List.getD_eq_getElem?_getD, hc]
      rw [List.getD_eq_getElem?_getD] at hc hc2
      simp [LockFreeSPSCQueue.dequeue, hwr, hne2, hc, hc2]
    | some v =>
      right; right
      have hc2 : q2.buffer.getD q2.read_index none = some v := by
        rw [h.read, List.getD_eq_getElem?_getD, ← h0, ← List.getD_eq_getElem?_getD, hc]
      rw [List.getD_eq_getElem?_getD] at hc hc2
      refine ⟨v, { q1 with buffer := q1.buffer.set q1.read_index none
                           read_index := (q1.read_index + 1) % 2 ^ k },
        { q2 with buffer := q2.buffer.set q2.read_index none
                  read_index := (q2.read_index + 1) % 2 ^ k }, ?_, ?_, ?_⟩
      · simp [LockFreeSPSCQueue.dequeue, hwr, hc, hi1]
      · rw [← h.read] at hi2
        simp [LockFreeSPSCQueue.dequeue, hne2, hc2, hi2]
      · refine ⟨h.k_le, h.size1, h.size2, h.mask1, h.mask2, by simp [h.len1],
          by simp [h.len2], ?_, h.write, Nat.mod_lt _ (by positivity), h.write_lt, ?_⟩
        · show (q2.read_index + 1) % 2 ^ k = (q1.read_index + 1) % 2 ^ k
          rw [h.read]
        · intro j hj
          show (q1.buffer.set q1.read_index none)[((q1.read_index + 1) % 2 ^ k + j) % 2 ^ k]? =
            (q2.buffer.set q2.read_index none)[((q1.read_index + 1) % 2 ^ k + j) % 2 ^ k]?
          have hj' : j < (q1.write_index + 2 ^ k - (q1.read_index + 1) % 2 ^ k) % 2 ^ k := hj
          have hr1 : (q1.read_index + 1) % 2 ^ k =
              if q1.read_index + 1 < 2 ^ k then q1.read_index + 1
              else q1.read_index + 1 - 2 ^ k :=
            mod_of_lt_two_mul (by omega)
          have hidx : ((q1.read_index + 1) % 2 ^ k + j) % 2 ^ k =
              (q1.read_index + (j + 1)) % 2 ^ k := by
            rw [Nat.mod_add_mod]; congr 1; omega
          rw [hidx]
          generalize (q1.read_index + 1) % 2 ^ k = r1 at hr1 hj'
          have hr1lt : r1 < 2 ^ k := by split at hr1 <;> omega
          rw [mod_of_lt_two_mul (by omega)] at hj'
          have hjlt : j + 1 < 2 ^ k := by
            split at hr1 <;> split at hj' <;> omega
          have hagree := h.agree (j + 1)
          rw [hd] at hagree
          have ej : (q1.read_index + (j + 1)) % 2 ^ k =
              if q1.read_index + (j + 1) < 2 ^ k then q1.read_index + (j + 1)
              else q1.read_index + (j + 1) - 2 ^ k :=
            mod_of_lt_two_mul (by omega)
          generalize (q1.read_index + (j + 1)) % 2 ^ k = i at ej hagree ⊢
          rw [h.read, List.getElem?_set_ne (by split at ej <;> omega),
            List.getElem?_set_ne (by split at ej <;> omega)]
          apply hagree
          split at hr1 <;> split at hj' <;> split <;> omega

theorem Alike.alike_run {k : Nat} (ops : List (Op T)) :
    ∀ s1 s2 : Run (LockFreeSPSCQueue T) T, s1.queue.Alike s2.queue k →
      s1.dequeued = s2.dequeued →
      (LockFreeSPSCQueue.run s1 ops).map observed =
        (LockFreeSPSCQueue.run s2 ops).map observed := by
  induction ops with
  | nil =>
    intro s1 s2 h hdq
    simp [LockFreeSPSCQueue.run, observed, hdq, h.read, h.write]
  | cons op ops ih =>
    intro s1 s2 h hdq
    cases op with
    | enq p x =>
      rcases h.enqueue x with ⟨e1, e2⟩ | ⟨q1', q2', e1, e2, h'⟩
      · simp [LockFreeSPSCQueue.run, step, e1, e2]
      · simp only [LockFreeSPSCQueue.run, step, e1, e2]
        exact ih _ _ h' hdq
    | deq =>
      rcases h.dequeue with ⟨e1, e2⟩ | ⟨e1, e2⟩ | ⟨v, q1', q2', e1, e2, h'⟩
      · simp [LockFreeSPSCQueue.run, step, e1, e2]
      · simp [LockFreeSPSCQueue.run, step, e1, e2]
      · simp only [LockFreeSPSCQueue.run, step, e1, e2]
        exact ih _ _ h' (by simp [hdq])

theorem length_foldl_set {α : Type} (a : α) (is : List Nat) :
    ∀ b : List α, (is.foldl (fun b i => b.set i a) b).length = b.length := by
  induction is with
  | nil => intro b; rfl
  | cons i is ih =>
    intro b
    rw [List.foldl_cons, ih]
    simp

end LockFreeSPSCQueue

/-- C14 (SPSC `clear`). In every state reached from a freshly constructed
`LockFreeSPSCQueue` of `2 ^ k` slots by `enqueue` and `dequeue` calls, after `clear()`
both cursors are 0 and `dequeue` would wait; every sequence of calls made after it has the
same outcome as on a freshly constructed queue of the same capacity (it returns or waits
at the same calls, `dequeue` returns the same values, the cursors take the same values);
and a second `clear()` changes nothing. -/
theorem spsc_clear_returns_to_fresh {T : Type} (k : Nat) (hk1 : 1 ≤ k) (hk : k ≤ 63)
    (ops : List (Op T)) (s : Run (LockFreeSPSCQueue T) T)
    (hrun : LockFreeSPSCQueue.run_fresh (2 ^ k) ops = some s) (later : List (Op T)) :
    s.queue.clear.read_index = 0 ∧ s.queue.clear.write_index = 0 ∧
      s.queue.clear.dequeue = Outcome.waits ∧
      (LockFreeSPSCQueue.run
          { queue := s.queue.clear, dequeued := [], constructed := 0, destroyed := 0 }
          later).map LockFreeSPSCQueue.observed =
        (LockFreeSPSCQueue.run_fresh (2 ^ k) later).map LockFreeSPSCQueue.observed ∧
      s.queue.clear.clear = s.queue.clear := by
  obtain ⟨c, h, _⟩ := LockFreeSPSCQueue.Holds.run_fresh hk1 hk ops s hrun
  have hlen : s.queue.clear.buffer.length = 2 ^ k := by
    show (s.queue.destroyed_slots.foldl (fun b i => b.set i none) s.queue.buffer).length = _
    rw [LockFreeSPSCQueue.length_foldl_set, h.len]
  have halike : s.queue.clear.Alike
      ({ buffer := List.replicate (2 ^ k) none
         buffer_size := 2 ^ k
         modulo_mask := 2 ^ k - 1
         write_index := 0
         read_index := 0 } : LockFreeSPSCQueue T) k :=
    { k_le := hk
      size1 := h.size
      size2 := rfl
      mask1 := h.mask
      mask2 := rfl
      len1 := hlen
      len2 := by simp
      read := rfl
      write := rfl
      read_lt := by show 0 < 2 ^ k; positivity
      write_lt := by show 0 < 2 ^ k; positivity
      agree := by
        intro j hj
        have : j < (0 + 2 ^ k - 0) % 2 ^ k := hj
        simp at this }
  refine ⟨rfl, rfl, by simp [LockFreeSPSCQueue.dequeue, LockFreeSPSCQueue.clear], ?_, ?_⟩
  · simp only [LockFreeSPSCQueue.run_fresh, LockFreeSPSCQueue.construct_pow k hk1 hk]
    exact LockFreeSPSCQueue.Alike.alike_run later _ _ halike rfl
  · simp [LockFreeSPSCQueue.clear, LockFreeSPSCQueue.destroy_elements,
      LockFreeSPSCQueue.destroyed_slots]

/-! ## Slot lifecycle under interleaved threads -/

namespace LockFreeMPSCQueue

open Slot (State)

variable {T : Type}

theorem slot_store_state_ne (q : LockFreeMPSCQueue T) {w i : Nat} (hne : i ≠ w)
    (st : State) : (q.store_state w st).slot i = q.slot i := by
  simp [store_state, slot, List.getElem?_set_ne (Ne.symm hne)]

theorem state_store_element (q : LockFreeMPSCQueue T) (w i : Nat) (e : Option T) :
    ((q.store_element w e).slot i).state = (q.slot i).state := by
  by_cases hi : i = w
  · subst hi
    by_cases hl : i < q.buffer.length
    · rw [slot_store_element q hl]
    · simp [store_element, slot, List.set_eq_of_length_le (Nat.le_of_not_lt hl)]
  · simp [store_element, slot, List.getElem?_set_ne (Ne.symm hi)]

theorem Producer.index_of_held {pc : Producer T} {cw : Nat} (h : pc.held = some cw) :
    pc.index = some cw := by
  cases pc <;> simp_all [Producer.held, Producer.index]

theorem Consumer.consumer_index_of_held {c : Consumer T} {cr : Nat} (h : c.held = some cr) :
    c.index = some cr := by
  cases c <;> simp_all [Consumer.held, Consumer.index]

theorem state_store_state (q : LockFreeMPSCQueue T) {w : Nat} (hwl : w < q.buffer.length)
    (st : State) (i : Nat) :
    ((q.store_state w st).slot i).state = if i = w then st else (q.slot i).state := by
  by_cases hi : i = w
  · subst hi
    rw [if_pos rfl, slot_store_state q hwl]
  · rw [if_neg hi, slot_store_state_ne q hi]

theorem incremented_lt (q : LockFreeMPSCQueue T) {k : Nat} (hk : k ≤ 63)
    (hmask : q.modulo_mask = 2 ^ k - 1) {i : Nat} (hi : i < 2 ^ k) :
    q.incremented i < 2 ^ k := by
  rw [incremented, hmask, wrap_succ (pow_le_half hk) hi, Nat.and_pow_two_sub_one_eq_mod]
  exact Nat.mod_lt _ (by positivity)

/-- What one atomic action of a producer does to the queue and to the producer. -/
theorem producer_step_spec (q : LockFreeMPSCQueue T) (k : Nat) (hk : k ≤ 63)
    (hmask : q.modulo_mask = 2 ^ k - 1) (hlen : q.buffer.length = 2 ^ k)
    (hw : q.write_index < 2 ^ k) (pc : Producer T) (weak_fail : Bool)
    (hidx : ∀ cw, pc.index = some cw → cw < 2 ^ k)
    (hheld : ∀ cw, pc.held = some cw → (q.slot cw).state = State.Writing)
    (q' : LockFreeMPSCQueue T) (pc' : Producer T)
    (hstep : producer_step q pc weak_fail = some (q', pc')) :
    q'.modulo_mask = q.modulo_mask ∧ q'.buffer.length = q.buffer.length ∧
      q'.write_index < 2 ^ k ∧ q'.read_index = q.read_index ∧
      (∀ cw, pc'.index = some cw → cw < 2 ^ k) ∧
      (∀ cw, pc'.held = some cw →
        (q'.slot cw).state = State.Writing ∧
          (pc.held = some cw ∨ (q.slot cw).state = State.Empty)) ∧
      (∀ i, (q'.slot i).state ≠ (q.slot i).state →
        (pc.held = some i ∧ (q.slot i).state = State.Writing ∧
            ((q'.slot i).state = State.Empty ∨ (q'.slot i).state = State.Occupied)) ∨
          ((q.slot i).state = State.Empty ∧ (q'.slot i).state = State.Writing)) := by
  cases pc with
  | idle => simp [producer_step] at hstep
  | load_write x =>
    simp only [producer_step, Option.some.injEq, Prod.mk.injEq] at hstep
    obtain ⟨rfl, rfl⟩ := hstep
    refine ⟨rfl, rfl, hw, rfl, ?_, ?_, ?_⟩
    · intro cw h
      simp only [Producer.index, Option.some.injEq] at h
      omega
    · intro cw h
      simp [Producer.held] at h
    · intro i h
      exact absurd rfl h
  | load_read x cw =>
    have hcw := hidx cw rfl
    simp only [producer_step] at hstep
    split at hstep <;>
    · simp only [Option.some.injEq, Prod.mk.injEq] at hstep
      obtain ⟨rfl, rfl⟩ := hstep
      refine ⟨rfl, rfl, hw, rfl, ?_, ?_, ?_⟩
      · intro cw' h
        simp only [Producer.index, Option.some.injEq] at h
        first | omega | simp at h
      · intro cw' h
        simp [Producer.held] at h
      · intro i h
        exact absurd rfl h
  | claim_slot x cw =>
    have hcw := hidx cw rfl
    have hcwl : cw < q.buffer.length := by rw [hlen]; exact hcw
    simp only [producer_step, slot_cas] at hstep
    by_cases hc : (q.slot cw).state = State.Empty ∧ weak_fail = false
    · simp only [hc, and_self, if_true, Option.some.injEq, Prod.mk.injEq] at hstep
      obtain ⟨rfl, rfl⟩ := hstep
      refine ⟨rfl, by simp [store_state], hw, rfl, ?_, ?_, ?_⟩
      · intro cw' h
        simp only [Producer.index, Option.some.injEq] at h
        omega
      · intro cw' h
        simp only [Producer.held, Option.some.injEq] at h
        subst h
        exact ⟨by rw [state_store_state q hcwl, if_pos rfl], Or.inr hc.1⟩
      · intro i h
        rw [state_store_state q hcwl] at h ⊢
        by_cases hi : i = cw
        · subst hi
          right
          exact ⟨hc.1, by rw [if_pos rfl]⟩
        · rw [if_neg hi] at h
          exact absurd rfl h
    · simp only [hc, if_false, Option.some.injEq, Prod.mk.injEq] at hstep
      obtain ⟨rfl, rfl⟩ := hstep
      refine ⟨rfl, rfl, hw, rfl, ?_, ?_, ?_⟩
      · intro cw' h
        simp [Producer.index] at h
      · intro cw' h
        simp [Producer.held] at h
      · intro i h
        exact absurd rfl h
  | advance x cw =>
    have hcw := hidx cw rfl
    have hst := hheld cw rfl
    simp only [producer_step, index_cas] at hstep
    by_cases hc : q.write_index = cw ∧ weak_fail = false
    · simp only [hc, and_self, if_true, Option.some.injEq, Prod.mk.injEq] at hstep
      obtain ⟨rfl, rfl⟩ := hstep
      refine ⟨rfl, rfl, incremented_lt q hk hmask hcw, rfl, ?_, ?_, ?_⟩
      · intro cw' h
        simp only [Producer.index, Option.some.injEq] at h
        omega
      · intro cw' h
        simp only [Producer.held, Option.some.injEq] at h
        subst h
        exact ⟨hst, Or.inl rfl⟩
      · intro i h
        exact absurd rfl h
    · simp only [hc, if_false, Option.some.injEq, Prod.mk.injEq] at hstep
      obtain ⟨rfl, rfl⟩ := hstep
      refine ⟨rfl, rfl, hw, rfl, ?_, ?_, ?_⟩
      · intro cw' h
        simp only [Producer.index, Option.some.injEq] at h
        omega
      · intro cw' h
        simp only [Producer.held, Option.some.injEq] at h
        subst h
        exact ⟨hst, Or.inl rfl⟩
      · intro i h
        exact absurd rfl h
  | roll_back x cw =>
    have hcw := hidx cw rfl
    have hcwl : cw < q.buffer.length := by rw [hlen]; exact hcw
    have hst := hheld cw rfl
    simp only [producer_step, Option.some.injEq, Prod.mk.injEq] at hstep
    obtain ⟨rfl, rfl⟩ := hstep
    refine ⟨rfl, by simp [store_state], hw, rfl, ?_, ?_, ?_⟩
    · intro cw' h
      simp [Producer.index] at h
    · intro cw' h
      simp [Producer.held] at h
    · intro i h
      rw [state_store_state q hcwl] at h ⊢
      by_cases hi : i = cw
      · subst hi
        left
        exact ⟨rfl, hst, Or.inl (by rw [if_pos rfl])⟩
      · rw [if_neg hi] at h
        exact absurd rfl h
  | place x cw =>
    have hcw := hidx cw rfl
    have hst := hheld cw rfl
    simp only [producer_step, Option.some.injEq, Prod.mk.injEq] at hstep
    obtain ⟨rfl, rfl⟩ := hstep
    refine ⟨rfl, by simp [store_element], hw, rfl, ?_, ?_, ?_⟩
    · intro cw' h
      simp only [Producer.index, Option.some.injEq] at h
      omega
    · intro cw' h
      simp only [Producer.held, Option.some.injEq] at h
      subst h
      exact ⟨by rw [state_store_element]; exact hst, Or.inl rfl⟩
    · intro i h
      rw [state_store_element] at h
      exact absurd rfl h
  | publish cw =>
    have hcw := hidx cw rfl
    have hcwl : cw < q.buffer.length := by rw [hlen]; exact hcw
    have hst := hheld cw rfl
    simp only [producer_step, Option.some.injEq, Prod.mk.injEq] at hstep
    obtain ⟨rfl, rfl⟩ := hstep
    refine ⟨rfl, by simp [store_state], hw, rfl, ?_, ?_, ?_⟩
    · intro cw' h
      simp [Producer.index] at h
    · intro cw' h
      simp [Producer.held] at h
    · intro i h
      rw [state_store_state q hcwl] at h ⊢
      by_cases hi : i = cw
      · subst hi
        left
        exact ⟨rfl, hst, Or.inr (by rw [if_pos rfl])⟩
      · rw [if_neg hi] at h
        exact absurd rfl h

/-- What one atomic action of the consumer does to the queue and to the consumer. -/
theorem consumer_step_spec (q : LockFreeMPSCQueue T) (k : Nat) (hk : k ≤ 63)
    (hmask : q.modulo_mask = 2 ^ k - 1) (hlen : q.buffer.length = 2 ^ k)
    (hr : q.read_index < 2 ^ k) (c : Consumer T)
    (hidx : ∀ cr, c.index = some cr → cr < 2 ^ k)
    (hheld : ∀ cr, c.held = some cr → (q.slot cr).state = State.Occupied)
    (q' : LockFreeMPSCQueue T) (c' : Consumer T) (out : Option T)
    (hstep : consumer_step q c = some (q', c', out)) :
    q'.modulo_mask = q.modulo_mask ∧ q'.buffer.length = q.buffer.length ∧
      q'.write_index = q.write_index ∧ q'.read_index < 2 ^ k ∧
      (∀ cr, c'.index = some cr → cr < 2 ^ k) ∧
      (∀ cr, c'.held = some cr → (q'.slot cr).state = State.Occupied) ∧
      (∀ i, (q'.slot i).state ≠ (q.slot i).state →
        c.held = some i ∧ (q.slot i).state = State.Occupied ∧
          (q'.slot i).state = State.Empty) := by
  cases c with
  | idle => simp [consumer_step] at hstep
  | load_read =>
    simp only [consumer_step, Option.some.injEq, Prod.mk.injEq] at hstep
    obtain ⟨rfl, rfl, rfl⟩ := hstep
    refine ⟨rfl, rfl, rfl, hr, ?_, ?_, ?_⟩
    · intro cr h
      simp only [Consumer.index, Option.some.injEq] at h
      omega
    · intro cr h
      simp [Consumer.held] at h
    · intro i h
      exact absurd rfl h
  | observe cr =>
    have hcr := hidx cr rfl
    simp only [consumer_step] at hstep
    by_cases hc : (q.slot cr).state = State.Occupied
    · simp only [hc, bne_self_eq_false, Bool.false_eq_true, if_false, Option.some.injEq,
        Prod.mk.injEq] at hstep
      obtain ⟨rfl, rfl, rfl⟩ := hstep
      refine ⟨rfl, rfl, rfl, hr, ?_, ?_, ?_⟩
      · intro cr' h
        simp only [Consumer.index, Option.some.injEq] at h
        omega
      · intro cr' h
        simp only [Consumer.held, Option.some.injEq] at h
        subst h
        exact hc
      · intro i h
        exact absurd rfl h
    · have hb : ((q.slot cr).state != State.Occupied) = true := by simpa using hc
      simp only [hb, if_true, Option.some.injEq, Prod.mk.injEq] at hstep
      obtain ⟨rfl, rfl, rfl⟩ := hstep
      refine ⟨rfl, rfl, rfl, hr, ?_, ?_, ?_⟩
      · intro cr' h
        simp only [Consumer.index, Option.some.injEq] at h
        omega
      · intro cr' h
        simp [Consumer.held] at h
      · intro i h
        exact absurd rfl h
  | move_out cr =>
    have hcr := hidx cr rfl
    have hst := hheld cr rfl
    simp only [consumer_step] at hstep
    split at hstep
    · simp only [Option.some.injEq, Prod.mk.injEq] at hstep
      obtain ⟨rfl, rfl, rfl⟩ := hstep
      refine ⟨rfl, by simp [store_element], rfl, hr, ?_, ?_, ?_⟩
      · intro cr' h
        simp only [Consumer.index, Option.some.injEq] at h
        omega
      · intro cr' h
        simp only [Consumer.held, Option.some.injEq] at h
        subst h
        rw [state_store_element]
        exact hst
      · intro i h
        rw [state_store_element] at h
        exact absurd rfl h
    · simp at hstep
  | advance cr result =>
    have hcr := hidx cr rfl
    have hst := hheld cr rfl
    simp only [consumer_step, Option.some.injEq, Prod.mk.injEq] at hstep
    obtain ⟨rfl, rfl, rfl⟩ := hstep
    refine ⟨rfl, rfl, rfl, incremented_lt q hk hmask hcr, ?_, ?_, ?_⟩
    · intro cr' h
      simp only [Consumer.index, Option.some.injEq] at h
      omega
    · intro cr' h
      simp only [Consumer.held, Option.some.injEq] at h
      subst h
      exact hst
    · intro i h
      exact absurd rfl h
  | release cr result =>
    have hcr := hidx cr rfl
    have hcrl : cr < q.buffer.length := by rw [hlen]; exact hcr
    have hst := hheld cr rfl
    simp only [consumer_step, Option.some.injEq, Prod.mk.injEq] at hstep
    obtain ⟨rfl, rfl, rfl⟩ := hstep
    refine ⟨rfl, by simp [store_state], rfl, hr, ?_, ?_, ?_⟩
    · intro cr' h
      simp [Consumer.index] at h
    · intro cr' h
      simp [Consumer.held] at h
    · intro i h
      rw [state_store_state q hcrl] at h ⊢
      by_cases hi : i = cr
      · subst hi
        exact ⟨rfl, hst, by rw [if_pos rfl]⟩
      · rw [if_neg hi] at h
        exact absurd rfl h

theorem getElem?_set_of_some {α : Type} {l : List α} {p : Nat} {a0 : α}
    (h : l[p]? = some a0) (a : α) (p' : Nat) :
    (l.set p a)[p']? = if p = p' then some a else l[p']? := by
  have hp : p < l.length := (List.getElem?_eq_some_iff.mp h).1
  rw [List.getElem?_set, if_pos hp]

theorem System.Inv.step_producer {s : System T} {k : Nat} (h : s.Inv k) (p : Nat)
    (pc : Producer T) (hp : s.producers[p]? = some pc) (weak_fail : Bool)
    (q' : LockFreeMPSCQueue T) (pc' : Producer T)
    (hstep : producer_step s.queue pc weak_fail = some (q', pc')) :
    System.Inv { s with queue := q', producers := s.producers.set p pc' } k ∧
      ∀ i, (q'.slot i).state ≠ (s.queue.slot i).state →
        Slot.State.lifecycle_or_roll_back (s.queue.slot i).state (q'.slot i).state = true := by
  obtain ⟨hm, hl, hw, hr, hidx, hheld, hchg⟩ :=
    producer_step_spec s.queue k h.k_le h.mask h.len h.write_lt pc weak_fail
      (fun cw hc => h.producer_lt p pc cw hp hc)
      (fun cw hc => h.producer_held p pc cw hp hc) q' pc' hstep
  have hkeep : ∀ (p1 : Nat) (pc1 : Producer T) (cw : Nat), p1 ≠ p →
      s.producers[p1]? = some pc1 → pc1.held = some cw →
      (q'.slot cw).state = State.Writing := by
    intro p1 pc1 cw hne hp1 hh1
    have hold := h.producer_held p1 pc1 cw hp1 hh1
    by_contra hnew
    have hne' : (q'.slot cw).state ≠ (s.queue.slot cw).state := by rw [hold]; exact hnew
    rcases hchg cw hne' with ⟨hh, _, _⟩ | ⟨he, _⟩
    · exact hne (h.producer_apart p1 p pc1 pc cw hp1 hp hh1 hh)
    · rw [hold] at he
      exact absurd he (by decide)
  refine ⟨?_, ?_⟩
  · refine ⟨h.k_le, by rw [← h.mask]; exact hm, by rw [← h.len]; exact hl, hw,
      by show q'.read_index < 2 ^ k; rw [hr]; exact h.read_lt, ?_, ?_, ?_, h.consumer_lt, ?_⟩
    · intro p1 pc1 cw hp1 hc
      have hp1' : (s.producers.set p pc')[p1]? = some pc1 := hp1
      rw [getElem?_set_of_some hp] at hp1'
      by_cases he : p = p1
      · rw [if_pos he] at hp1'
        simp only [Option.some.injEq] at hp1'
        subst hp1'
        exact hidx cw hc
      · rw [if_neg he] at hp1'
        exact h.producer_lt p1 pc1 cw hp1' hc
    · intro p1 pc1 cw hp1 hc
      have hp1' : (s.producers.set p pc')[p1]? = some pc1 := hp1
      rw [getElem?_set_of_some hp] at hp1'
      by_cases he : p = p1
      · rw [if_pos he] at hp1'
        simp only [Option.some.injEq] at hp1'
        subst hp1'
        exact (hheld cw hc).1
      · rw [if_neg he] at hp1'
        exact hkeep p1 pc1 cw (Ne.symm he) hp1' hc
    · intro p1 p2 pc1 pc2 cw hp1 hp2 hc1 hc2
      have hp1' : (s.producers.set p pc')[p1]? = some pc1 := hp1
      have hp2' : (s.producers.set p pc')[p2]? = some pc2 := hp2
      rw [getElem?_set_of_some hp] at hp1' hp2'
      by_cases he1 : p = p1
      · by_cases he2 : p = p2
        · rw [← he1, ← he2]
        · rw [if_pos he1] at hp1'
          rw [if_neg he2] at hp2'
          simp only [Option.some.injEq] at hp1'
          subst hp1'
          rcases (hheld cw hc1).2 with hh | hempty
          · rw [← he1]
            exact h.producer_apart p p2 pc pc2 cw hp hp2' hh hc2
          · have := h.producer_held p2 pc2 cw hp2' hc2
            rw [this] at hempty
            exact absurd hempty (by decide)
      · rw [if_neg he1] at hp1'
        by_cases he2 : p = p2
        · rw [if_pos he2] at hp2'
          simp only [Option.some.injEq] at hp2'
          subst hp2'
          rcases (hheld cw hc2).2 with hh | hempty
          · rw [← he2]
            exact h.producer_apart p1 p pc1 pc cw hp1' hp hc1 hh
          · have := h.producer_held p1 pc1 cw hp1' hc1
            rw [this] at hempty
            exact absurd hempty (by decide)
        · rw [if_neg he2] at hp2'
          exact h.producer_apart p1 p2 pc1 pc2 cw hp1' hp2' hc1 hc2
    · intro cr hc
      have hold := h.consumer_held cr hc
      by_contra hnew
      have hne' : (q'.slot cr).state ≠ (s.queue.slot cr).state := by rw [hold]; exact hnew
      rcases hchg cr hne' with ⟨_, hwr, _⟩ | ⟨he, _⟩
      · rw [hold] at hwr
        exact absurd hwr (by decide)
      · rw [hold] at he
        exact absurd he (by decide)
  · intro i hne
    rcases hchg i hne with ⟨_, hold, hnew | hnew⟩ | ⟨hold, hnew⟩ <;> rw [hold, hnew] <;> rfl

theorem System.Inv.step_consumer {s : System T} {k : Nat} (h : s.Inv k)
    (q' : LockFreeMPSCQueue T) (c' : Consumer T) (out : Option T) (dequeued : List T)
    (hstep : consumer_step s.queue s.consumer = some (q', c', out)) :
    System.Inv { s with queue := q', consumer := c', dequeued := dequeued } k ∧
      ∀ i, (q'.slot i).state ≠ (s.queue.slot i).state →
        Slot.State.lifecycle_or_roll_back (s.queue.slot i).state (q'.slot i).state = true := by
  obtain ⟨hm, hl, hw, hr, hidx, hheld, hchg⟩ :=
    consumer_step_spec s.queue k h.k_le h.mask h.len h.read_lt s.consumer
      h.consumer_lt h.consumer_held q' c' out hstep
  refine ⟨?_, ?_⟩
  · refine ⟨h.k_le, by rw [← h.mask]; exact hm, by rw [← h.len]; exact hl,
      by show q'.write_index < 2 ^ k; rw [hw]; exact h.write_lt, hr, h.producer_lt, ?_,
      h.producer_apart, hidx,
      hheld⟩
    intro p pc cw hp hc
    have hold := h.producer_held p pc cw hp hc
    by_contra hnew
    have hne' : (q'.slot cw).state ≠ (s.queue.slot cw).state := by rw [hold]; exact hnew
    obtain ⟨_, hocc, _⟩ := hchg cw hne'
    rw [hold] at hocc
    exact absurd hocc (by decide)
  · intro i hne
    obtain ⟨_, hold, hnew⟩ := hchg i hne
    rw [hold, hnew]
    rfl

theorem System.Inv.step_call {s : System T} {k : Nat} (h : s.Inv k) (p : Nat)
    (hp : s.producers[p]? = some Producer.idle) (x : T) :
    System.Inv { s with producers := s.producers.set p (Producer.load_write x) } k := by
  refine ⟨h.k_le, h.mask, h.len, h.write_lt, h.read_lt, ?_, ?_, ?_, h.consumer_lt,
    h.consumer_held⟩
  · intro p1 pc1 cw hp1 hc
    have hp1' : (s.producers.set p (Producer.load_write x))[p1]? = some pc1 := hp1
    rw [getElem?_set_of_some hp] at hp1'
    by_cases he : p = p1
    · rw [if_pos he] at hp1'
      simp only [Option.some.injEq] at hp1'
      subst hp1'
      simp [Producer.index] at hc
    · rw [if_neg he] at hp1'
      exact h.producer_lt p1 pc1 cw hp1' hc
  · intro p1 pc1 cw hp1 hc
    have hp1' : (s.producers.set p (Producer.load_write x))[p1]? = some pc1 := hp1
    rw [getElem?_set_of_some hp] at hp1'
    by_cases he : p = p1
    · rw [if_pos he] at hp1'
      simp only [Option.some.injEq] at hp1'
      subst hp1'
      simp [Producer.held] at hc
    · rw [if_neg he] at hp1'
      exact h.producer_held p1 pc1 cw hp1' hc
  · intro p1 p2 pc1 pc2 cw hp1 hp2 hc1 hc2
    have hp1' : (s.producers.set p (Producer.load_write x))[p1]? = some pc1 := hp1
    have hp2' : (s.producers.set p (Producer.load_write x))[p2]? = some pc2 := hp2
    rw [getElem?_set_of_some hp] at hp1' hp2'
    by_cases he1 : p = p1
    · rw [if_pos he1] at hp1'
      simp only [Option.some.injEq] at hp1'
      subst hp1'
      simp [Producer.held] at hc1
    · rw [if_neg he1] at hp1'
      by_cases he2 : p = p2
      · rw [if_pos he2] at hp2'
        simp only [Option.some.injEq] at hp2'
        subst hp2'
        simp [Producer.held] at hc2
      · rw [if_neg he2] at hp2'
        exact h.producer_apart p1 p2 pc1 pc2 cw hp1' hp2' hc1 hc2

/-- Every entry of a schedule keeps the invariant and changes slot states only along the
slot lifecycle or by a roll-back. -/
theorem System.Inv.step {s : System T} {k : Nat} (h : s.Inv k) (a : Action T)
    (s' : System T) (hstep : s.step a = some s') :
    s'.Inv k ∧
      ∀ i, (s'.queue.slot i).state ≠ (s.queue.slot i).state →
        Slot.State.lifecycle_or_roll_back (s.queue.slot i).state (s'.queue.slot i).state =
          true := by
  cases a with
  | enqueue p x =>
    cases hp : s.producers[p]? with
    | none => simp [System.step, hp] at hstep
    | some pc =>
      cases pc with
      | idle =>
        simp only [System.step, hp, Option.some.injEq] at hstep
        subst hstep
        exact ⟨h.step_call p hp x, fun i hne => absurd rfl hne⟩
      | _ => simp [System.step, hp] at hstep
  | producer p weak_fail =>
    cases hp : s.producers[p]? with
    | none => simp [System.step, hp] at hstep
    | some pc =>
      cases hq : producer_step s.queue pc weak_fail with
      | none => simp [System.step, hp, hq] at hstep
      | some r =>
        obtain ⟨q', pc'⟩ := r
        simp only [System.step, hp, hq, Option.some.injEq] at hstep
        subst hstep
        exact h.step_producer p pc hp weak_fail q' pc' hq
  | dequeue =>
    cases hc : s.consumer with
    | idle =>
      simp only [System.step, hc, Option.some.injEq] at hstep
      subst hstep
      refine ⟨⟨h.k_le, h.mask, h.len, h.write_lt, h.read_lt, h.producer_lt, h.producer_held,
        h.producer_apart, ?_, ?_⟩, fun i hne => absurd rfl hne⟩
      · intro cr hcr
        simp [Consumer.index] at hcr
      · intro cr hcr
        simp [Consumer.held] at hcr
    | _ => simp [System.step, hc] at hstep
  | consumer =>
    cases hq : consumer_step s.queue s.consumer with
    | none => simp [System.step, hq] at hstep
    | some r =>
      obtain ⟨q', c', out⟩ := r
      cases out with
      | none =>
        simp only [System.step, hq, Option.some.injEq] at hstep
        subst hstep
        exact h.step_consumer q' c' none s.dequeued hq
      | some v =>
        simp only [System.step, hq, Option.some.injEq] at hstep
        subst hstep
        exact h.step_consumer q' c' (some v) (s.dequeued ++ [v]) hq

theorem System.Inv.exec {k : Nat} (schedule : List (Action T)) :
    ∀ s s' : System T, s.Inv k → s.exec schedule = some s' → s'.Inv k := by
  induction schedule with
  | nil =>
    intro s s' h hexec
    simp only [System.exec, Option.some.injEq] at hexec
    subst hexec
    exact h
  | cons a as ih =>
    intro s s' h hexec
    cases hs : s.step a with
    | none => simp [System.exec, hs] at hexec
    | some s1 =>
      simp only [System.exec, hs] at hexec
      exact ih s1 s' (h.step a s1 hs).1 hexec

theorem System.Inv.exec_fresh {k : Nat} (hk1 : 1 ≤ k) (hk : k ≤ 63) (producers : Nat)
    (schedule : List (Action T)) (s : System T)
    (hexec : System.exec_fresh (2 ^ k) producers schedule = some s) : s.Inv k := by
  simp only [System.exec_fresh, System.fresh, mpsc_construct_pow k hk1 hk] at hexec
  refine System.Inv.exec schedule _ s ?_ hexec
  refine ⟨hk, rfl, by simp, by show 0 < 2 ^ k; positivity, by show 0 < 2 ^ k; positivity,
    ?_, ?_, ?_, ?_, ?_⟩
  · intro p pc cw hp hc
    have hp' : (List.replicate producers (Producer.idle : Producer T))[p]? = some pc := hp
    have := List.getElem?_mem hp'
    rw [List.eq_of_mem_replicate this] at hc
    simp [Producer.index] at hc
  · intro p pc cw hp hc
    have hp' : (List.replicate producers (Producer.idle : Producer T))[p]? = some pc := hp
    have := List.getElem?_mem hp'
    rw [List.eq_of_mem_replicate this] at hc
    simp [Producer.held] at hc
  · intro p p' pc pc' cw hp _ hc _
    have hp' : (List.replicate producers (Producer.idle : Producer T))[p]? = some pc := hp
    have := List.getElem?_mem hp'
    rw [List.eq_of_mem_replicate this] at hc
    simp [Producer.held] at hc
  · intro cr hc
    simp [Consumer.index] at hc
  · intro cr hc
    simp [Consumer.held] at hc

theorem state_store_state_cases (q : LockFreeMPSCQueue T) (w : Nat) (st : State) (i : Nat) :
    ((q.store_state w st).slot i).state = (q.slot i).state ∨
      (i = w ∧ ((q.store_state w st).slot i).state = st) := by
  by_cases hi : i = w
  · subst hi
    by_cases hl : i < q.buffer.length
    · right
      exact ⟨rfl, by rw [slot_store_state q hl]⟩
    · left
      simp [store_state, slot, List.set_eq_of_length_le (Nat.le_of_not_lt hl)]
  · left
    rw [slot_store_state_ne q hi]

/-- A producer action that changes a slot state to `Empty` is the roll-back store. -/
theorem producer_step_to_empty (q : LockFreeMPSCQueue T) (pc : Producer T) (weak_fail : Bool)
    (q' : LockFreeMPSCQueue T) (pc' : Producer T)
    (hstep : producer_step q pc weak_fail = some (q', pc')) (i : Nat)
    (hne : (q'.slot i).state ≠ (q.slot i).state) (hnew : (q'.slot i).state = State.Empty) :
    ∃ x, pc = Producer.roll_back x i := by
  cases pc with
  | idle => simp [producer_step] at hstep
  | load_write x =>
    simp only [producer_step, Option.some.injEq, Prod.mk.injEq] at hstep
    obtain ⟨rfl, rfl⟩ := hstep
    exact absurd rfl hne
  | load_read x cw =>
    simp only [producer_step] at hstep
    split at hstep <;>
    · simp only [Option.some.injEq, Prod.mk.injEq] at hstep
      obtain ⟨rfl, rfl⟩ := hstep
      exact absurd rfl hne
  | claim_slot x cw =>
    simp only [producer_step, slot_cas] at hstep
    by_cases hc : (q.slot cw).state = State.Empty ∧ weak_fail = false
    · simp only [hc, and_self, if_true, Option.some.injEq, Prod.mk.injEq] at hstep
      obtain ⟨rfl, rfl⟩ := hstep
      rcases state_store_state_cases q cw State.Writing i with h | ⟨_, h⟩
      · exact absurd h hne
      · rw [h] at hnew
        exact absurd hnew (by decide)
    · simp only [hc, if_false, Option.some.injEq, Prod.mk.injEq] at hstep
      obtain ⟨rfl, rfl⟩ := hstep
      exact absurd rfl hne
  | advance x cw =>
    simp only [producer_step, index_cas] at hstep
    by_cases hc : q.write_index = cw ∧ weak_fail = false
    · simp only [hc, and_self, if_true, Option.some.injEq, Prod.mk.injEq] at hstep
      obtain ⟨rfl, rfl⟩ := hstep
      exact absurd rfl hne
    · simp only [hc, if_false, Option.some.injEq, Prod.mk.injEq] at hstep
      obtain ⟨rfl, rfl⟩ := hstep
      exact absurd rfl hne
  | roll_back x cw =>
    simp only [producer_step, Option.some.injEq, Prod.mk.injEq] at hstep
    obtain ⟨rfl, rfl⟩ := hstep
    rcases state_store_state_cases q cw State.Empty i with h | ⟨hi, _⟩
    · exact absurd h hne
    · exact ⟨x, by rw [hi]⟩
  | place x cw =>
    simp only [producer_step, Option.some.injEq, Prod.mk.injEq] at hstep
    obtain ⟨rfl, rfl⟩ := hstep
    exact absurd (state_store_element q cw i (some x)) hne
  | publish cw =>
    simp only [producer_step, Option.some.injEq, Prod.mk.injEq] at hstep
    obtain ⟨rfl, rfl⟩ := hstep
    rcases state_store_state_cases q cw State.Occupied i with h | ⟨_, h⟩
    · exact absurd h hne
    · rw [h] at hnew
      exact absurd hnew (by decide)

/-- Under the invariant, an entry of a schedule that changes a slot from `Writing` to
`Empty` is the roll-back store of the producer that claimed the slot. -/
theorem System.Inv.step_roll_back {s : System T} {k : Nat} (h : s.Inv k) (a : Action T)
    (s' : System T) (hstep : s.step a = some s') (i : Nat)
    (hold : (s.queue.slot i).state = State.Writing)
    (hnew : (s'.queue.slot i).state = State.Empty) :
    ∃ p weak_fail x, a = Action.producer p weak_fail ∧
      s.producers[p]? = some (Producer.roll_back x i) := by
  have hne : (s'.queue.slot i).state ≠ (s.queue.slot i).state := by
    rw [hold, hnew]; decide
  cases a with
  | enqueue p x =>
    cases hp : s.producers[p]? with
    | none => simp [System.step, hp] at hstep
    | some pc =>
      cases pc with
      | idle =>
        simp only [System.step, hp, Option.some.injEq] at hstep
        subst hstep
        exact absurd rfl hne
      | _ => simp [System.step, hp] at hstep
  | producer p weak_fail =>
    cases hp : s.producers[p]? with
    | none => simp [System.step, hp] at hstep
    | some pc =>
      cases hq : producer_step s.queue pc weak_fail with
      | none => simp [System.step, hp, hq] at hstep
      | some r =>
        obtain ⟨q', pc'⟩ := r
        simp only [System.step, hp, hq, Option.some.injEq] at hstep
        subst hstep
        obtain ⟨x, hx⟩ := producer_step_to_empty s.queue pc weak_fail q' pc' hq i hne hnew
        exact ⟨p, weak_fail, x, rfl, by rw [hp, hx]⟩
  | dequeue =>
    cases hc : s.consumer with
    | idle =>
      simp only [System.step, hc, Option.some.injEq] at hstep
      subst hstep
      exact absurd rfl hne
    | _ => simp [System.step, hc] at hstep
  | consumer =>
    cases hq : consumer_step s.queue s.consumer with
    | none => simp [System.step, hq] at hstep
    | some r =>
      obtain ⟨q', c', out⟩ := r
      have hspec := consumer_step_spec s.queue k h.k_le h.mask h.len h.read_lt s.consumer
        h.consumer_lt h.consumer_held q' c' out hq
      have hq' : s'.queue = q' := by
        cases out with
        | none =>
          simp only [System.step, hq, Option.some.injEq] at hstep
          subst hstep
          rfl
        | some v =>
          simp only [System.step, hq, Option.some.injEq] at hstep
          subst hstep
          rfl
      rw [hq'] at hne
      obtain ⟨_, hocc, _⟩ := hspec.2.2.2.2.2.2 i hne
      rw [hold] at hocc
      exact absurd hocc (by decide)

end LockFreeMPSCQueue

/-- C17 as stated fails: on a ring of 2 slots with producers 0 and 1, producer 1 loads
`write_index = 0` and passes the full test, producer 0 completes `enqueue(5)`, the
consumer completes `dequeue()`, producer 1 claims slot 0 (`Empty -> Writing`) and fails
the `write_index` compare-and-swap (`write_index` is 1); its next action, the store of
line 135, changes slot 0 from `Writing` to `Empty`, which is none of the three
transitions `Empty -> Writing`, `Writing -> Occupied`, `Occupied -> Empty`. -/
theorem mpsc_slot_lifecycle_counterexample :
    LockFreeMPSCQueue.System.exec_fresh 2 2
        ([LockFreeMPSCQueue.Action.enqueue 1 7, LockFreeMPSCQueue.Action.producer 1 false,
            LockFreeMPSCQueue.Action.producer 1 false] ++
          LockFreeMPSCQueue.Action.complete_enqueue 0 5 ++
          LockFreeMPSCQueue.Action.complete_dequeue ++
          [LockFreeMPSCQueue.Action.producer 1 false,
            LockFreeMPSCQueue.Action.producer 1 false]) =
      some { queue := { buffer := [⟨none, LockFreeMPSCQueue.Slot.State.Writing⟩,
                                   ⟨none, LockFreeMPSCQueue.Slot.State.Empty⟩],
                        buffer_size := 2, modulo_mask := 1, write_index := 1,
                        read_index := 1 },
             producers := [LockFreeMPSCQueue.Producer.idle,
               LockFreeMPSCQueue.Producer.roll_back 7 0],
             consumer := LockFreeMPSCQueue.Consumer.idle, dequeued := [5] } ∧
    LockFreeMPSCQueue.System.step
        { queue := { buffer := [⟨none, LockFreeMPSCQueue.Slot.State.Writing⟩,
                                ⟨none, LockFreeMPSCQueue.Slot.State.Empty⟩],
                     buffer_size := 2, modulo_mask := 1, write_index := 1,
                     read_index := 1 },
          producers := [LockFreeMPSCQueue.Producer.idle,
            LockFreeMPSCQueue.Producer.roll_back 7 0],
          consumer := LockFreeMPSCQueue.Consumer.idle, dequeued := [5] }
        (LockFreeMPSCQueue.Action.producer 1 false) =
      some { queue := { buffer := [⟨none, LockFreeMPSCQueue.Slot.State.Empty⟩,
                                   ⟨none, LockFreeMPSCQueue.Slot.State.Empty⟩],
                        buffer_size := 2, modulo_mask := 1, write_index := 1,
                        read_index := 1 },
             producers := [LockFreeMPSCQueue.Producer.idle,
               LockFreeMPSCQueue.Producer.load_write 7],
             consumer := LockFreeMPSCQueue.Consumer.idle, dequeued := [5] } ∧
    LockFreeMPSCQueue.Slot.State.lifecycle LockFreeMPSCQueue.Slot.State.Writing
        LockFreeMPSCQueue.Slot.State.Empty = false := by
  refine ⟨?_, ?_, ?_⟩ <;> decide

/-- C17, amended (MPSC slot lifecycle). Every slot of a freshly constructed queue is
`Empty`. In every state reached from a fresh queue of `2 ^ k` slots by any interleaving
of the atomic actions of any number of producers and one consumer, every change of a
slot's state made by the next action is one of `Empty -> Writing`, `Writing -> Occupied`,
`Occupied -> Empty`, or it is `Writing -> Empty` and the action is the store a producer
makes after its `write_index` compare-and-swap failed, on the slot that producer had
claimed. `clear` changes slot states only from `Occupied` to `Empty`. -/
theorem mpsc_slot_lifecycle_with_roll_back {T : Type} (k : Nat) (hk1 : 1 ≤ k) (hk : k ≤ 63)
    (producers : Nat) (schedule : List (LockFreeMPSCQueue.Action T))
    (s : LockFreeMPSCQueue.System T)
    (hexec : LockFreeMPSCQueue.System.exec_fresh (2 ^ k) producers schedule = some s)
    (a : LockFreeMPSCQueue.Action T) (s' : LockFreeMPSCQueue.System T)
    (hstep : s.step a = some s')
    (q : LockFreeMPSCQueue T) (hq : q.buffer.length = q.buffer_size) :
    (∀ q0 : LockFreeMPSCQueue T, LockFreeMPSCQueue.construct (2 ^ k) = some q0 →
        ∀ sl ∈ q0.buffer, sl.state = LockFreeMPSCQueue.Slot.State.Empty) ∧
      (∀ i, (s'.queue.slot i).state ≠ (s.queue.slot i).state →
        LockFreeMPSCQueue.Slot.State.lifecycle (s.queue.slot i).state
            (s'.queue.slot i).state = true ∨
          ((s.queue.slot i).state = LockFreeMPSCQueue.Slot.State.Writing ∧
            (s'.queue.slot i).state = LockFreeMPSCQueue.Slot.State.Empty ∧
            ∃ p weak_fail x, a = LockFreeMPSCQueue.Action.producer p weak_fail ∧
              s.producers[p]? = some (LockFreeMPSCQueue.Producer.roll_back x i))) ∧
      (∀ i, (q.clear.slot i).state ≠ (q.slot i).state →
        (q.slot i).state = LockFreeMPSCQueue.Slot.State.Occupied ∧
          (q.clear.slot i).state = LockFreeMPSCQueue.Slot.State.Empty) := by
  have hinv := LockFreeMPSCQueue.System.Inv.exec_fresh hk1 hk producers schedule s hexec
  refine ⟨?_, ?_, ?_⟩
  · intro q0 hq0 sl hsl
    rw [LockFreeMPSCQueue.mpsc_construct_pow k hk1 hk] at hq0
    simp only [Option.some.injEq] at hq0
    subst hq0
    rw [List.eq_of_mem_replicate hsl]
    rfl
  · intro i hne
    have hall := (hinv.step a s' hstep).2 i hne
    cases hold : (s.queue.slot i).state <;> cases hnew : (s'.queue.slot i).state <;>
      rw [hold, hnew] at hall <;>
      first
        | exact absurd hall (by decide)
        | exact Or.inl rfl
        | exact Or.inr ⟨rfl, rfl, hinv.step_roll_back a s' hstep i hold hnew⟩
  · intro i hne
    obtain ⟨_, _, _, _, hl, hb, _⟩ :=
      LockFreeMPSCQueue.clear_loop_prefix q q.buffer_size (by omega)
    by_cases hi : i < q.buffer_size
    · have hil : i < q.buffer.length := by omega
      have hslot : q.clear.slot i = (q.slot i).clear.1 := by
        have h1 := hb i
        rw [if_pos hi, q.getElem?_eq_slot hil] at h1
        rw [LockFreeMPSCQueue.slot, List.getD_eq_getElem?_getD]
        show ((LockFreeMPSCQueue.clear_loop q).1.buffer[i]?).getD _ = _
        rw [LockFreeMPSCQueue.clear_loop, h1]
        rfl
      rw [hslot] at hne ⊢
      by_cases hst : (q.slot i).state = LockFreeMPSCQueue.Slot.State.Occupied
      · exact ⟨hst, by rw [LockFreeMPSCQueue.Slot.clear, if_pos hst]⟩
      · rw [LockFreeMPSCQueue.Slot.clear, if_neg hst] at hne
        exact absurd rfl hne
    · exfalso
      apply hne
      have h1 := hb i
      rw [if_neg hi] at h1
      rw [LockFreeMPSCQueue.slot, LockFreeMPSCQueue.slot, List.getD_eq_getElem?_getD,
        List.getD_eq_getElem?_getD]
      show (((LockFreeMPSCQueue.clear_loop q).1.buffer[i]?).getD _).state = _
      rw [LockFreeMPSCQueue.clear_loop, h1]

/-- Witness of `mpsc_teardown`: a ring of 8 slots holding 1, 2, 3 (`write_index = 3`,
`read_index = 0`); the destructor destroys the payloads of slots 0, 1, 2. -/
theorem mpsc_teardown_witness :
    LockFreeMPSCQueue.run_fresh (2 ^ 3) [Op.enq 0 1, Op.enq 0 2, Op.enq 0 3] =
      some ⟨⟨[⟨some 1, LockFreeMPSCQueue.Slot.State.Occupied⟩,
          ⟨some 2, LockFreeMPSCQueue.Slot.State.Occupied⟩,
          ⟨some 3, LockFreeMPSCQueue.Slot.State.Occupied⟩] ++
          List.replicate 5 ⟨none, LockFreeMPSCQueue.Slot.State.Empty⟩, 8, 7, 3, 0⟩,
        [], 3, 0⟩ ∧
    (LockFreeMPSCQueue.destructor
      (⟨[⟨some 1, LockFreeMPSCQueue.Slot.State.Occupied⟩,
          ⟨some 2, LockFreeMPSCQueue.Slot.State.Occupied⟩,
          ⟨some 3, LockFreeMPSCQueue.Slot.State.Occupied⟩] ++
          List.replicate 5 ⟨none, LockFreeMPSCQueue.Slot.State.Empty⟩, 8, 7, 3, 0⟩ :
        LockFreeMPSCQueue Nat) |>.Nodup) ∧
    (∀ i, i ∈ LockFreeMPSCQueue.destructor
      (⟨[⟨some 1, LockFreeMPSCQueue.Slot.State.Occupied⟩,
          ⟨some 2, LockFreeMPSCQueue.Slot.State.Occupied⟩,
          ⟨some 3, LockFreeMPSCQueue.Slot.State.Occupied⟩] ++
          List.replicate 5 ⟨none, LockFreeMPSCQueue.Slot.State.Empty⟩, 8, 7, 3, 0⟩ :
        LockFreeMPSCQueue Nat) ↔
        i < 2 ^ 3 ∧ (LockFreeMPSCQueue.slot
      (⟨[⟨some 1, LockFreeMPSCQueue.Slot.State.Occupied⟩,
          ⟨some 2, LockFreeMPSCQueue.Slot.State.Occupied⟩,
          ⟨some 3, LockFreeMPSCQueue.Slot.State.Occupied⟩] ++
          List.replicate 5 ⟨none, LockFreeMPSCQueue.Slot.State.Empty⟩, 8, 7, 3, 0⟩ :
        LockFreeMPSCQueue Nat) i).state = LockFreeMPSCQueue.Slot.State.Occupied) ∧
    (∀ i, i ∈ LockFreeMPSCQueue.destructor
      (⟨[⟨some 1, LockFreeMPSCQueue.Slot.State.Occupied⟩,
          ⟨some 2, LockFreeMPSCQueue.Slot.State.Occupied⟩,
          ⟨some 3, LockFreeMPSCQueue.Slot.State.Occupied⟩] ++
          List.replicate 5 ⟨none, LockFreeMPSCQueue.Slot.State.Empty⟩, 8, 7, 3, 0⟩ :
        LockFreeMPSCQueue Nat) ↔
        i < 2 ^ 3 ∧ (LockFreeMPSCQueue.slot
      (⟨[⟨some 1, LockFreeMPSCQueue.Slot.State.Occupied⟩,
          ⟨some 2, LockFreeMPSCQueue.Slot.State.Occupied⟩,
          ⟨some 3, LockFreeMPSCQueue.Slot.State.Occupied⟩] ++
          List.replicate 5 ⟨none, LockFreeMPSCQueue.Slot.State.Empty⟩, 8, 7, 3, 0⟩ :
        LockFreeMPSCQueue Nat) i).element.isSome = true) ∧
    (LockFreeMPSCQueue.destructor
      (⟨[⟨some 1, LockFreeMPSCQueue.Slot.State.Occupied⟩,
          ⟨some 2, LockFreeMPSCQueue.Slot.State.Occupied⟩,
          ⟨some 3, LockFreeMPSCQueue.Slot.State.Occupied⟩] ++
          List.replicate 5 ⟨none, LockFreeMPSCQueue.Slot.State.Empty⟩, 8, 7, 3, 0⟩ :
        LockFreeMPSCQueue Nat)).length =
      LockFreeMPSCQueue.live_payloads
      (⟨[⟨some 1, LockFreeMPSCQueue.Slot.State.Occupied⟩,
          ⟨some 2, LockFreeMPSCQueue.Slot.State.Occupied⟩,
          ⟨some 3, LockFreeMPSCQueue.Slot.State.Occupied⟩] ++
          List.replicate 5 ⟨none, LockFreeMPSCQueue.Slot.State.Empty⟩, 8, 7, 3, 0⟩ :
        LockFreeMPSCQueue Nat) ∧
    (LockFreeMPSCQueue.destructor
      (⟨[⟨some 1, LockFreeMPSCQueue.Slot.State.Occupied⟩,
          ⟨some 2, LockFreeMPSCQueue.Slot.State.Occupied⟩,
          ⟨some 3, LockFreeMPSCQueue.Slot.State.Occupied⟩] ++
          List.replicate 5 ⟨none, LockFreeMPSCQueue.Slot.State.Empty⟩, 8, 7, 3, 0⟩ :
        LockFreeMPSCQueue Nat)).length =
      (Op.enqueued [Op.enq 0 1, Op.enq 0 2, Op.enq 0 3]).length - Op.dequeues [Op.enq 0 1, Op.enq 0 2, Op.enq 0 3] :=
  ⟨by decide,
    mpsc_teardown 3 (by decide) (by decide) [Op.enq 0 1, Op.enq 0 2, Op.enq 0 3]
      ⟨⟨[⟨some 1, LockFreeMPSCQueue.Slot.State.Occupied⟩,
          ⟨some 2, LockFreeMPSCQueue.Slot.State.Occupied⟩,
          ⟨some 3, LockFreeMPSCQueue.Slot.State.Occupied⟩] ++
          List.replicate 5 ⟨none, LockFreeMPSCQueue.Slot.State.Empty⟩, 8, 7, 3, 0⟩,
        [], 3, 0⟩
      (by decide)⟩

/-- Witness of `construction_precondition`: `buffer_size = 8`. -/
theorem construction_precondition_witness :
    8 < 2 ^ SIZE_BITS ∧
    (((8 > 1 ∧ 8 &&& wrap (8 + 2 ^ SIZE_BITS - 1) = 0) ↔ ∃ k, 1 ≤ k ∧ 8 = 2 ^ k) ∧
      (((LockFreeSPSCQueue.construct 8 : Option (LockFreeSPSCQueue Nat)).isSome = true) ↔
        ∃ k, 1 ≤ k ∧ 8 = 2 ^ k) ∧
      (((LockFreeMPSCQueue.construct 8 : Option (LockFreeMPSCQueue Nat)).isSome = true) ↔
        ∃ k, 1 ≤ k ∧ 8 = 2 ^ k) ∧
      (∀ q : LockFreeSPSCQueue Nat, LockFreeSPSCQueue.construct 8 = some q →
        q.write_index = 0 ∧ q.read_index = 0 ∧ q.buffer.length = 8 ∧ q.live_payloads = 0) ∧
      (∀ q : LockFreeMPSCQueue Nat, LockFreeMPSCQueue.construct 8 = some q →
        q.write_index = 0 ∧ q.read_index = 0 ∧ q.buffer.length = 8 ∧
          ∀ sl ∈ q.buffer, sl.state = LockFreeMPSCQueue.Slot.State.Empty)) :=
  ⟨by decide, construction_precondition 8 (by decide)⟩

/-- Witness of `spsc_clear_returns_to_fresh`: a ring of 4 slots with `read_index = 2` and
`write_index = 0` (the payloads 3, 4 in slots 2, 3), cleared and then used. -/
theorem spsc_clear_returns_to_fresh_witness :
    LockFreeSPSCQueue.run_fresh (2 ^ 2) [Op.enq 0 1, Op.enq 0 2, Op.enq 0 3, Op.deq, Op.deq, Op.enq 0 4] =
      some ⟨⟨[none, none, some 3, some 4], 4, 3, 0, 2⟩, [1, 2], 4, 2⟩ ∧
    (LockFreeSPSCQueue.clear (⟨[none, none, some 3, some 4], 4, 3, 0, 2⟩ : LockFreeSPSCQueue Nat)).read_index = 0 ∧
    (LockFreeSPSCQueue.clear (⟨[none, none, some 3, some 4], 4, 3, 0, 2⟩ : LockFreeSPSCQueue Nat)).write_index = 0 ∧
    (LockFreeSPSCQueue.clear (⟨[none, none, some 3, some 4], 4, 3, 0, 2⟩ : LockFreeSPSCQueue Nat)).dequeue = Outcome.waits ∧
    (LockFreeSPSCQueue.run
        { queue := LockFreeSPSCQueue.clear (⟨[none, none, some 3, some 4], 4, 3, 0, 2⟩ : LockFreeSPSCQueue Nat),
          dequeued := [], constructed := 0, destroyed := 0 }
        [Op.enq 0 9, Op.enq 0 8, Op.deq]).map LockFreeSPSCQueue.observed =
      (LockFreeSPSCQueue.run_fresh (2 ^ 2) [Op.enq 0 9, Op.enq 0 8, Op.deq]).map
        LockFreeSPSCQueue.observed ∧
    (LockFreeSPSCQueue.clear (⟨[none, none, some 3, some 4], 4, 3, 0, 2⟩ : LockFreeSPSCQueue Nat)).clear =
      LockFreeSPSCQueue.clear (⟨[none, none, some 3, some 4], 4, 3, 0, 2⟩ : LockFreeSPSCQueue Nat) :=
  ⟨by decide,
    spsc_clear_returns_to_fresh 2 (by decide) (by decide) [Op.enq 0 1, Op.enq 0 2, Op.enq 0 3, Op.deq, Op.deq, Op.enq 0 4]
      ⟨⟨[none, none, some 3, some 4], 4, 3, 0, 2⟩, [1, 2], 4, 2⟩ (by decide) [Op.enq 0 9, Op.enq 0 8, Op.deq]⟩

/-- Witness of `mpsc_clear_frame`: a ring of 4 slots in states `Occupied`, `Writing`,
`Empty`, `Occupied`. -/
theorem mpsc_clear_frame_witness :
    (LockFreeMPSCQueue.buffer
      (⟨[⟨some 1, LockFreeMPSCQueue.Slot.State.Occupied⟩,
        ⟨none, LockFreeMPSCQueue.Slot.State.Writing⟩,
        ⟨none, LockFreeMPSCQueue.Slot.State.Empty⟩,
        ⟨some 4, LockFreeMPSCQueue.Slot.State.Occupied⟩], 4, 3, 0, 3⟩ :
      LockFreeMPSCQueue Nat)).length =
      (LockFreeMPSCQueue.buffer_size
      (⟨[⟨some 1, LockFreeMPSCQueue.Slot.State.Occupied⟩,
        ⟨none, LockFreeMPSCQueue.Slot.State.Writing⟩,
        ⟨none, LockFreeMPSCQueue.Slot.State.Empty⟩,
        ⟨some 4, LockFreeMPSCQueue.Slot.State.Occupied⟩], 4, 3, 0, 3⟩ :
      LockFreeMPSCQueue Nat)) ∧
    (LockFreeMPSCQueue.clear
      (⟨[⟨some 1, LockFreeMPSCQueue.Slot.State.Occupied⟩,
        ⟨none, LockFreeMPSCQueue.Slot.State.Writing⟩,
        ⟨none, LockFreeMPSCQueue.Slot.State.Empty⟩,
        ⟨some 4, LockFreeMPSCQueue.Slot.State.Occupied⟩], 4, 3, 0, 3⟩ :
      LockFreeMPSCQueue Nat)).write_index =
      (LockFreeMPSCQueue.write_index
      (⟨[⟨some 1, LockFreeMPSCQueue.Slot.State.Occupied⟩,
        ⟨none, LockFreeMPSCQueue.Slot.State.Writing⟩,
        ⟨none, LockFreeMPSCQueue.Slot.State.Empty⟩,
        ⟨some 4, LockFreeMPSCQueue.Slot.State.Occupied⟩], 4, 3, 0, 3⟩ :
      LockFreeMPSCQueue Nat)) ∧
    (LockFreeMPSCQueue.clear
      (⟨[⟨some 1, LockFreeMPSCQueue.Slot.State.Occupied⟩,
        ⟨none, LockFreeMPSCQueue.Slot.State.Writing⟩,
        ⟨none, LockFreeMPSCQueue.Slot.State.Empty⟩,
        ⟨some 4, LockFreeMPSCQueue.Slot.State.Occupied⟩], 4, 3, 0, 3⟩ :
      LockFreeMPSCQueue Nat)).read_index =
      (LockFreeMPSCQueue.read_index
      (⟨[⟨some 1, LockFreeMPSCQueue.Slot.State.Occupied⟩,
        ⟨none, LockFreeMPSCQueue.Slot.State.Writing⟩,
        ⟨none, LockFreeMPSCQueue.Slot.State.Empty⟩,
        ⟨some 4, LockFreeMPSCQueue.Slot.State.Occupied⟩], 4, 3, 0, 3⟩ :
      LockFreeMPSCQueue Nat)) ∧
    (LockFreeMPSCQueue.clear
      (⟨[⟨some 1, LockFreeMPSCQueue.Slot.State.Occupied⟩,
        ⟨none, LockFreeMPSCQueue.Slot.State.Writing⟩,
        ⟨none, LockFreeMPSCQueue.Slot.State.Empty⟩,
        ⟨some 4, LockFreeMPSCQueue.Slot.State.Occupied⟩], 4, 3, 0, 3⟩ :
      LockFreeMPSCQueue Nat)).buffer.length =
      (LockFreeMPSCQueue.buffer
      (⟨[⟨some 1, LockFreeMPSCQueue.Slot.State.Occupied⟩,
        ⟨none, LockFreeMPSCQueue.Slot.State.Writing⟩,
        ⟨none, LockFreeMPSCQueue.Slot.State.Empty⟩,
        ⟨some 4, LockFreeMPSCQueue.Slot.State.Occupied⟩], 4, 3, 0, 3⟩ :
      LockFreeMPSCQueue Nat)).length ∧
    (LockFreeMPSCQueue.clear_loop
      (⟨[⟨some 1, LockFreeMPSCQueue.Slot.State.Occupied⟩,
        ⟨none, LockFreeMPSCQueue.Slot.State.Writing⟩,
        ⟨none, LockFreeMPSCQueue.Slot.State.Empty⟩,
        ⟨some 4, LockFreeMPSCQueue.Slot.State.Occupied⟩], 4, 3, 0, 3⟩ :
      LockFreeMPSCQueue Nat)).2.Nodup ∧
    ∀ i, i < (LockFreeMPSCQueue.buffer_size
      (⟨[⟨some 1, LockFreeMPSCQueue.Slot.State.Occupied⟩,
        ⟨none, LockFreeMPSCQueue.Slot.State.Writing⟩,
        ⟨none, LockFreeMPSCQueue.Slot.State.Empty⟩,
        ⟨some 4, LockFreeMPSCQueue.Slot.State.Occupied⟩], 4, 3, 0, 3⟩ :
      LockFreeMPSCQueue Nat)) →
      ((LockFreeMPSCQueue.slot
      (⟨[⟨some 1, LockFreeMPSCQueue.Slot.State.Occupied⟩,
        ⟨none, LockFreeMPSCQueue.Slot.State.Writing⟩,
        ⟨none, LockFreeMPSCQueue.Slot.State.Empty⟩,
        ⟨some 4, LockFreeMPSCQueue.Slot.State.Occupied⟩], 4, 3, 0, 3⟩ :
      LockFreeMPSCQueue Nat) i).state = LockFreeMPSCQueue.Slot.State.Occupied →
        (LockFreeMPSCQueue.clear
      (⟨[⟨some 1, LockFreeMPSCQueue.Slot.State.Occupied⟩,
        ⟨none, LockFreeMPSCQueue.Slot.State.Writing⟩,
        ⟨none, LockFreeMPSCQueue.Slot.State.Empty⟩,
        ⟨some 4, LockFreeMPSCQueue.Slot.State.Occupied⟩], 4, 3, 0, 3⟩ :
      LockFreeMPSCQueue Nat)).slot i = ⟨none, LockFreeMPSCQueue.Slot.State.Empty⟩ ∧
        (LockFreeMPSCQueue.clear_loop
      (⟨[⟨some 1, LockFreeMPSCQueue.Slot.State.Occupied⟩,
        ⟨none, LockFreeMPSCQueue.Slot.State.Writing⟩,
        ⟨none, LockFreeMPSCQueue.Slot.State.Empty⟩,
        ⟨some 4, LockFreeMPSCQueue.Slot.State.Occupied⟩], 4, 3, 0, 3⟩ :
      LockFreeMPSCQueue Nat)).2.count i = 1) ∧
      ((LockFreeMPSCQueue.slot
      (⟨[⟨some 1, LockFreeMPSCQueue.Slot.State.Occupied⟩,
        ⟨none, LockFreeMPSCQueue.Slot.State.Writing⟩,
        ⟨none, LockFreeMPSCQueue.Slot.State.Empty⟩,
        ⟨some 4, LockFreeMPSCQueue.Slot.State.Occupied⟩], 4, 3, 0, 3⟩ :
      LockFreeMPSCQueue Nat) i).state ≠ LockFreeMPSCQueue.Slot.State.Occupied →
        (LockFreeMPSCQueue.clear
      (⟨[⟨some 1, LockFreeMPSCQueue.Slot.State.Occupied⟩,
        ⟨none, LockFreeMPSCQueue.Slot.State.Writing⟩,
        ⟨none, LockFreeMPSCQueue.Slot.State.Empty⟩,
        ⟨some 4, LockFreeMPSCQueue.Slot.State.Occupied⟩], 4, 3, 0, 3⟩ :
      LockFreeMPSCQueue Nat)).slot i =
          LockFreeMPSCQueue.slot
      (⟨[⟨some 1, LockFreeMPSCQueue.Slot.State.Occupied⟩,
        ⟨none, LockFreeMPSCQueue.Slot.State.Writing⟩,
        ⟨none, LockFreeMPSCQueue.Slot.State.Empty⟩,
        ⟨some 4, LockFreeMPSCQueue.Slot.State.Occupied⟩], 4, 3, 0, 3⟩ :
      LockFreeMPSCQueue Nat) i ∧
        i ∉ (LockFreeMPSCQueue.clear_loop
      (⟨[⟨some 1, LockFreeMPSCQueue.Slot.State.Occupied⟩,
        ⟨none, LockFreeMPSCQueue.Slot.State.Writing⟩,
        ⟨none, LockFreeMPSCQueue.Slot.State.Empty⟩,
        ⟨some 4, LockFreeMPSCQueue.Slot.State.Occupied⟩], 4, 3, 0, 3⟩ :
      LockFreeMPSCQueue Nat)).2) :=
  ⟨by decide,
    mpsc_clear_frame
      (⟨[⟨some 1, LockFreeMPSCQueue.Slot.State.Occupied⟩,
        ⟨none, LockFreeMPSCQueue.Slot.State.Writing⟩,
        ⟨none, LockFreeMPSCQueue.Slot.State.Empty⟩,
        ⟨some 4, LockFreeMPSCQueue.Slot.State.Occupied⟩], 4, 3, 0, 3⟩ :
      LockFreeMPSCQueue Nat) (by decide)⟩

/-- Witness of `balanced_use_returns_to_empty`: 3 values through rings of 2 slots; both
cursors end at `3 mod 2 = 1`. -/
theorem balanced_use_returns_to_empty_witness :
    ((LockFreeSPSCQueue.run_fresh (2 ^ 1) [Op.enq 0 1, Op.deq, Op.enq 0 2, Op.deq, Op.enq 0 3, Op.deq] =
        some ⟨⟨[none, none], 2, 1, 1, 1⟩, [1, 2, 3], 3, 3⟩ ∧
      Op.dequeues [Op.enq 0 1, Op.deq, Op.enq 0 2, Op.deq, Op.enq 0 3, Op.deq] =
        (Op.enqueued [Op.enq 0 1, Op.deq, Op.enq 0 2, Op.deq, Op.enq 0 3, Op.deq]).length) ∧
      (LockFreeMPSCQueue.run_fresh (2 ^ 1) [Op.enq 0 1, Op.deq, Op.enq 0 2, Op.deq, Op.enq 0 3, Op.deq] =
        some ⟨⟨[⟨none, LockFreeMPSCQueue.Slot.State.Empty⟩, ⟨none, LockFreeMPSCQueue.Slot.State.Empty⟩],
        2, 1, 1, 1⟩, [1, 2, 3], 3, 3⟩ ∧
      Op.dequeues [Op.enq 0 1, Op.deq, Op.enq 0 2, Op.deq, Op.enq 0 3, Op.deq] =
        (Op.enqueued [Op.enq 0 1, Op.deq, Op.enq 0 2, Op.deq, Op.enq 0 3, Op.deq]).length)) ∧
    (((⟨[none, none], 2, 1, 1, 1⟩ : LockFreeSPSCQueue Nat)).write_index =
        (Op.enqueued [Op.enq 0 1, Op.deq, Op.enq 0 2, Op.deq, Op.enq 0 3, Op.deq]).length % 2 ^ 1 ∧
      ((⟨[none, none], 2, 1, 1, 1⟩ : LockFreeSPSCQueue Nat)).read_index =
        (Op.enqueued [Op.enq 0 1, Op.deq, Op.enq 0 2, Op.deq, Op.enq 0 3, Op.deq]).length % 2 ^ 1 ∧
      ((⟨[none, none], 2, 1, 1, 1⟩ : LockFreeSPSCQueue Nat)).live_payloads = 0 ∧
      ((⟨[none, none], 2, 1, 1, 1⟩ : LockFreeSPSCQueue Nat)).dequeue = Outcome.waits) ∧
    (LockFreeMPSCQueue.write_index
      (⟨[⟨none, LockFreeMPSCQueue.Slot.State.Empty⟩, ⟨none, LockFreeMPSCQueue.Slot.State.Empty⟩],
        2, 1, 1, 1⟩ : LockFreeMPSCQueue Nat) =
        (Op.enqueued [Op.enq 0 1, Op.deq, Op.enq 0 2, Op.deq, Op.enq 0 3, Op.deq]).length % 2 ^ 1 ∧
      LockFreeMPSCQueue.read_index
      (⟨[⟨none, LockFreeMPSCQueue.Slot.State.Empty⟩, ⟨none, LockFreeMPSCQueue.Slot.State.Empty⟩],
        2, 1, 1, 1⟩ : LockFreeMPSCQueue Nat) =
        (Op.enqueued [Op.enq 0 1, Op.deq, Op.enq 0 2, Op.deq, Op.enq 0 3, Op.deq]).length % 2 ^ 1 ∧
      LockFreeMPSCQueue.live_payloads
      (⟨[⟨none, LockFreeMPSCQueue.Slot.State.Empty⟩, ⟨none, LockFreeMPSCQueue.Slot.State.Empty⟩],
        2, 1, 1, 1⟩ : LockFreeMPSCQueue Nat) = 0 ∧
      (∀ sl ∈ LockFreeMPSCQueue.buffer
      (⟨[⟨none, LockFreeMPSCQueue.Slot.State.Empty⟩, ⟨none, LockFreeMPSCQueue.Slot.State.Empty⟩],
        2, 1, 1, 1⟩ : LockFreeMPSCQueue Nat),
        sl.state = LockFreeMPSCQueue.Slot.State.Empty) ∧
      LockFreeMPSCQueue.dequeue
      (⟨[⟨none, LockFreeMPSCQueue.Slot.State.Empty⟩, ⟨none, LockFreeMPSCQueue.Slot.State.Empty⟩],
        2, 1, 1, 1⟩ : LockFreeMPSCQueue Nat) = Outcome.waits) :=
  ⟨⟨⟨by decide, by decide⟩, by decide, by decide⟩,
    balanced_use_returns_to_empty 1 (by decide) (by decide)
      [Op.enq 0 1, Op.deq, Op.enq 0 2, Op.deq, Op.enq 0 3, Op.deq]
      ⟨⟨[none, none], 2, 1, 1, 1⟩, [1, 2, 3], 3, 3⟩ (by decide) (by decide)
      [Op.enq 0 1, Op.deq, Op.enq 0 2, Op.deq, Op.enq 0 3, Op.deq]
      ⟨⟨[⟨none, LockFreeMPSCQueue.Slot.State.Empty⟩, ⟨none, LockFreeMPSCQueue.Slot.State.Empty⟩],
        2, 1, 1, 1⟩, [1, 2, 3], 3, 3⟩ (by decide) (by decide)⟩

/-- Witness of `mpsc_slot_lifecycle_with_roll_back`: the state of
`mpsc_slot_lifecycle_counterexample`, in which producer 1 is about to roll back slot 0 of
a ring of 2 slots, and the action that does it. -/
theorem mpsc_slot_lifecycle_with_roll_back_witness :
    (LockFreeMPSCQueue.System.exec_fresh (2 ^ 1) 2
      ([LockFreeMPSCQueue.Action.enqueue 1 7, LockFreeMPSCQueue.Action.producer 1 false,
          LockFreeMPSCQueue.Action.producer 1 false] ++
        LockFreeMPSCQueue.Action.complete_enqueue 0 5 ++
        LockFreeMPSCQueue.Action.complete_dequeue ++
        [LockFreeMPSCQueue.Action.producer 1 false,
          LockFreeMPSCQueue.Action.producer 1 false]) =
      some (⟨⟨[⟨none, LockFreeMPSCQueue.Slot.State.Writing⟩,
          ⟨none, LockFreeMPSCQueue.Slot.State.Empty⟩], 2, 1, 1, 1⟩,
        [LockFreeMPSCQueue.Producer.idle, LockFreeMPSCQueue.Producer.roll_back 7 0],
        LockFreeMPSCQueue.Consumer.idle, [5]⟩ : LockFreeMPSCQueue.System Nat) ∧
      LockFreeMPSCQueue.System.step
      (⟨⟨[⟨none, LockFreeMPSCQueue.Slot.State.Writing⟩,
          ⟨none, LockFreeMPSCQueue.Slot.State.Empty⟩], 2, 1, 1, 1⟩,
        [LockFreeMPSCQueue.Producer.idle, LockFreeMPSCQueue.Producer.roll_back 7 0],
        LockFreeMPSCQueue.Consumer.idle, [5]⟩ : LockFreeMPSCQueue.System Nat)
        (LockFreeMPSCQueue.Action.producer 1 false : LockFreeMPSCQueue.Action Nat) =
      some (⟨⟨[⟨none, LockFreeMPSCQueue.Slot.State.Empty⟩,
          ⟨none, LockFreeMPSCQueue.Slot.State.Empty⟩], 2, 1, 1, 1⟩,
        [LockFreeMPSCQueue.Producer.idle, LockFreeMPSCQueue.Producer.load_write 7],
        LockFreeMPSCQueue.Consumer.idle, [5]⟩ : LockFreeMPSCQueue.System Nat) ∧
      (LockFreeMPSCQueue.buffer
      (⟨[⟨some 1, LockFreeMPSCQueue.Slot.State.Occupied⟩,
        ⟨none, LockFreeMPSCQueue.Slot.State.Empty⟩], 2, 1, 1, 0⟩ :
      LockFreeMPSCQueue Nat)).length =
      LockFreeMPSCQueue.buffer_size
      (⟨[⟨some 1, LockFreeMPSCQueue.Slot.State.Occupied⟩,
        ⟨none, LockFreeMPSCQueue.Slot.State.Empty⟩], 2, 1, 1, 0⟩ :
      LockFreeMPSCQueue Nat)) ∧
    ((∀ q0 : LockFreeMPSCQueue Nat, LockFreeMPSCQueue.construct (2 ^ 1) = some q0 →
        ∀ sl ∈ q0.buffer, sl.state = LockFreeMPSCQueue.Slot.State.Empty) ∧
      (∀ i, (LockFreeMPSCQueue.slot (LockFreeMPSCQueue.System.queue
      (⟨⟨[⟨none, LockFreeMPSCQueue.Slot.State.Empty⟩,
          ⟨none, LockFreeMPSCQueue.Slot.State.Empty⟩], 2, 1, 1, 1⟩,
        [LockFreeMPSCQueue.Producer.idle, LockFreeMPSCQueue.Producer.load_write 7],
        LockFreeMPSCQueue.Consumer.idle, [5]⟩ : LockFreeMPSCQueue.System Nat)) i).state ≠
          (LockFreeMPSCQueue.slot (LockFreeMPSCQueue.System.queue
      (⟨⟨[⟨none, LockFreeMPSCQueue.Slot.State.Writing⟩,
          ⟨none, LockFreeMPSCQueue.Slot.State.Empty⟩], 2, 1, 1, 1⟩,
        [LockFreeMPSCQueue.Producer.idle, LockFreeMPSCQueue.Producer.roll_back 7 0],
        LockFreeMPSCQueue.Consumer.idle, [5]⟩ : LockFreeMPSCQueue.System Nat)) i).state →
        LockFreeMPSCQueue.Slot.State.lifecycle
            (LockFreeMPSCQueue.slot (LockFreeMPSCQueue.System.queue
      (⟨⟨[⟨none, LockFreeMPSCQueue.Slot.State.Writing⟩,
          ⟨none, LockFreeMPSCQueue.Slot.State.Empty⟩], 2, 1, 1, 1⟩,
        [LockFreeMPSCQueue.Producer.idle, LockFreeMPSCQueue.Producer.roll_back 7 0],
        LockFreeMPSCQueue.Consumer.idle, [5]⟩ : LockFreeMPSCQueue.System Nat)) i).state
            (LockFreeMPSCQueue.slot (LockFreeMPSCQueue.System.queue
      (⟨⟨[⟨none, LockFreeMPSCQueue.Slot.State.Empty⟩,
          ⟨none, LockFreeMPSCQueue.Slot.State.Empty⟩], 2, 1, 1, 1⟩,
        [LockFreeMPSCQueue.Producer.idle, LockFreeMPSCQueue.Producer.load_write 7],
        LockFreeMPSCQueue.Consumer.idle, [5]⟩ : LockFreeMPSCQueue.System Nat)) i).state = true ∨
          ((LockFreeMPSCQueue.slot (LockFreeMPSCQueue.System.queue
      (⟨⟨[⟨none, LockFreeMPSCQueue.Slot.State.Writing⟩,
          ⟨none, LockFreeMPSCQueue.Slot.State.Empty⟩], 2, 1, 1, 1⟩,
        [LockFreeMPSCQueue.Producer.idle, LockFreeMPSCQueue.Producer.roll_back 7 0],
        LockFreeMPSCQueue.Consumer.idle, [5]⟩ : LockFreeMPSCQueue.System Nat)) i).state = LockFreeMPSCQueue.Slot.State.Writing ∧
            (LockFreeMPSCQueue.slot (LockFreeMPSCQueue.System.queue
      (⟨⟨[⟨none, LockFreeMPSCQueue.Slot.State.Empty⟩,
          ⟨none, LockFreeMPSCQueue.Slot.State.Empty⟩], 2, 1, 1, 1⟩,
        [LockFreeMPSCQueue.Producer.idle, LockFreeMPSCQueue.Producer.load_write 7],
        LockFreeMPSCQueue.Consumer.idle, [5]⟩ : LockFreeMPSCQueue.System Nat)) i).state = LockFreeMPSCQueue.Slot.State.Empty ∧
            ∃ p weak_fail x, (LockFreeMPSCQueue.Action.producer 1 false : LockFreeMPSCQueue.Action Nat) =
                LockFreeMPSCQueue.Action.producer p weak_fail ∧
              (LockFreeMPSCQueue.System.producers
      (⟨⟨[⟨none, LockFreeMPSCQueue.Slot.State.Writing⟩,
          ⟨none, LockFreeMPSCQueue.Slot.State.Empty⟩], 2, 1, 1, 1⟩,
        [LockFreeMPSCQueue.Producer.idle, LockFreeMPSCQueue.Producer.roll_back 7 0],
        LockFreeMPSCQueue.Consumer.idle, [5]⟩ : LockFreeMPSCQueue.System Nat))[p]? =
                some (LockFreeMPSCQueue.Producer.roll_back x i))) ∧
      (∀ i, (LockFreeMPSCQueue.slot (LockFreeMPSCQueue.clear
      (⟨[⟨some 1, LockFreeMPSCQueue.Slot.State.Occupied⟩,
        ⟨none, LockFreeMPSCQueue.Slot.State.Empty⟩], 2, 1, 1, 0⟩ :
      LockFreeMPSCQueue Nat)) i).state ≠
          (LockFreeMPSCQueue.slot
      (⟨[⟨some 1, LockFreeMPSCQueue.Slot.State.Occupied⟩,
        ⟨none, LockFreeMPSCQueue.Slot.State.Empty⟩], 2, 1, 1, 0⟩ :
      LockFreeMPSCQueue Nat) i).state →
        (LockFreeMPSCQueue.slot
      (⟨[⟨some 1, LockFreeMPSCQueue.Slot.State.Occupied⟩,
        ⟨none, LockFreeMPSCQueue.Slot.State.Empty⟩], 2, 1, 1, 0⟩ :
      LockFreeMPSCQueue Nat) i).state = LockFreeMPSCQueue.Slot.State.Occupied ∧
          (LockFreeMPSCQueue.slot (LockFreeMPSCQueue.clear
      (⟨[⟨some 1, LockFreeMPSCQueue.Slot.State.Occupied⟩,
        ⟨none, LockFreeMPSCQueue.Slot.State.Empty⟩], 2, 1, 1, 0⟩ :
      LockFreeMPSCQueue Nat)) i).state = LockFreeMPSCQueue.Slot.State.Empty)) :=
  ⟨⟨by decide, by decide, by decide⟩,
    mpsc_slot_lifecycle_with_roll_back 1 (by decide) (by decide) 2
      ([LockFreeMPSCQueue.Action.enqueue 1 7, LockFreeMPSCQueue.Action.producer 1 false,
          LockFreeMPSCQueue.Action.producer 1 false] ++
        LockFreeMPSCQueue.Action.complete_enqueue 0 5 ++
        LockFreeMPSCQueue.Action.complete_dequeue ++
        [LockFreeMPSCQueue.Action.producer 1 false,
          LockFreeMPSCQueue.Action.producer 1 false])
      (⟨⟨[⟨none, LockFreeMPSCQueue.Slot.State.Writing⟩,
          ⟨none, LockFreeMPSCQueue.Slot.State.Empty⟩], 2, 1, 1, 1⟩,
        [LockFreeMPSCQueue.Producer.idle, LockFreeMPSCQueue.Producer.roll_back 7 0],
        LockFreeMPSCQueue.Consumer.idle, [5]⟩ : LockFreeMPSCQueue.System Nat) (by decide)
      (LockFreeMPSCQueue.Action.producer 1 false : LockFreeMPSCQueue.Action Nat)
      (⟨⟨[⟨none, LockFreeMPSCQueue.Slot.State.Empty⟩,
          ⟨none, LockFreeMPSCQueue.Slot.State.Empty⟩], 2, 1, 1, 1⟩,
        [LockFreeMPSCQueue.Producer.idle, LockFreeMPSCQueue.Producer.load_write 7],
        LockFreeMPSCQueue.Consumer.idle, [5]⟩ : LockFreeMPSCQueue.System Nat) (by decide)
      (⟨[⟨some 1, LockFreeMPSCQueue.Slot.State.Occupied⟩,
        ⟨none, LockFreeMPSCQueue.Slot.State.Empty⟩], 2, 1, 1, 0⟩ :
      LockFreeMPSCQueue Nat) (by decide)⟩

/-- Witness of `failed_attempt_atomic`: a ring of 4 empty slots with `write_index = 1`,
against which a producer runs a pass with the stale observation `w = 0`, `r = 0`. -/
theorem failed_attempt_atomic_witness :
    (2 ≤ 63 ∧
      LockFreeMPSCQueue.modulo_mask
      (⟨List.replicate 4 ⟨none, LockFreeMPSCQueue.Slot.State.Empty⟩, 4, 3, 1, 0⟩ :
      LockFreeMPSCQueue Nat) = 2 ^ 2 - 1 ∧
      (LockFreeMPSCQueue.buffer
      (⟨List.replicate 4 ⟨none, LockFreeMPSCQueue.Slot.State.Empty⟩, 4, 3, 1, 0⟩ :
      LockFreeMPSCQueue Nat)).length = 2 ^ 2 ∧
      0 < 2 ^ 2) ∧
    ((∀ slot_weak_fail index_weak_fail,
        (LockFreeMPSCQueue.enqueue_pass
      (⟨List.replicate 4 ⟨none, LockFreeMPSCQueue.Slot.State.Empty⟩, 4, 3, 1, 0⟩ :
      LockFreeMPSCQueue Nat) 0 0 slot_weak_fail index_weak_fail).1 = false →
        (LockFreeMPSCQueue.enqueue_pass
      (⟨List.replicate 4 ⟨none, LockFreeMPSCQueue.Slot.State.Empty⟩, 4, 3, 1, 0⟩ :
      LockFreeMPSCQueue Nat) 0 0 slot_weak_fail index_weak_fail).2 =
      (⟨List.replicate 4 ⟨none, LockFreeMPSCQueue.Slot.State.Empty⟩, 4, 3, 1, 0⟩ :
      LockFreeMPSCQueue Nat)) ∧
      ((LockFreeMPSCQueue.enqueue_pass
      (⟨List.replicate 4 ⟨none, LockFreeMPSCQueue.Slot.State.Empty⟩, 4, 3, 1, 0⟩ :
      LockFreeMPSCQueue Nat) 0 0 false false).1 = false ↔
        (LockFreeMPSCQueue.distance
      (⟨List.replicate 4 ⟨none, LockFreeMPSCQueue.Slot.State.Empty⟩, 4, 3, 1, 0⟩ :
      LockFreeMPSCQueue Nat) 0 0 = 1 ∨
          (LockFreeMPSCQueue.slot
      (⟨List.replicate 4 ⟨none, LockFreeMPSCQueue.Slot.State.Empty⟩, 4, 3, 1, 0⟩ :
      LockFreeMPSCQueue Nat) 0).state ≠ LockFreeMPSCQueue.Slot.State.Empty ∨
          LockFreeMPSCQueue.write_index
      (⟨List.replicate 4 ⟨none, LockFreeMPSCQueue.Slot.State.Empty⟩, 4, 3, 1, 0⟩ :
      LockFreeMPSCQueue Nat) ≠ 0)) ∧
      (∀ slot_weak_fail index_weak_fail,
        (LockFreeMPSCQueue.enqueue_pass
      (⟨List.replicate 4 ⟨none, LockFreeMPSCQueue.Slot.State.Empty⟩, 4, 3, 1, 0⟩ :
      LockFreeMPSCQueue Nat) 0 0 slot_weak_fail index_weak_fail).1 = true →
        ((LockFreeMPSCQueue.enqueue_pass
      (⟨List.replicate 4 ⟨none, LockFreeMPSCQueue.Slot.State.Empty⟩, 4, 3, 1, 0⟩ :
      LockFreeMPSCQueue Nat) 0 0 slot_weak_fail index_weak_fail).2.slot 0).state = LockFreeMPSCQueue.Slot.State.Writing ∧
          (((LockFreeMPSCQueue.enqueue_pass
      (⟨List.replicate 4 ⟨none, LockFreeMPSCQueue.Slot.State.Empty⟩, 4, 3, 1, 0⟩ :
      LockFreeMPSCQueue Nat) 0 0 slot_weak_fail index_weak_fail).2.enqueue_publish 0 9).slot 0 =
            ⟨some 9, LockFreeMPSCQueue.Slot.State.Occupied⟩) ∧
          ((LockFreeMPSCQueue.enqueue_pass
      (⟨List.replicate 4 ⟨none, LockFreeMPSCQueue.Slot.State.Empty⟩, 4, 3, 1, 0⟩ :
      LockFreeMPSCQueue Nat) 0 0 slot_weak_fail index_weak_fail).2.enqueue_publish 0 9).write_index
            = (0 + 1) &&& (2 ^ 2 - 1) ∧
          ((LockFreeMPSCQueue.enqueue_pass
      (⟨List.replicate 4 ⟨none, LockFreeMPSCQueue.Slot.State.Empty⟩, 4, 3, 1, 0⟩ :
      LockFreeMPSCQueue Nat) 0 0 slot_weak_fail index_weak_fail).2.enqueue_publish 0 9).read_index
            = LockFreeMPSCQueue.read_index
      (⟨List.replicate 4 ⟨none, LockFreeMPSCQueue.Slot.State.Empty⟩, 4, 3, 1, 0⟩ :
      LockFreeMPSCQueue Nat) ∧
          ∀ i, i ≠ 0 →
            ((LockFreeMPSCQueue.enqueue_pass
      (⟨List.replicate 4 ⟨none, LockFreeMPSCQueue.Slot.State.Empty⟩, 4, 3, 1, 0⟩ :
      LockFreeMPSCQueue Nat) 0 0 slot_weak_fail index_weak_fail).2.enqueue_publish 0 9).buffer[i]?
              = (LockFreeMPSCQueue.buffer
      (⟨List.replicate 4 ⟨none, LockFreeMPSCQueue.Slot.State.Empty⟩, 4, 3, 1, 0⟩ :
      LockFreeMPSCQueue Nat))[i]?)) :=
  ⟨⟨by decide, by decide, by decide, by decide⟩,
    failed_attempt_atomic 2 (by decide)
      (⟨List.replicate 4 ⟨none, LockFreeMPSCQueue.Slot.State.Empty⟩, 4, 3, 1, 0⟩ :
      LockFreeMPSCQueue Nat) (by decide) (by decide) 0 0 (by decide) 9⟩

/-- Witness of `single_writer_cursors`: rings of 4 slots holding the payload 1 in slot 0
(`write_index = 1`, `read_index = 0`). -/
theorem single_writer_cursors_witness :
    (2 ≤ 63 ∧
      (LockFreeSPSCQueue.modulo_mask
      (⟨[some 1, none, none, none], 4, 3, 1, 0⟩ : LockFreeSPSCQueue Nat) = 2 ^ 2 - 1 ∧
      LockFreeSPSCQueue.write_index
      (⟨[some 1, none, none, none], 4, 3, 1, 0⟩ : LockFreeSPSCQueue Nat) < 2 ^ 2 ∧
      LockFreeSPSCQueue.read_index
      (⟨[some 1, none, none, none], 4, 3, 1, 0⟩ : LockFreeSPSCQueue Nat) < 2 ^ 2) ∧
      (LockFreeMPSCQueue.modulo_mask
      (⟨[⟨some 1, LockFreeMPSCQueue.Slot.State.Occupied⟩,
        ⟨none, LockFreeMPSCQueue.Slot.State.Empty⟩,
        ⟨none, LockFreeMPSCQueue.Slot.State.Empty⟩,
        ⟨none, LockFreeMPSCQueue.Slot.State.Empty⟩], 4, 3, 1, 0⟩ :
      LockFreeMPSCQueue Nat) = 2 ^ 2 - 1 ∧
      LockFreeMPSCQueue.write_index
      (⟨[⟨some 1, LockFreeMPSCQueue.Slot.State.Occupied⟩,
        ⟨none, LockFreeMPSCQueue.Slot.State.Empty⟩,
        ⟨none, LockFreeMPSCQueue.Slot.State.Empty⟩,
        ⟨none, LockFreeMPSCQueue.Slot.State.Empty⟩], 4, 3, 1, 0⟩ :
      LockFreeMPSCQueue Nat) < 2 ^ 2 ∧
      LockFreeMPSCQueue.read_index
      (⟨[⟨some 1, LockFreeMPSCQueue.Slot.State.Occupied⟩,
        ⟨none, LockFreeMPSCQueue.Slot.State.Empty⟩,
        ⟨none, LockFreeMPSCQueue.Slot.State.Empty⟩,
        ⟨none, LockFreeMPSCQueue.Slot.State.Empty⟩], 4, 3, 1, 0⟩ :
      LockFreeMPSCQueue Nat) < 2 ^ 2)) ∧
    ((∀ x q', LockFreeSPSCQueue.enqueue
      (⟨[some 1, none, none, none], 4, 3, 1, 0⟩ : LockFreeSPSCQueue Nat) x = Outcome.done q' →
        q'.read_index = LockFreeSPSCQueue.read_index
      (⟨[some 1, none, none, none], 4, 3, 1, 0⟩ : LockFreeSPSCQueue Nat) ∧
        q'.write_index = (LockFreeSPSCQueue.write_index
      (⟨[some 1, none, none, none], 4, 3, 1, 0⟩ : LockFreeSPSCQueue Nat) + 1) % 2 ^ 2 ∧
        ∀ i, i ≠ LockFreeSPSCQueue.write_index
      (⟨[some 1, none, none, none], 4, 3, 1, 0⟩ : LockFreeSPSCQueue Nat) →
          q'.buffer[i]? = (LockFreeSPSCQueue.buffer
      (⟨[some 1, none, none, none], 4, 3, 1, 0⟩ : LockFreeSPSCQueue Nat))[i]?) ∧
      (∀ v q', LockFreeSPSCQueue.dequeue
      (⟨[some 1, none, none, none], 4, 3, 1, 0⟩ : LockFreeSPSCQueue Nat) = Outcome.done (v, q') →
        q'.write_index = LockFreeSPSCQueue.write_index
      (⟨[some 1, none, none, none], 4, 3, 1, 0⟩ : LockFreeSPSCQueue Nat) ∧
        q'.read_index = (LockFreeSPSCQueue.read_index
      (⟨[some 1, none, none, none], 4, 3, 1, 0⟩ : LockFreeSPSCQueue Nat) + 1) % 2 ^ 2 ∧
        ∀ i, i ≠ LockFreeSPSCQueue.read_index
      (⟨[some 1, none, none, none], 4, 3, 1, 0⟩ : LockFreeSPSCQueue Nat) →
          q'.buffer[i]? = (LockFreeSPSCQueue.buffer
      (⟨[some 1, none, none, none], 4, 3, 1, 0⟩ : LockFreeSPSCQueue Nat))[i]?) ∧
      (∀ x q', LockFreeMPSCQueue.enqueue
      (⟨[⟨some 1, LockFreeMPSCQueue.Slot.State.Occupied⟩,
        ⟨none, LockFreeMPSCQueue.Slot.State.Empty⟩,
        ⟨none, LockFreeMPSCQueue.Slot.State.Empty⟩,
        ⟨none, LockFreeMPSCQueue.Slot.State.Empty⟩], 4, 3, 1, 0⟩ :
      LockFreeMPSCQueue Nat) x = Outcome.done q' →
        q'.read_index = LockFreeMPSCQueue.read_index
      (⟨[⟨some 1, LockFreeMPSCQueue.Slot.State.Occupied⟩,
        ⟨none, LockFreeMPSCQueue.Slot.State.Empty⟩,
        ⟨none, LockFreeMPSCQueue.Slot.State.Empty⟩,
        ⟨none, LockFreeMPSCQueue.Slot.State.Empty⟩], 4, 3, 1, 0⟩ :
      LockFreeMPSCQueue Nat) ∧
        q'.write_index = (LockFreeMPSCQueue.write_index
      (⟨[⟨some 1, LockFreeMPSCQueue.Slot.State.Occupied⟩,
        ⟨none, LockFreeMPSCQueue.Slot.State.Empty⟩,
        ⟨none, LockFreeMPSCQueue.Slot.State.Empty⟩,
        ⟨none, LockFreeMPSCQueue.Slot.State.Empty⟩], 4, 3, 1, 0⟩ :
      LockFreeMPSCQueue Nat) + 1) % 2 ^ 2 ∧
        ∀ i, i ≠ LockFreeMPSCQueue.write_index
      (⟨[⟨some 1, LockFreeMPSCQueue.Slot.State.Occupied⟩,
        ⟨none, LockFreeMPSCQueue.Slot.State.Empty⟩,
        ⟨none, LockFreeMPSCQueue.Slot.State.Empty⟩,
        ⟨none, LockFreeMPSCQueue.Slot.State.Empty⟩], 4, 3, 1, 0⟩ :
      LockFreeMPSCQueue Nat) →
          q'.buffer[i]? = (LockFreeMPSCQueue.buffer
      (⟨[⟨some 1, LockFreeMPSCQueue.Slot.State.Occupied⟩,
        ⟨none, LockFreeMPSCQueue.Slot.State.Empty⟩,
        ⟨none, LockFreeMPSCQueue.Slot.State.Empty⟩,
        ⟨none, LockFreeMPSCQueue.Slot.State.Empty⟩], 4, 3, 1, 0⟩ :
      LockFreeMPSCQueue Nat))[i]?) ∧
      (∀ v q', LockFreeMPSCQueue.dequeue
      (⟨[⟨some 1, LockFreeMPSCQueue.Slot.State.Occupied⟩,
        ⟨none, LockFreeMPSCQueue.Slot.State.Empty⟩,
        ⟨none, LockFreeMPSCQueue.Slot.State.Empty⟩,
        ⟨none, LockFreeMPSCQueue.Slot.State.Empty⟩], 4, 3, 1, 0⟩ :
      LockFreeMPSCQueue Nat) = Outcome.done (v, q') →
        q'.write_index = LockFreeMPSCQueue.write_index
      (⟨[⟨some 1, LockFreeMPSCQueue.Slot.State.Occupied⟩,
        ⟨none, LockFreeMPSCQueue.Slot.State.Empty⟩,
        ⟨none, LockFreeMPSCQueue.Slot.State.Empty⟩,
        ⟨none, LockFreeMPSCQueue.Slot.State.Empty⟩], 4, 3, 1, 0⟩ :
      LockFreeMPSCQueue Nat) ∧
        q'.read_index = (LockFreeMPSCQueue.read_index
      (⟨[⟨some 1, LockFreeMPSCQueue.Slot.State.Occupied⟩,
        ⟨none, LockFreeMPSCQueue.Slot.State.Empty⟩,
        ⟨none, LockFreeMPSCQueue.Slot.State.Empty⟩,
        ⟨none, LockFreeMPSCQueue.Slot.State.Empty⟩], 4, 3, 1, 0⟩ :
      LockFreeMPSCQueue Nat) + 1) % 2 ^ 2 ∧
        ∀ i, i ≠ LockFreeMPSCQueue.read_index
      (⟨[⟨some 1, LockFreeMPSCQueue.Slot.State.Occupied⟩,
        ⟨none, LockFreeMPSCQueue.Slot.State.Empty⟩,
        ⟨none, LockFreeMPSCQueue.Slot.State.Empty⟩,
        ⟨none, LockFreeMPSCQueue.Slot.State.Empty⟩], 4, 3, 1, 0⟩ :
      LockFreeMPSCQueue Nat) →
          q'.buffer[i]? = (LockFreeMPSCQueue.buffer
      (⟨[⟨some 1, LockFreeMPSCQueue.Slot.State.Occupied⟩,
        ⟨none, LockFreeMPSCQueue.Slot.State.Empty⟩,
        ⟨none, LockFreeMPSCQueue.Slot.State.Empty⟩,
        ⟨none, LockFreeMPSCQueue.Slot.State.Empty⟩], 4, 3, 1, 0⟩ :
      LockFreeMPSCQueue Nat))[i]?)) :=
  ⟨⟨by decide, ⟨by decide, by decide, by decide⟩, by decide, by decide, by decide⟩,
    single_writer_cursors 2 (by decide)
      (⟨[some 1, none, none, none], 4, 3, 1, 0⟩ : LockFreeSPSCQueue Nat) (by decide) (by decide) (by decide)
      (⟨[⟨some 1, LockFreeMPSCQueue.Slot.State.Occupied⟩,
        ⟨none, LockFreeMPSCQueue.Slot.State.Empty⟩,
        ⟨none, LockFreeMPSCQueue.Slot.State.Empty⟩,
        ⟨none, LockFreeMPSCQueue.Slot.State.Empty⟩], 4, 3, 1, 0⟩ :
      LockFreeMPSCQueue Nat) (by decide) (by decide) (by decide)⟩

/-- Witness of `mpsc_cursor_state_agreement`: a ring of 4 slots after two enqueues and one
dequeue (`read_index = 1`, `write_index = 2`, slot 1 `Occupied`). -/
theorem mpsc_cursor_state_agreement_witness :
    LockFreeMPSCQueue.run_fresh (2 ^ 2) [Op.enq 0 1, Op.enq 0 2, Op.deq] =
      some ⟨⟨[⟨none, LockFreeMPSCQueue.Slot.State.Empty⟩,
          ⟨some 2, LockFreeMPSCQueue.Slot.State.Occupied⟩,
          ⟨none, LockFreeMPSCQueue.Slot.State.Empty⟩,
          ⟨none, LockFreeMPSCQueue.Slot.State.Empty⟩], 4, 3, 2, 1⟩,
        [1], 2, 1⟩ ∧
    ((∀ i, i < 2 ^ 2 →
        (LockFreeMPSCQueue.slot
      (⟨[⟨none, LockFreeMPSCQueue.Slot.State.Empty⟩,
          ⟨some 2, LockFreeMPSCQueue.Slot.State.Occupied⟩,
          ⟨none, LockFreeMPSCQueue.Slot.State.Empty⟩,
          ⟨none, LockFreeMPSCQueue.Slot.State.Empty⟩], 4, 3, 2, 1⟩ :
        LockFreeMPSCQueue Nat) i).state ≠ LockFreeMPSCQueue.Slot.State.Writing ∧
        ((LockFreeMPSCQueue.slot
      (⟨[⟨none, LockFreeMPSCQueue.Slot.State.Empty⟩,
          ⟨some 2, LockFreeMPSCQueue.Slot.State.Occupied⟩,
          ⟨none, LockFreeMPSCQueue.Slot.State.Empty⟩,
          ⟨none, LockFreeMPSCQueue.Slot.State.Empty⟩], 4, 3, 2, 1⟩ :
        LockFreeMPSCQueue Nat) i).state = LockFreeMPSCQueue.Slot.State.Occupied ↔
          ((i : Int) - ((LockFreeMPSCQueue.read_index
      (⟨[⟨none, LockFreeMPSCQueue.Slot.State.Empty⟩,
          ⟨some 2, LockFreeMPSCQueue.Slot.State.Occupied⟩,
          ⟨none, LockFreeMPSCQueue.Slot.State.Empty⟩,
          ⟨none, LockFreeMPSCQueue.Slot.State.Empty⟩], 4, 3, 2, 1⟩ :
        LockFreeMPSCQueue Nat) : Nat) : Int)) % ((2 ^ 2 : Nat) : Int) <
            (((LockFreeMPSCQueue.write_index
      (⟨[⟨none, LockFreeMPSCQueue.Slot.State.Empty⟩,
          ⟨some 2, LockFreeMPSCQueue.Slot.State.Occupied⟩,
          ⟨none, LockFreeMPSCQueue.Slot.State.Empty⟩,
          ⟨none, LockFreeMPSCQueue.Slot.State.Empty⟩], 4, 3, 2, 1⟩ :
        LockFreeMPSCQueue Nat) : Nat) : Int) - ((LockFreeMPSCQueue.read_index
      (⟨[⟨none, LockFreeMPSCQueue.Slot.State.Empty⟩,
          ⟨some 2, LockFreeMPSCQueue.Slot.State.Occupied⟩,
          ⟨none, LockFreeMPSCQueue.Slot.State.Empty⟩,
          ⟨none, LockFreeMPSCQueue.Slot.State.Empty⟩], 4, 3, 2, 1⟩ :
        LockFreeMPSCQueue Nat) : Nat) : Int)) %
              ((2 ^ 2 : Nat) : Int)) ∧
        ((LockFreeMPSCQueue.slot
      (⟨[⟨none, LockFreeMPSCQueue.Slot.State.Empty⟩,
          ⟨some 2, LockFreeMPSCQueue.Slot.State.Occupied⟩,
          ⟨none, LockFreeMPSCQueue.Slot.State.Empty⟩,
          ⟨none, LockFreeMPSCQueue.Slot.State.Empty⟩], 4, 3, 2, 1⟩ :
        LockFreeMPSCQueue Nat) i).state ≠ LockFreeMPSCQueue.Slot.State.Occupied →
          (LockFreeMPSCQueue.slot
      (⟨[⟨none, LockFreeMPSCQueue.Slot.State.Empty⟩,
          ⟨some 2, LockFreeMPSCQueue.Slot.State.Occupied⟩,
          ⟨none, LockFreeMPSCQueue.Slot.State.Empty⟩,
          ⟨none, LockFreeMPSCQueue.Slot.State.Empty⟩], 4, 3, 2, 1⟩ :
        LockFreeMPSCQueue Nat) i).state = LockFreeMPSCQueue.Slot.State.Empty)) ∧
      (LockFreeMPSCQueue.dequeue
      (⟨[⟨none, LockFreeMPSCQueue.Slot.State.Empty⟩,
          ⟨some 2, LockFreeMPSCQueue.Slot.State.Occupied⟩,
          ⟨none, LockFreeMPSCQueue.Slot.State.Empty⟩,
          ⟨none, LockFreeMPSCQueue.Slot.State.Empty⟩], 4, 3, 2, 1⟩ :
        LockFreeMPSCQueue Nat) = Outcome.waits ↔
        LockFreeMPSCQueue.write_index
      (⟨[⟨none, LockFreeMPSCQueue.Slot.State.Empty⟩,
          ⟨some 2, LockFreeMPSCQueue.Slot.State.Occupied⟩,
          ⟨none, LockFreeMPSCQueue.Slot.State.Empty⟩,
          ⟨none, LockFreeMPSCQueue.Slot.State.Empty⟩], 4, 3, 2, 1⟩ :
        LockFreeMPSCQueue Nat) = LockFreeMPSCQueue.read_index
      (⟨[⟨none, LockFreeMPSCQueue.Slot.State.Empty⟩,
          ⟨some 2, LockFreeMPSCQueue.Slot.State.Occupied⟩,
          ⟨none, LockFreeMPSCQueue.Slot.State.Empty⟩,
          ⟨none, LockFreeMPSCQueue.Slot.State.Empty⟩], 4, 3, 2, 1⟩ :
        LockFreeMPSCQueue Nat))) :=
  ⟨by decide,
    mpsc_cursor_state_agreement 2 (by decide) (by decide) [Op.enq 0 1, Op.enq 0 2, Op.deq]
      ⟨⟨[⟨none, LockFreeMPSCQueue.Slot.State.Empty⟩,
          ⟨some 2, LockFreeMPSCQueue.Slot.State.Occupied⟩,
          ⟨none, LockFreeMPSCQueue.Slot.State.Empty⟩,
          ⟨none, LockFreeMPSCQueue.Slot.State.Empty⟩], 4, 3, 2, 1⟩,
        [1], 2, 1⟩ (by decide)⟩
